import Mathlib

/-!
# smartLED: streaming double-buffer encoder for WS2811 / WS2812B strips

A shallow embedding of `src/src/smartLED.c` and `src/inc/smartLED.h`, the newer
variant of the driver.

Modelling conventions

* `smartLED_t` is the C struct.  Every integer field is a `Nat`; the C types
  bound them (`Configured` records those bounds together with what setup
  establishes).  Narrowing casts and the wrapping `+=` on the 32-bit cycle
  counter are written with an explicit `%`.
* The two pointers `_colorsData` and `_dmaBuffer` are modelled as the memory they
  point to: total maps from an element index to the stored value.  The two
  regions and the struct are taken to be disjoint.
* `htim->Instance->ARR` is the field `ARR`.
* Index and length expressions that stay far below `2 ^ 32` for fields within
  the range of their C type are written without `%`.
* Calls into the timer HAL are not executed; every operation returns the list
  of HAL commands it issued, in order.
* `for` loops are recursive functions that test the loop guard of the source
  at every iteration and recurse on an iteration budget; the budget passed by
  the caller is the number of iterations the guard allows at most.
-/

set_option linter.unnecessarySeqFocus false

namespace SmartLED

/-! ## Types of `smartLED.h` -/

/-- Return status of the driver (`smartLED_retStatus_t`). -/
inductive smartLED_retStatus_t
  | SMARTLED_SUCCESS
  | SMARTLED_ERROR
  | SMARTLED_TIMEOUT
  deriving DecidableEq, Repr

open smartLED_retStatus_t

/-- Chip enumerator `WS2811`. -/
abbrev WS2811 : Nat := 0

/-- Chip enumerator `WS2812B`. -/
abbrev WS2812B : Nat := 1

/-- Layout enumerator `SMARTLED_RGB`. -/
abbrev SMARTLED_RGB : Nat := 3

/-- Layout enumerator `SMARTLED_RGBW`. -/
abbrev SMARTLED_RGBW : Nat := 4

/-- Timer enumerator `SMARTLED_TIMER_NORMAL`. -/
abbrev SMARTLED_TIMER_NORMAL : Nat := 0

/-- Timer enumerator `SMARTLED_TIMER_EXTENDED`. -/
abbrev SMARTLED_TIMER_EXTENDED : Nat := 1

/-- Interrupt enumerator `SMARTLED_IRQ_HALFCPLT`. -/
abbrev SMARTLED_IRQ_HALFCPLT : Nat := 0

/-- Interrupt enumerator `SMARTLED_IRQ_FINISHED`. -/
abbrev SMARTLED_IRQ_FINISHED : Nat := 1

/-- Build-time PWM frequency in kHz (`SMARTLED_PWM_FREQ`). -/
abbrev SMARTLED_PWM_FREQ : Nat := 800

/-- The LED struct `smartLED_t`. -/
structure smartLED_t where
  chip : Nat
  type : Nat
  size : Nat
  ARR : Nat
  timType : Nat
  timChannel : Nat
  LEDperIRQ : Nat
  _colorsData : Nat → Nat
  _dmaBuffer : Nat → Nat
  _brightness : Nat
  _updating : Nat
  _cyclesCnt : Nat
  _pulseLow : Nat
  _pulseHigh : Nat
  _LEDBits : Nat
  _resetBlocks : Nat

/-- A command issued to the timer HAL: which entry point, the timer channel
and, for a start, the transfer length in buffer entries. -/
inductive HalCall
  | PWM_Start_DMA (channel len : Nat)
  | PWMN_Start_DMA (channel len : Nat)
  | PWM_Stop_DMA (channel : Nat)
  | PWMN_Stop_DMA (channel : Nat)
  deriving DecidableEq, Repr

/-- What a public operation yields: its return value, the struct afterwards
and the HAL commands it issued. -/
structure Outcome where
  status : smartLED_retStatus_t
  led : smartLED_t
  hal : List HalCall

/-! ## Memory primitives -/

/-- The assignment `buf[i] = v`. -/
def store (buf : Nat → Nat) (i v : Nat) : Nat → Nat :=
  fun p => if p = i then v else buf p

/-- The call `memset(&buf[start], 0x00, sizeof(uint16_t) * len)`. -/
def memset0 (buf : Nat → Nat) (start len : Nat) : Nat → Nat :=
  fun p => if start ≤ p ∧ p < start + len then 0 else buf p

/-! ## Pulse encoder -/

/-- The expression `(v & (1 << bit)) ? _pulseHigh : _pulseLow`. -/
def pulse (s : smartLED_t) (v bit : Nat) : Nat :=
  if v &&& (1 <<< bit) ≠ 0 then s._pulseHigh else s._pulseLow

/-- The scaling `(uint8_t)(((uint32_t)c * (uint32_t)_brightness) / (uint32_t)0xFF)`. -/
def scale (c brightness : Nat) : Nat :=
  ((c * brightness) % 2 ^ 32 / 0xFF) % 256

/-- One iteration of the bit loop of `smartLED_fillDMABuffer` (newer copy).  The
index sums `startingIdx + ii`, `startingIdx + 8 + ii`, `startingIdx + 16 + ii`
are written as exact sums: they are the `uint32_t` sums of the source as long
as `startingIdx + 24 ≤ 2 ^ 32` (`fillStep_u32` reduces them modulo `2 ^ 32`, and
`fillDMABuffer_u32_eq` shows the agreement on that range).  Every call of the
state machine passes an offset below `2 * LEDperIRQ * _LEDBits`. -/
def fillStep (s : smartLED_t) (startingIdx r g b : Nat) (buf : Nat → Nat) (ii : Nat) :
    Nat → Nat :=
  let buf1 := store buf (startingIdx + ii) (pulse s g (7 - ii))
  let buf2 := store buf1 (startingIdx + 8 + ii) (pulse s r (7 - ii))
  store buf2 (startingIdx + 16 + ii) (pulse s b (7 - ii))

/-- The encoder `smartLED_fillDMABuffer` of `src/src/smartLED.c`, with exact
index sums (see `fillStep`). -/
def smartLED_fillDMABuffer (s : smartLED_t) (item startingIdx : Nat) :
    smartLED_retStatus_t × smartLED_t :=
  if item ≥ s.size then (SMARTLED_ERROR, s)
  else
    let r := scale (s._colorsData (item * s.type + 0)) s._brightness
    let g := scale (s._colorsData (item * s.type + 1)) s._brightness
    let b := scale (s._colorsData (item * s.type + 2)) s._brightness
    (SMARTLED_SUCCESS,
      { s with _dmaBuffer := (List.range 8).foldl (fillStep s startingIdx r g b) s._dmaBuffer })

/-! ## Setup -/

/-- The double expression `t * SMARTLED_PWM_FREQ / _LEDBits + 2` converted to
`uint8_t` (truncation towards zero), where `t` is the literal `280e-3` or
`50e-3`, passed in thousandths.  The truncated value is computed exactly, in
integers: `floor (t/1000 * 800 / B + 2) = (t * 800) / (1000 * B) + 2`
(`resetBlocksOf_eq_floor` below).  The literals `280e-3` and `50e-3` round to
doubles not below their decimal value, and for `_LEDBits` 24 or 32 the exact
value is an integer or at least `1/4` away from one, so rounding in double
arithmetic does not change the truncated result. -/
def resetBlocksOf (thousandths LEDBits : Nat) : Nat :=
  ((thousandths * SMARTLED_PWM_FREQ) / (1000 * LEDBits) + 2) % 256

/-- Modelled from the spec: the HAL header `tim.h`, which declares the timer
handle and its period register `htim->Instance->ARR`, is not among the
sources; the register is a 32-bit unsigned integer, so the pulse-width
expressions over it are evaluated modulo this value. -/
abbrev ARR_MODULUS : Nat := 2 ^ 32

/-- The function `smartLED_initStatic`; `data` and `DMABuffer` are the two memory
regions handed over by the caller.  The pulse widths are the expressions
`(1 * (ARR + 1) / 4) - 1` and `(3 * (ARR + 1) / 4) - 1` in unsigned arithmetic of
the register width, stored into `uint16_t` fields. -/
def smartLED_initStatic (s : smartLED_t) (data DMABuffer : Nat → Nat) :
    smartLED_retStatus_t × smartLED_t :=
  if s.chip ≠ WS2811 ∧ s.chip ≠ WS2812B then (SMARTLED_ERROR, s)
  else if s.type ≠ SMARTLED_RGB ∧ s.type ≠ SMARTLED_RGBW then (SMARTLED_ERROR, s)
  else if s.timType ≠ SMARTLED_TIMER_NORMAL ∧ s.timType ≠ SMARTLED_TIMER_EXTENDED then
    (SMARTLED_ERROR, s)
  else if s.LEDperIRQ < 1 then (SMARTLED_ERROR, s)
  else if s.ARR = 0 then (SMARTLED_ERROR, s)
  else
    let LEDBits := (s.type * 8) % 256
    (SMARTLED_SUCCESS,
      { s with
        _brightness := 0xFF
        _pulseLow :=
          (((1 * ((s.ARR + 1) % ARR_MODULUS)) % ARR_MODULUS / 4 + (ARR_MODULUS - 1)) % ARR_MODULUS)
            % 2 ^ 16
        _pulseHigh :=
          (((3 * ((s.ARR + 1) % ARR_MODULUS)) % ARR_MODULUS / 4 + (ARR_MODULUS - 1)) % ARR_MODULUS)
            % 2 ^ 16
        _LEDBits := LEDBits
        _resetBlocks :=
          if s.chip = WS2811 then resetBlocksOf 280 LEDBits else resetBlocksOf 50 LEDBits
        _colorsData := data
        _dmaBuffer := DMABuffer })

/-! ## Color-store setters of `smartLED.h` -/

/-- The macro `smartLED_setBrightness`. -/
def smartLED_setBrightness (s : smartLED_t) (brightness : Nat) : smartLED_t :=
  { s with _brightness := (brightness &&& 0xFF) % 256 }

/-- The macro `smartLED_updateRGBColors`. -/
def smartLED_updateRGBColors (s : smartLED_t) (item red green blue : Nat) : smartLED_t :=
  let d0 := store s._colorsData (item * s.type) ((red &&& 0xFF) % 256)
  let d1 := store d0 (item * s.type + 1) ((green &&& 0xFF) % 256)
  { s with _colorsData := store d1 (item * s.type + 2) ((blue &&& 0xFF) % 256) }

/-! ## Transfer state machine -/

/-- The pre-fill loop of `smartLED_startTransfer`:
`for (ii = 0, index = _resetBlocks; index < 2 * LEDperIRQ; ++index, ++ii)`,
both counters being `uint16_t`; the encoder's status is discarded. -/
def startLoop : Nat → smartLED_t → Nat → Nat → smartLED_t
  | 0, s, _, _ => s
  | fuel + 1, s, ii, index =>
    if index < 2 * s.LEDperIRQ then
      startLoop fuel (smartLED_fillDMABuffer s ii (index * s._LEDBits)).2
        ((ii + 1) % 2 ^ 16) ((index + 1) % 2 ^ 16)
    else s

/-- The function `smartLED_startTransfer`. -/
def smartLED_startTransfer (s : smartLED_t) : Outcome :=
  if s._updating ≠ 0 then ⟨SMARTLED_ERROR, s, []⟩
  else
    let s1 := { s with _updating := 1, _cyclesCnt := s.LEDperIRQ }
    let s2 := { s1 with _dmaBuffer := memset0 s1._dmaBuffer 0 (2 * s1.LEDperIRQ * s1._LEDBits) }
    let s3 := startLoop (2 * s2.LEDperIRQ) s2 0 s2._resetBlocks
    ⟨SMARTLED_SUCCESS, s3,
      [if s3.timType = SMARTLED_TIMER_NORMAL then
          HalCall.PWM_Start_DMA s3.timChannel (2 * s3.LEDperIRQ * s3._LEDBits)
        else HalCall.PWMN_Start_DMA s3.timChannel (2 * s3.LEDperIRQ * s3._LEDBits)]⟩

/-- The loop of the preamble branch of `smartLED_updateTransfer`:
`for (ii = 0; index < LEDperIRQ && ii < size; ++index, ++ii)` with `index` a
`uint32_t` and `ii` a `uint16_t`; `half` is `DMABuffHalfCpltLen`. -/
def preambleLoop : Nat → smartLED_t → Nat → Nat → Nat → Nat → smartLED_t
  | 0, s, _, _, _, _ => s
  | fuel + 1, s, PWM_IRQ, half, index, ii =>
    if index < s.LEDperIRQ ∧ ii < s.size then
      preambleLoop fuel
        (smartLED_fillDMABuffer s ii
          (PWM_IRQ * half + (index % s.LEDperIRQ) * s._LEDBits)).2
        PWM_IRQ half ((index + 1) % 2 ^ 32) ((ii + 1) % 2 ^ 16)
    else s

/-- The loop of the data branch of `smartLED_updateTransfer`:
`for (; counter < LEDperIRQ && next_led < size; ++counter, ++next_led)` with
`counter` a `uint8_t` and `next_led` a `uint16_t`.  Returns the struct and the
final value of `counter`. -/
def dataLoop : Nat → smartLED_t → Nat → Nat → Nat → Nat → smartLED_t × Nat
  | 0, s, _, _, counter, _ => (s, counter)
  | fuel + 1, s, PWM_IRQ, half, counter, next_led =>
    if counter < s.LEDperIRQ ∧ next_led < s.size then
      dataLoop fuel
        (smartLED_fillDMABuffer s next_led (PWM_IRQ * half + counter * s._LEDBits)).2
        PWM_IRQ half ((counter + 1) % 2 ^ 8) ((next_led + 1) % 2 ^ 16)
    else (s, counter)

/-- The function `smartLED_updateTransfer`. -/
def smartLED_updateTransfer (s : smartLED_t) (PWM_IRQ : Nat) : Outcome :=
  if s._updating = 0 then ⟨SMARTLED_ERROR, s, []⟩
  else
    let DMABuffHalfCpltLen := (s.LEDperIRQ * s._LEDBits) % 2 ^ 32
    let s1 := { s with _cyclesCnt := (s._cyclesCnt + s.LEDperIRQ) % 2 ^ 32 }
    if s1._cyclesCnt < s1._resetBlocks then
      if (s1._cyclesCnt + s1.LEDperIRQ) % 2 ^ 32 > s1._resetBlocks then
        let index := s1._resetBlocks - s1._cyclesCnt
        ⟨SMARTLED_SUCCESS,
          preambleLoop s1.LEDperIRQ s1 PWM_IRQ DMABuffHalfCpltLen index 0, []⟩
      else ⟨SMARTLED_SUCCESS, s1, []⟩
    else if s1._cyclesCnt < s1._resetBlocks + s1.size then
      let next_led := (s1._cyclesCnt - s1._resetBlocks) % 2 ^ 16
      let r := dataLoop s1.LEDperIRQ s1 PWM_IRQ DMABuffHalfCpltLen 0 next_led
      let counter := r.2
      if counter < r.1.LEDperIRQ then
        ⟨SMARTLED_SUCCESS,
          { r.1 with
            _dmaBuffer :=
              memset0 r.1._dmaBuffer (PWM_IRQ * DMABuffHalfCpltLen + counter * r.1._LEDBits)
                ((r.1.LEDperIRQ - counter) * r.1.type * 8) }, []⟩
      else ⟨SMARTLED_SUCCESS, r.1, []⟩
    else if s1._cyclesCnt < 2 * s1._resetBlocks + s1.size + s1.LEDperIRQ then
      if s1._cyclesCnt < s1._resetBlocks + s1.size + 2 * s1.LEDperIRQ then
        ⟨SMARTLED_SUCCESS,
          { s1 with
            _dmaBuffer := memset0 s1._dmaBuffer (PWM_IRQ * DMABuffHalfCpltLen) DMABuffHalfCpltLen },
          []⟩
      else ⟨SMARTLED_SUCCESS, s1, []⟩
    else
      ⟨SMARTLED_SUCCESS, { s1 with _updating := 0 },
        [if s1.timType = SMARTLED_TIMER_NORMAL then HalCall.PWM_Stop_DMA s1.timChannel
          else HalCall.PWMN_Stop_DMA s1.timChannel]⟩

/-! ## Well-formed instances -/

/-- What the C types and a successful setup guarantee about an instance: the
layout is RGB or RGBW, `_LEDBits = 8 * type`, the chunk size is at least one,
and the narrow fields are in the range of their C type. -/
def Configured (s : smartLED_t) : Prop :=
  (s.type = SMARTLED_RGB ∨ s.type = SMARTLED_RGBW) ∧ s._LEDBits = 8 * s.type ∧
    1 ≤ s.LEDperIRQ ∧ s.LEDperIRQ < 2 ^ 8 ∧ s.size < 2 ^ 16 ∧ s._resetBlocks < 2 ^ 8

instance (s : smartLED_t) : Decidable (Configured s) := by
  unfold Configured; infer_instance

/-- A sample instance: WS2812B, RGB, one LED, chunk size one, as left by setup
with `ARR = 99`, then LED 0 set to red. -/
def sampleLED : smartLED_t :=
  smartLED_updateRGBColors
    (smartLED_initStatic
      { chip := WS2812B, type := SMARTLED_RGB, size := 1, ARR := 99,
        timType := SMARTLED_TIMER_NORMAL, timChannel := 0, LEDperIRQ := 1,
        _colorsData := fun _ => 0, _dmaBuffer := fun _ => 0, _brightness := 0, _updating := 0,
        _cyclesCnt := 0, _pulseLow := 0, _pulseHigh := 0, _LEDBits := 0, _resetBlocks := 0 }
      (fun _ => 0) (fun _ => 0)).2 0 255 0 0

/-! ## Observations used to state the properties -/

/-- Offset in the color store of the byte whose bits the encoder sends at
pulse position `q` of an LED: positions 0..7 carry the byte at offset 1,
positions 8..15 the byte at offset 0, positions 16..23 the byte at offset 2. -/
def channelOf (q : Nat) : Nat :=
  if q < 8 then 1 else if q < 16 then 0 else 2

/-- The pulse the encoder writes at position `q < 24` of LED `item`. -/
def encodedPulse (s : smartLED_t) (item q : Nat) : Nat :=
  pulse s (scale (s._colorsData (item * s.type + channelOf q)) s._brightness) (7 - q % 8)

/-- The same instance with another transfer buffer. -/
def withBuf (s : smartLED_t) (buf : Nat → Nat) : smartLED_t :=
  { s with _dmaBuffer := buf }

/-- The stop command of the Done branch. -/
def stopCall (s : smartLED_t) : HalCall :=
  if s.timType = SMARTLED_TIMER_NORMAL then HalCall.PWM_Stop_DMA s.timChannel
  else HalCall.PWMN_Stop_DMA s.timChannel

/-! ## Frames -/

/-- The instance after `smartLED_startTransfer` (notification 0) followed by
`n` calls of `smartLED_updateTransfer`, the `k`-th of them (counting from 1)
with half id `hs (k - 1)`. -/
def afterNotifs (s : smartLED_t) (hs : Nat → Nat) : Nat → smartLED_t
  | 0 => (smartLED_startTransfer s).led
  | n + 1 => (smartLED_updateTransfer (afterNotifs s hs n) (hs n)).led

/-- The outcome of the `n`-th notification of a frame, `n ≥ 1`. -/
def notification (s : smartLED_t) (hs : Nat → Nat) (n : Nat) : Outcome :=
  smartLED_updateTransfer (afterNotifs s hs (n - 1)) (hs (n - 1))

/-- Half ids as the hardware delivers them: `SMARTLED_IRQ_HALFCPLT`,
`SMARTLED_IRQ_FINISHED`, `SMARTLED_IRQ_HALFCPLT`, ... -/
def alternating (k : Nat) : Nat :=
  if k % 2 = 0 then SMARTLED_IRQ_HALFCPLT else SMARTLED_IRQ_FINISHED

/-- The instance after notification `k` of a frame driven by the hardware. -/
def frameState (s : smartLED_t) (k : Nat) : smartLED_t :=
  afterNotifs s alternating k

/-- Number of the notification that ends the frame:
`ceil ((2 * _resetBlocks + size) / LEDperIRQ)`. -/
def stopIndex (s : smartLED_t) : Nat :=
  (2 * s._resetBlocks + s.size + s.LEDperIRQ - 1) / s.LEDperIRQ

/-- Half `h` of the transfer buffer, as a list of `LEDperIRQ * _LEDBits` entries. -/
def bufHalf (s : smartLED_t) (h : Nat) : List Nat :=
  (List.range (s.LEDperIRQ * s._LEDBits)).map
    (fun o => s._dmaBuffer (h * (s.LEDperIRQ * s._LEDBits) + o))

/-- The transmitted stream of the first `n` chunks: chunk `k` is half `k mod 2`
of the buffer as it stands after notification `k`. -/
def txStream (s : smartLED_t) (n : Nat) : List Nat :=
  ((List.range n).map (fun k => bufHalf (frameState s k) (k % 2))).flatten

/-- Slot `slot` of a stream cut in slots of `B` entries. -/
def streamSlot (stream : List Nat) (B slot : Nat) : List Nat :=
  (stream.drop (slot * B)).take B

/-- What the encoder writes for LED `i` onto a zeroed slot of `_LEDBits` entries. -/
def encodedSlot (s : smartLED_t) (i : Nat) : List Nat :=
  (List.range s._LEDBits).map
    (smartLED_fillDMABuffer (withBuf s (fun _ => 0)) i 0).2._dmaBuffer

/-- The pulse expected at position `j` of slot `slot` of a frame: silence
before `_resetBlocks` and from `_resetBlocks + size` on, LED
`slot - _resetBlocks` in between. -/
def framePulse (s : smartLED_t) (slot j : Nat) : Nat :=
  if s._resetBlocks ≤ slot ∧ slot - s._resetBlocks < s.size ∧ j < 24 then
    encodedPulse s (slot - s._resetBlocks) j
  else 0

/-- Slot `slot` of the transfer buffer, as a list of `_LEDBits` entries. -/
def bufSlot (s : smartLED_t) (slot : Nat) : List Nat :=
  (List.range s._LEDBits).map (fun j => s._dmaBuffer (slot * s._LEDBits + j))

/-- A second sample instance: WS2811, RGBW, five LEDs, chunk size four, as left
by setup with `ARR = 99` on a color store whose LED `i` has red `10 * i`,
green `3`, blue `128` and white `255`, and a buffer holding `7` everywhere. -/
def sampleRGBW : smartLED_t :=
  (smartLED_initStatic
    { chip := WS2811, type := SMARTLED_RGBW, size := 5, ARR := 99,
      timType := SMARTLED_TIMER_EXTENDED, timChannel := 2, LEDperIRQ := 4,
      _colorsData := fun _ => 0, _dmaBuffer := fun _ => 0, _brightness := 0, _updating := 0,
      _cyclesCnt := 0, _pulseLow := 0, _pulseHigh := 0, _LEDBits := 0, _resetBlocks := 0 }
    (fun n => if n % 4 = 0 then 10 * (n / 4) else if n % 4 = 1 then 3
      else if n % 4 = 2 then 128 else 255)
    (fun _ => 7)).2

/-- The checks of `smartLED_initStatic` all pass: known chip, known layout,
known timer type, a chunk size of at least one and a configured timer. -/
def setupAccepts (s : smartLED_t) : Prop :=
  (s.chip = WS2811 ∨ s.chip = WS2812B) ∧ (s.type = SMARTLED_RGB ∨ s.type = SMARTLED_RGBW) ∧
    (s.timType = SMARTLED_TIMER_NORMAL ∨ s.timType = SMARTLED_TIMER_EXTENDED) ∧
    1 ≤ s.LEDperIRQ ∧ s.ARR ≠ 0

instance (s : smartLED_t) : Decidable (setupAccepts s) := by
  unfold setupAccepts; infer_instance

/-- Minimum reset time of a chip in seconds: 280 µs for WS2811, 50 µs for
WS2812B. -/
def resetSeconds (chip : Nat) : ℚ :=
  if chip = WS2811 then 280 / 1000000 else 50 / 1000000

/-- A struct as a caller fills it in before setup: WS2812B, RGB, one LED, chunk
size one, timer period 99; the private fields hold `junk`. -/
def rawLED (junk : Nat) : smartLED_t :=
  { chip := WS2812B, type := SMARTLED_RGB, size := 1, ARR := 99,
    timType := SMARTLED_TIMER_NORMAL, timChannel := 0, LEDperIRQ := 1,
    _colorsData := fun _ => 0, _dmaBuffer := fun _ => 0, _brightness := junk,
    _updating := junk, _cyclesCnt := junk, _pulseLow := junk, _pulseHigh := junk,
    _LEDBits := junk, _resetBlocks := junk }

/-! ## Encoder calls made by the state machine -/

/-- One call of `smartLED_fillDMABuffer` made by a caller: its two arguments
and the status it returned. -/
structure EncoderCall where
  item : Nat
  startingIdx : Nat
  status : smartLED_retStatus_t
  deriving DecidableEq, Repr

/-- The encoder calls made by the pre-fill loop of `smartLED_startTransfer`, in
order (same guard, arguments and state threading as `startLoop`). -/
def startLoopCalls : Nat → smartLED_t → Nat → Nat → List EncoderCall
  | 0, _, _, _ => []
  | fuel + 1, s, ii, index =>
    if index < 2 * s.LEDperIRQ then
      ⟨ii, index * s._LEDBits, (smartLED_fillDMABuffer s ii (index * s._LEDBits)).1⟩ ::
        startLoopCalls fuel (smartLED_fillDMABuffer s ii (index * s._LEDBits)).2
          ((ii + 1) % 2 ^ 16) ((index + 1) % 2 ^ 16)
    else []

/-- The encoder calls made by the preamble loop of `smartLED_updateTransfer`. -/
def preambleLoopCalls : Nat → smartLED_t → Nat → Nat → Nat → Nat → List EncoderCall
  | 0, _, _, _, _, _ => []
  | fuel + 1, s, PWM_IRQ, half, index, ii =>
    if index < s.LEDperIRQ ∧ ii < s.size then
      ⟨ii, PWM_IRQ * half + (index % s.LEDperIRQ) * s._LEDBits,
          (smartLED_fillDMABuffer s ii
            (PWM_IRQ * half + (index % s.LEDperIRQ) * s._LEDBits)).1⟩ ::
        preambleLoopCalls fuel
          (smartLED_fillDMABuffer s ii
            (PWM_IRQ * half + (index % s.LEDperIRQ) * s._LEDBits)).2
          PWM_IRQ half ((index + 1) % 2 ^ 32) ((ii + 1) % 2 ^ 16)
    else []

/-- The encoder calls made by the data loop of `smartLED_updateTransfer`. -/
def dataLoopCalls : Nat → smartLED_t → Nat → Nat → Nat → Nat → List EncoderCall
  | 0, _, _, _, _, _ => []
  | fuel + 1, s, PWM_IRQ, half, counter, next_led =>
    if counter < s.LEDperIRQ ∧ next_led < s.size then
      ⟨next_led, PWM_IRQ * half + counter * s._LEDBits,
          (smartLED_fillDMABuffer s next_led (PWM_IRQ * half + counter * s._LEDBits)).1⟩ ::
        dataLoopCalls fuel
          (smartLED_fillDMABuffer s next_led (PWM_IRQ * half + counter * s._LEDBits)).2
          PWM_IRQ half ((counter + 1) % 2 ^ 8) ((next_led + 1) % 2 ^ 16)
    else []

/-- The encoder calls made by one call of `smartLED_startTransfer`. -/
def startTransferCalls (s : smartLED_t) : List EncoderCall :=
  if s._updating ≠ 0 then []
  else
    let s1 := { s with _updating := 1, _cyclesCnt := s.LEDperIRQ }
    let s2 := { s1 with _dmaBuffer := memset0 s1._dmaBuffer 0 (2 * s1.LEDperIRQ * s1._LEDBits) }
    startLoopCalls (2 * s2.LEDperIRQ) s2 0 s2._resetBlocks

/-- The encoder calls made by one call of `smartLED_updateTransfer`. -/
def updateTransferCalls (s : smartLED_t) (PWM_IRQ : Nat) : List EncoderCall :=
  if s._updating = 0 then []
  else
    let DMABuffHalfCpltLen := (s.LEDperIRQ * s._LEDBits) % 2 ^ 32
    let s1 := { s with _cyclesCnt := (s._cyclesCnt + s.LEDperIRQ) % 2 ^ 32 }
    if s1._cyclesCnt < s1._resetBlocks then
      if (s1._cyclesCnt + s1.LEDperIRQ) % 2 ^ 32 > s1._resetBlocks then
        preambleLoopCalls s1.LEDperIRQ s1 PWM_IRQ DMABuffHalfCpltLen
          (s1._resetBlocks - s1._cyclesCnt) 0
      else []
    else if s1._cyclesCnt < s1._resetBlocks + s1.size then
      dataLoopCalls s1.LEDperIRQ s1 PWM_IRQ DMABuffHalfCpltLen 0
        ((s1._cyclesCnt - s1._resetBlocks) % 2 ^ 16)
    else []

/-- A short strip after setup: WS2812B, RGB, one LED, chunk size four
(`_resetBlocks = 3`, so `size < 2 * LEDperIRQ - _resetBlocks`). -/
def shortStrip : smartLED_t :=
  (smartLED_initStatic { rawLED 0 with LEDperIRQ := 4 } (fun _ => 0) (fun _ => 0)).2

/-! ## Postamble clears -/

/-- The half that one call of `smartLED_updateTransfer` clears in its postamble
branch (the `memset` of the whole notified half), if that `memset` is executed:
same branch conditions as `smartLED_updateTransfer`. -/
def updateTransferClear (s : smartLED_t) (PWM_IRQ : Nat) : Option Nat :=
  if s._updating = 0 then none
  else
    let s1 := { s with _cyclesCnt := (s._cyclesCnt + s.LEDperIRQ) % 2 ^ 32 }
    if s1._cyclesCnt < s1._resetBlocks then none
    else if s1._cyclesCnt < s1._resetBlocks + s1.size then none
    else if s1._cyclesCnt < 2 * s1._resetBlocks + s1.size + s1.LEDperIRQ then
      if s1._cyclesCnt < s1._resetBlocks + s1.size + 2 * s1.LEDperIRQ then some PWM_IRQ
      else none
    else none

/-- The half cleared by the postamble branch in notification `n ≥ 1` of a frame
driven with alternating half ids, if any. -/
def frameClear (s : smartLED_t) (n : Nat) : Option Nat :=
  updateTransferClear (frameState s (n - 1)) (alternating (n - 1))

/-! ## The encoder with its index sums in `uint32_t` -/

/-- One iteration of the bit loop of `smartLED_fillDMABuffer` (newer copy) with
the three index sums reduced modulo `2 ^ 32`, as the `uint32_t` sums of the
source are. -/
def fillStep_u32 (s : smartLED_t) (startingIdx r g b : Nat) (buf : Nat → Nat) (ii : Nat) :
    Nat → Nat :=
  let buf1 := store buf ((startingIdx + ii) % 2 ^ 32) (pulse s g (7 - ii))
  let buf2 := store buf1 ((startingIdx + 8 + ii) % 2 ^ 32) (pulse s r (7 - ii))
  store buf2 ((startingIdx + 16 + ii) % 2 ^ 32) (pulse s b (7 - ii))

/-- The encoder `smartLED_fillDMABuffer` of `src/src/smartLED.c` with its index
sums in `uint32_t`. -/
def smartLED_fillDMABuffer_u32 (s : smartLED_t) (item startingIdx : Nat) :
    smartLED_retStatus_t × smartLED_t :=
  if item ≥ s.size then (SMARTLED_ERROR, s)
  else
    let r := scale (s._colorsData (item * s.type + 0)) s._brightness
    let g := scale (s._colorsData (item * s.type + 1)) s._brightness
    let b := scale (s._colorsData (item * s.type + 2)) s._brightness
    (SMARTLED_SUCCESS,
      { s with
        _dmaBuffer := (List.range 8).foldl (fillStep_u32 s startingIdx r g b) s._dmaBuffer })

/-! ## The encoder of the older copy -/

/-- The bit loop of `smartLED_fillDMABuffer` in `src/smartLED.c`:
`for (ii = startingIdx, jj = 7; ii < (8 + startingIdx); ii++, jj--)` with both
counters `uint32_t`; `bound` is the value of `8 + startingIdx`, and the index
sums `ii + 8`, `ii + 16` are `uint32_t` sums.  The struct declaration the older
file was written for is not among the sources; the file itself allocates,
receives and clears its transfer buffer as `uint8_t`
(`calloc (.., sizeof(uint8_t))`, `uint8_t* DMABuffer`,
`memset (.., sizeof(uint8_t) * ..)`).  The width of a buffer element is
therefore the parameter `elemBits` (8 for the older file as written, 16 under
`src/inc/smartLED.h`), and each store converts the pulse value to that width. -/
def fillLoop_old (elemBits : Nat) :
    Nat → smartLED_t → Nat → Nat → Nat → Nat → (Nat → Nat) → Nat → Nat → (Nat → Nat)
  | 0, _, _, _, _, _, buf, _, _ => buf
  | fuel + 1, s, bound, r, g, b, buf, ii, jj =>
    if ii < bound then
      let buf1 := store buf ii (pulse s g jj % 2 ^ elemBits)
      let buf2 := store buf1 ((ii + 8) % 2 ^ 32) (pulse s r jj % 2 ^ elemBits)
      let buf3 := store buf2 ((ii + 16) % 2 ^ 32) (pulse s b jj % 2 ^ elemBits)
      fillLoop_old elemBits fuel s bound r g b buf3 ((ii + 1) % 2 ^ 32)
        ((jj + (2 ^ 32 - 1)) % 2 ^ 32)
    else buf

/-- The encoder `smartLED_fillDMABuffer` of the older copy `src/smartLED.c`, for
a transfer buffer whose elements are `elemBits` wide. -/
def smartLED_fillDMABuffer_old (elemBits : Nat) (s : smartLED_t) (item startingIdx : Nat) :
    smartLED_retStatus_t × smartLED_t :=
  if item ≥ s.size then (SMARTLED_ERROR, s)
  else
    let itemIdx := item * s.type
    let r := scale (s._colorsData itemIdx) s._brightness
    let g := scale (s._colorsData (itemIdx + 1)) s._brightness
    let b := scale (s._colorsData (itemIdx + 2)) s._brightness
    (SMARTLED_SUCCESS,
      { s with
        _dmaBuffer :=
          fillLoop_old elemBits 8 s ((8 + startingIdx) % 2 ^ 32) r g b s._dmaBuffer
            startingIdx 7 })

/-! # Properties

## Arithmetic of the encoder -/

/-- The reset-block count is the truncated value of the source expression. -/
theorem resetBlocksOf_eq_floor (t B : Nat) :
    resetBlocksOf t B =
      (Int.floor ((t : ℚ) / 1000 * (SMARTLED_PWM_FREQ : ℚ) / (B : ℚ) + 2)).toNat % 256 := by
  unfold resetBlocksOf
  have h1 : ((t : ℚ) / 1000 * (SMARTLED_PWM_FREQ : ℚ) / (B : ℚ) + 2)
      = (((t * SMARTLED_PWM_FREQ : ℕ) : ℤ) : ℚ) / ((1000 * B : ℕ) : ℚ) + ((2 : ℕ) : ℚ) := by
    push_cast
    rw [div_mul_eq_mul_div, div_div]
  rw [h1, Int.floor_add_nat, Rat.floor_intCast_div_natCast]
  congr 1

/-- The bit test of the encoder is the test of one binary digit. -/
theorem and_shiftLeft_ne_zero (v k : Nat) : (v &&& (1 <<< k) ≠ 0) ↔ v.testBit k = true := by
  rw [Nat.one_shiftLeft]
  constructor
  · intro h
    by_contra hb
    apply h
    apply Nat.eq_of_testBit_eq
    intro i
    simp [Nat.testBit_and, Nat.testBit_two_pow]
    intro h1 h2
    subst h2
    exact hb h1
  · intro h h0
    have := congrArg (fun x => Nat.testBit x k) h0
    simp [Nat.testBit_and, Nat.testBit_two_pow, h] at this

/-- On bytes the scaling neither wraps nor truncates. -/
theorem scale_eq (c b : Nat) (hc : c < 256) (hb : b < 256) : scale c b = c * b / 255 := by
  unfold scale
  have h1 : c * b ≤ 255 * 255 := Nat.mul_le_mul (by omega) (by omega)
  have h2 : c * b / 255 ≤ 255 := by omega
  omega

theorem pulse_eq (s : smartLED_t) (v k : Nat) :
    pulse s v k = if v.testBit k = true then s._pulseHigh else s._pulseLow := by
  unfold pulse
  by_cases h : v.testBit k = true
  · rw [if_pos ((and_shiftLeft_ne_zero v k).2 h), if_pos h]
  · rw [if_neg (fun h1 => h ((and_shiftLeft_ne_zero v k).1 h1)), if_neg h]

/-! ## The encoder -/

theorem fill_error (s : smartLED_t) (item st : Nat) (h : s.size ≤ item) :
    smartLED_fillDMABuffer s item st = (SMARTLED_ERROR, s) := by
  unfold smartLED_fillDMABuffer
  rw [if_pos h]

/-- The 24 stores of the bit loop, in closed form. -/
theorem foldl_fillStep (s : smartLED_t) (st r g b : Nat) (buf : Nat → Nat) (p : Nat) :
    (List.range 8).foldl (fillStep s st r g b) buf p =
      if st ≤ p ∧ p < st + 24 then
        pulse s (if p - st < 8 then g else if p - st < 16 then r else b) (7 - (p - st) % 8)
      else buf p := by
  by_cases h : st ≤ p ∧ p < st + 24
  · rw [if_pos h]
    obtain ⟨q, rfl⟩ : ∃ q, p = st + q := ⟨p - st, by omega⟩
    have hq : q < 24 := by omega
    have e : st + q - st = q := by omega
    rw [e]
    interval_cases q <;>
      simp [List.range, List.range.loop, List.foldl, fillStep, store, Nat.add_assoc]
  · rw [if_neg h]
    simp only [List.range, List.range.loop, List.foldl, fillStep, store]
    repeat (rw [if_neg (by omega)])

/-- The encoder never touches a field other than the buffer; an accepted
index writes 24 pulses at `st`, a rejected one writes nothing. -/
theorem fill_snd (s : smartLED_t) (item st : Nat) :
    (smartLED_fillDMABuffer s item st).2 =
      withBuf s (fun p =>
        if item < s.size ∧ st ≤ p ∧ p < st + 24 then encodedPulse s item (p - st)
        else s._dmaBuffer p) := by
  unfold smartLED_fillDMABuffer
  by_cases h : s.size ≤ item
  · rw [if_pos h]
    have : ¬ item < s.size := by omega
    simp [withBuf, this]
  · rw [if_neg h]
    have h' : item < s.size := by omega
    simp only [withBuf]
    congr 1
    funext p
    rw [foldl_fillStep]
    by_cases hp : st ≤ p ∧ p < st + 24
    · rw [if_pos hp, if_pos (show item < s.size ∧ st ≤ p ∧ p < st + 24 from ⟨h', hp⟩)]
      unfold encodedPulse channelOf
      by_cases h8 : p - st < 8
      · simp [h8]
      · by_cases h16 : p - st < 16
        · simp [h8, h16]
        · simp [h8, h16]
    · rw [if_neg hp,
        if_neg (show ¬ (item < s.size ∧ st ≤ p ∧ p < st + 24) from fun hh => hp hh.2)]

/-- The encoder seen as a buffer transformer: LED `item` written at `st`. -/
theorem fill_withBuf (s : smartLED_t) (buf : Nat → Nat) (item st : Nat) :
    (smartLED_fillDMABuffer (withBuf s buf) item st).2 =
      withBuf s (fun p =>
        if item < s.size ∧ st ≤ p ∧ p < st + 24 then encodedPulse s item (p - st)
        else buf p) := by
  rw [fill_snd]
  rfl

/-! ## The loops of the state machine -/

/-- Pre-fill loop: slot `t` with `index ≤ t < 2 * LEDperIRQ` receives LED
`ii + (t - index)` when that LED exists; nothing else is written. -/
theorem startLoop_spec (s : smartLED_t) (B : Nat) (hB : B = 24 ∨ B = 32) (hLB : s._LEDBits = B)
    (hL : s.LEDperIRQ < 2 ^ 8) :
    ∀ (fuel : Nat) (buf : Nat → Nat) (ii index : Nat), 2 * s.LEDperIRQ - index ≤ fuel →
      ii ≤ index →
      ∃ buf', startLoop fuel (withBuf s buf) ii index = withBuf s buf' ∧
        ∀ t j, j < B → buf' (t * B + j) =
          if index ≤ t ∧ t < 2 * s.LEDperIRQ ∧ ii + (t - index) < s.size ∧ j < 24 then
            encodedPulse s (ii + (t - index)) j
          else buf (t * B + j) := by
  intro fuel
  induction fuel with
  | zero =>
    intro buf ii index hf _
    refine ⟨buf, rfl, ?_⟩
    intro t j _
    rw [if_neg]
    omega
  | succ n ih =>
    intro buf ii index hf hii
    unfold startLoop
    by_cases hg : index < 2 * s.LEDperIRQ
    · have hg' : index < 2 * (withBuf s buf).LEDperIRQ := hg
      rw [if_pos hg', fill_withBuf]
      have e1 : (ii + 1) % 2 ^ 16 = ii + 1 := Nat.mod_eq_of_lt (by omega)
      have e2 : (index + 1) % 2 ^ 16 = index + 1 := Nat.mod_eq_of_lt (by omega)
      rw [e1, e2]
      obtain ⟨buf', h1, h2⟩ := ih _ (ii + 1) (index + 1) (by omega) (by omega)
      refine ⟨buf', h1, ?_⟩
      intro t j hj
      rw [h2 t j hj]
      have hLB' : (withBuf s buf)._LEDBits = B := hLB
      rw [hLB']
      rcases hB with rfl | rfl
      · split_ifs <;> first | rfl | omega | (congr 1 <;> omega)
      · split_ifs <;> first | rfl | omega | (congr 1 <;> omega)
    · have hg' : ¬ index < 2 * (withBuf s buf).LEDperIRQ := hg
      rw [if_neg hg']
      refine ⟨buf, rfl, ?_⟩
      intro t j _
      rw [if_neg]
      omega

/-- Preamble loop: inside the half starting at `base`, slot `t` with
`index ≤ t < LEDperIRQ` receives LED `ii + (t - index)` when that LED exists;
nothing else is written. -/
theorem preambleLoop_spec (s : smartLED_t) (B : Nat) (hB : B = 24 ∨ B = 32)
    (hLB : s._LEDBits = B) (hL : s.LEDperIRQ < 2 ^ 8) (hN : s.size < 2 ^ 16)
    (PWM_IRQ half : Nat) :
    ∀ (fuel : Nat) (buf : Nat → Nat) (index ii : Nat), s.LEDperIRQ - index ≤ fuel →
      ∃ buf', preambleLoop fuel (withBuf s buf) PWM_IRQ half index ii = withBuf s buf' ∧
        (∀ p, p < PWM_IRQ * half → buf' p = buf p) ∧
        ∀ t j, j < B → buf' (PWM_IRQ * half + t * B + j) =
          if index ≤ t ∧ t < s.LEDperIRQ ∧ ii + (t - index) < s.size ∧ j < 24 then
            encodedPulse s (ii + (t - index)) j
          else buf (PWM_IRQ * half + t * B + j) := by
  intro fuel
  induction fuel with
  | zero =>
    intro buf index ii hf
    refine ⟨buf, rfl, fun _ _ => rfl, ?_⟩
    intro t j _
    rw [if_neg]
    omega
  | succ n ih =>
    intro buf index ii hf
    unfold preambleLoop
    by_cases hg : index < s.LEDperIRQ ∧ ii < s.size
    · have hg' : index < (withBuf s buf).LEDperIRQ ∧ ii < (withBuf s buf).size := hg
      rw [if_pos hg', fill_withBuf]
      have e1 : (ii + 1) % 2 ^ 16 = ii + 1 := Nat.mod_eq_of_lt (by omega)
      have e2 : (index + 1) % 2 ^ 32 = index + 1 := Nat.mod_eq_of_lt (by omega)
      have e3 : index % (withBuf s buf).LEDperIRQ = index := Nat.mod_eq_of_lt hg.1
      have hLB' : (withBuf s buf)._LEDBits = B := hLB
      rw [e1, e2, e3, hLB']
      obtain ⟨buf', h1, h2, h3⟩ := ih _ (index + 1) (ii + 1) (by omega)
      refine ⟨buf', h1, ?_, ?_⟩
      · intro p hp
        rw [h2 p hp, if_neg]
        omega
      · intro t j hj
        rw [h3 t j hj]
        rcases hB with rfl | rfl
        · split_ifs <;> first | rfl | omega | (congr 1 <;> omega)
        · split_ifs <;> first | rfl | omega | (congr 1 <;> omega)
    · have hg' : ¬ (index < (withBuf s buf).LEDperIRQ ∧ ii < (withBuf s buf).size) := hg
      rw [if_neg hg']
      refine ⟨buf, rfl, fun _ _ => rfl, ?_⟩
      intro t j _
      rw [if_neg]
      omega

/-- Data loop: inside the half starting at `base`, slot `t` with
`counter ≤ t < LEDperIRQ` receives LED `next_led + (t - counter)` when that LED
exists; nothing else is written, and the loop leaves `counter` at the first
slot it did not fill. -/
theorem dataLoop_spec (s : smartLED_t) (B : Nat) (hB : B = 24 ∨ B = 32)
    (hLB : s._LEDBits = B) (hL : s.LEDperIRQ < 2 ^ 8) (hN : s.size < 2 ^ 16)
    (PWM_IRQ half : Nat) :
    ∀ (fuel : Nat) (buf : Nat → Nat) (counter next_led : Nat), s.LEDperIRQ - counter ≤ fuel →
      counter ≤ s.LEDperIRQ → next_led ≤ s.size →
      ∃ buf', dataLoop fuel (withBuf s buf) PWM_IRQ half counter next_led =
          (withBuf s buf', min s.LEDperIRQ (counter + (s.size - next_led))) ∧
        (∀ p, p < PWM_IRQ * half → buf' p = buf p) ∧
        ∀ t j, j < B → buf' (PWM_IRQ * half + t * B + j) =
          if counter ≤ t ∧ t < s.LEDperIRQ ∧ next_led + (t - counter) < s.size ∧ j < 24 then
            encodedPulse s (next_led + (t - counter)) j
          else buf (PWM_IRQ * half + t * B + j) := by
  intro fuel
  induction fuel with
  | zero =>
    intro buf counter next_led hf hc hn
    refine ⟨buf, ?_, fun _ _ => rfl, ?_⟩
    · unfold dataLoop
      congr 1
      omega
    · intro t j _
      rw [if_neg]
      omega
  | succ n ih =>
    intro buf counter next_led hf hc hn
    unfold dataLoop
    by_cases hg : counter < s.LEDperIRQ ∧ next_led < s.size
    · have hg' : counter < (withBuf s buf).LEDperIRQ ∧ next_led < (withBuf s buf).size := hg
      rw [if_pos hg', fill_withBuf]
      have e1 : (next_led + 1) % 2 ^ 16 = next_led + 1 := Nat.mod_eq_of_lt (by omega)
      have e2 : (counter + 1) % 2 ^ 8 = counter + 1 := Nat.mod_eq_of_lt (by omega)
      have hLB' : (withBuf s buf)._LEDBits = B := hLB
      rw [e1, e2, hLB']
      obtain ⟨buf', h1, h2, h3⟩ := ih _ (counter + 1) (next_led + 1) (by omega) (by omega)
        (by omega)
      refine ⟨buf', ?_, ?_, ?_⟩
      · rw [h1]
        congr 1
        omega
      · intro p hp
        rw [h2 p hp, if_neg]
        omega
      · intro t j hj
        rw [h3 t j hj]
        rcases hB with rfl | rfl
        · split_ifs <;> first | rfl | omega | (congr 1 <;> omega)
        · split_ifs <;> first | rfl | omega | (congr 1 <;> omega)
    · have hg' : ¬ (counter < (withBuf s buf).LEDperIRQ ∧ next_led < (withBuf s buf).size) := hg
      rw [if_neg hg']
      refine ⟨buf, ?_, fun _ _ => rfl, ?_⟩
      · congr 1
        omega
      · intro t j _
        rw [if_neg]
        omega

/-! ## Only the buffer is written by the loops -/

theorem fill_frame (s : smartLED_t) (item st : Nat) :
    ∃ buf', (smartLED_fillDMABuffer s item st).2 = withBuf s buf' :=
  ⟨_, fill_snd s item st⟩

theorem startLoop_frame :
    ∀ (fuel : Nat) (s : smartLED_t) (ii index : Nat),
      ∃ buf', startLoop fuel s ii index = withBuf s buf' := by
  intro fuel
  induction fuel with
  | zero => intro s ii index; exact ⟨s._dmaBuffer, rfl⟩
  | succ n ih =>
    intro s ii index
    unfold startLoop
    split_ifs
    · obtain ⟨b1, h1⟩ := fill_frame s ii (index * s._LEDBits)
      obtain ⟨b2, h2⟩ := ih (withBuf s b1) ((ii + 1) % 2 ^ 16) ((index + 1) % 2 ^ 16)
      exact ⟨b2, by rw [h1, h2]; rfl⟩
    · exact ⟨s._dmaBuffer, rfl⟩

theorem preambleLoop_frame :
    ∀ (fuel : Nat) (s : smartLED_t) (PWM_IRQ half index ii : Nat),
      ∃ buf', preambleLoop fuel s PWM_IRQ half index ii = withBuf s buf' := by
  intro fuel
  induction fuel with
  | zero => intro s _ _ _ _; exact ⟨s._dmaBuffer, rfl⟩
  | succ n ih =>
    intro s PWM_IRQ half index ii
    unfold preambleLoop
    split_ifs
    · obtain ⟨b1, h1⟩ :=
        fill_frame s ii (PWM_IRQ * half + (index % s.LEDperIRQ) * s._LEDBits)
      obtain ⟨b2, h2⟩ :=
        ih (withBuf s b1) PWM_IRQ half ((index + 1) % 2 ^ 32) ((ii + 1) % 2 ^ 16)
      exact ⟨b2, by rw [h1, h2]; rfl⟩
    · exact ⟨s._dmaBuffer, rfl⟩

theorem dataLoop_frame :
    ∀ (fuel : Nat) (s : smartLED_t) (PWM_IRQ half counter next_led : Nat),
      ∃ buf', (dataLoop fuel s PWM_IRQ half counter next_led).1 = withBuf s buf' := by
  intro fuel
  induction fuel with
  | zero => intro s _ _ _ _; exact ⟨s._dmaBuffer, rfl⟩
  | succ n ih =>
    intro s PWM_IRQ half counter next_led
    unfold dataLoop
    split_ifs
    · obtain ⟨b1, h1⟩ := fill_frame s next_led (PWM_IRQ * half + counter * s._LEDBits)
      obtain ⟨b2, h2⟩ :=
        ih (withBuf s b1) PWM_IRQ half ((counter + 1) % 2 ^ 8) ((next_led + 1) % 2 ^ 16)
      exact ⟨b2, by rw [h1, h2]; rfl⟩
    · exact ⟨s._dmaBuffer, rfl⟩

/-! ## Control part of the two operations -/

theorem startTransfer_busy (s : smartLED_t) (h : s._updating ≠ 0) :
    smartLED_startTransfer s = ⟨SMARTLED_ERROR, s, []⟩ := by
  unfold smartLED_startTransfer
  rw [if_pos h]

theorem startTransfer_idle (s : smartLED_t) (h : s._updating = 0) :
    ∃ buf', smartLED_startTransfer s =
      ⟨SMARTLED_SUCCESS, withBuf { s with _updating := 1, _cyclesCnt := s.LEDperIRQ } buf',
        [if s.timType = SMARTLED_TIMER_NORMAL then
            HalCall.PWM_Start_DMA s.timChannel (2 * s.LEDperIRQ * s._LEDBits)
          else HalCall.PWMN_Start_DMA s.timChannel (2 * s.LEDperIRQ * s._LEDBits)]⟩ := by
  unfold smartLED_startTransfer
  rw [if_neg (by omega)]
  obtain ⟨b, hb⟩ := startLoop_frame (2 * s.LEDperIRQ)
    { s with _updating := 1, _cyclesCnt := s.LEDperIRQ,
             _dmaBuffer := memset0 s._dmaBuffer 0 (2 * s.LEDperIRQ * s._LEDBits) } 0 s._resetBlocks
  refine ⟨b, ?_⟩
  simp only [hb]
  rfl

theorem updateTransfer_idle (s : smartLED_t) (PWM_IRQ : Nat) (h : s._updating = 0) :
    smartLED_updateTransfer s PWM_IRQ = ⟨SMARTLED_ERROR, s, []⟩ := by
  unfold smartLED_updateTransfer
  rw [if_pos h]

/-- A notification accepted while busy: the counter advances by the chunk
size (modulo `2 ^ 32`), the instance stays busy unless the advanced counter
has reached `2 * _resetBlocks + size + LEDperIRQ`, in which case the stop is
commanded, and apart from these two fields only the buffer may change. -/
theorem updateTransfer_busy (s : smartLED_t) (PWM_IRQ : Nat) (h : s._updating ≠ 0) :
    ∃ buf', smartLED_updateTransfer s PWM_IRQ =
      ⟨SMARTLED_SUCCESS,
        withBuf
          { s with
            _cyclesCnt := (s._cyclesCnt + s.LEDperIRQ) % 2 ^ 32
            _updating :=
              if (s._cyclesCnt + s.LEDperIRQ) % 2 ^ 32 <
                  2 * s._resetBlocks + s.size + s.LEDperIRQ then s._updating else 0 } buf',
        if (s._cyclesCnt + s.LEDperIRQ) % 2 ^ 32 < 2 * s._resetBlocks + s.size + s.LEDperIRQ
        then [] else [stopCall s]⟩ := by
  unfold smartLED_updateTransfer
  rw [if_neg h]
  simp only
  generalize (s._cyclesCnt + s.LEDperIRQ) % 2 ^ 32 = c
  by_cases h1 : c < s._resetBlocks
  · have hd : c < 2 * s._resetBlocks + s.size + s.LEDperIRQ := by omega
    rw [if_pos h1, if_pos hd, if_pos hd]
    split_ifs
    · obtain ⟨b, hb⟩ := preambleLoop_frame s.LEDperIRQ { s with _cyclesCnt := c } PWM_IRQ
        ((s.LEDperIRQ * s._LEDBits) % 2 ^ 32) (s._resetBlocks - c) 0
      exact ⟨b, by rw [hb]⟩
    · exact ⟨s._dmaBuffer, rfl⟩
  · rw [if_neg h1]
    by_cases h2 : c < s._resetBlocks + s.size
    · have hd : c < 2 * s._resetBlocks + s.size + s.LEDperIRQ := by omega
      rw [if_pos h2, if_pos hd, if_pos hd]
      obtain ⟨b, hb⟩ := dataLoop_frame s.LEDperIRQ { s with _cyclesCnt := c } PWM_IRQ
        ((s.LEDperIRQ * s._LEDBits) % 2 ^ 32) 0 ((c - s._resetBlocks) % 2 ^ 16)
      rw [hb]
      split_ifs
      · exact ⟨_, rfl⟩
      · exact ⟨b, rfl⟩
    · rw [if_neg h2]
      by_cases h3 : c < 2 * s._resetBlocks + s.size + s.LEDperIRQ
      · rw [if_pos h3, if_pos h3, if_pos h3]
        split_ifs
        · exact ⟨_, rfl⟩
        · exact ⟨s._dmaBuffer, rfl⟩
      · rw [if_neg h3, if_neg h3, if_neg h3]
        exact ⟨s._dmaBuffer, rfl⟩

/-! ## Buffer contents after the two operations -/

theorem configured_bits (s : smartLED_t) (hc : Configured s) :
    (s._LEDBits = 24 ∨ s._LEDBits = 32) ∧ s._LEDBits = s.type * 8 := by
  obtain ⟨ht, hb, -⟩ := hc
  rcases ht with h | h <;> rw [hb, h] <;> decide

/-- A successful start: both halves are cleared, then slot `t` with
`_resetBlocks ≤ t < 2 * LEDperIRQ` receives LED `t - _resetBlocks` when that
LED exists. -/
theorem startTransfer_spec (s : smartLED_t) (hc : Configured s) (hu : s._updating = 0) :
    ∃ buf', smartLED_startTransfer s =
        ⟨SMARTLED_SUCCESS, withBuf { s with _updating := 1, _cyclesCnt := s.LEDperIRQ } buf',
          [if s.timType = SMARTLED_TIMER_NORMAL then
              HalCall.PWM_Start_DMA s.timChannel (2 * s.LEDperIRQ * s._LEDBits)
            else HalCall.PWMN_Start_DMA s.timChannel (2 * s.LEDperIRQ * s._LEDBits)]⟩ ∧
      ∀ t j, j < s._LEDBits → buf' (t * s._LEDBits + j) =
        if t < 2 * s.LEDperIRQ then
          if s._resetBlocks ≤ t ∧ t - s._resetBlocks < s.size ∧ j < 24 then
            encodedPulse s (t - s._resetBlocks) j
          else 0
        else s._dmaBuffer (t * s._LEDBits + j) := by
  obtain ⟨hB, -⟩ := configured_bits s hc
  obtain ⟨-, -, hL1, hL, hN, hR⟩ := hc
  obtain ⟨buf', h1, h2⟩ := startLoop_spec { s with _updating := 1, _cyclesCnt := s.LEDperIRQ }
    s._LEDBits hB rfl hL (2 * s.LEDperIRQ)
    (memset0 s._dmaBuffer 0 (2 * s.LEDperIRQ * s._LEDBits)) 0 s._resetBlocks
    (Nat.sub_le _ _) (Nat.zero_le _)
  refine ⟨buf', ?_, ?_⟩
  · unfold smartLED_startTransfer
    rw [if_neg (by omega)]
    have h1' : startLoop (2 * s.LEDperIRQ)
        { s with _updating := 1, _cyclesCnt := s.LEDperIRQ,
                 _dmaBuffer := memset0 s._dmaBuffer 0 (2 * s.LEDperIRQ * s._LEDBits) } 0
        s._resetBlocks = withBuf { s with _updating := 1, _cyclesCnt := s.LEDperIRQ } buf' := h1
    simp only [h1']
    rfl
  · intro t j hj
    rw [h2 t j hj]
    have e : encodedPulse { s with _updating := 1, _cyclesCnt := s.LEDperIRQ }
        (0 + (t - s._resetBlocks)) j = encodedPulse s (t - s._resetBlocks) j := by
      rw [Nat.zero_add]; rfl
    rw [e]
    simp only [memset0]
    rcases hB with hB | hB <;> rw [hB] at hj ⊢ <;>
      split_ifs <;> first | rfl | omega

/-- Buffer written by a notification accepted while busy, by branch of the
advanced counter `c`: nothing below the notified half changes, and slot `t`
of the half is given by the preamble, data or postamble rule. -/
theorem updateTransfer_spec (s : smartLED_t) (PWM_IRQ : Nat) (hc : Configured s)
    (hu : s._updating ≠ 0) (hh : PWM_IRQ = 0 ∨ PWM_IRQ = 1) :
    ∃ buf', (smartLED_updateTransfer s PWM_IRQ).led._dmaBuffer = buf' ∧
      (∀ p, p < PWM_IRQ * (s.LEDperIRQ * s._LEDBits) → buf' p = s._dmaBuffer p) ∧
      ∀ t j, j < s._LEDBits →
        buf' (PWM_IRQ * (s.LEDperIRQ * s._LEDBits) + t * s._LEDBits + j) =
          if t < s.LEDperIRQ then
            if (s._cyclesCnt + s.LEDperIRQ) % 2 ^ 32 < s._resetBlocks then
              if s._resetBlocks ≤ (s._cyclesCnt + s.LEDperIRQ) % 2 ^ 32 + t ∧
                  (s._cyclesCnt + s.LEDperIRQ) % 2 ^ 32 + t - s._resetBlocks < s.size ∧ j < 24
              then
                encodedPulse s ((s._cyclesCnt + s.LEDperIRQ) % 2 ^ 32 + t - s._resetBlocks) j
              else s._dmaBuffer (PWM_IRQ * (s.LEDperIRQ * s._LEDBits) + t * s._LEDBits + j)
            else if (s._cyclesCnt + s.LEDperIRQ) % 2 ^ 32 < s._resetBlocks + s.size then
              if (s._cyclesCnt + s.LEDperIRQ) % 2 ^ 32 + t - s._resetBlocks < s.size then
                if j < 24 then
                  encodedPulse s ((s._cyclesCnt + s.LEDperIRQ) % 2 ^ 32 + t - s._resetBlocks) j
                else s._dmaBuffer (PWM_IRQ * (s.LEDperIRQ * s._LEDBits) + t * s._LEDBits + j)
              else 0
            else if (s._cyclesCnt + s.LEDperIRQ) % 2 ^ 32 <
                  2 * s._resetBlocks + s.size + s.LEDperIRQ ∧
                (s._cyclesCnt + s.LEDperIRQ) % 2 ^ 32 <
                  s._resetBlocks + s.size + 2 * s.LEDperIRQ then 0
            else s._dmaBuffer (PWM_IRQ * (s.LEDperIRQ * s._LEDBits) + t * s._LEDBits + j)
          else s._dmaBuffer (PWM_IRQ * (s.LEDperIRQ * s._LEDBits) + t * s._LEDBits + j) := by
  obtain ⟨hB, hT⟩ := configured_bits s hc
  obtain ⟨-, -, hL1, hL, hN, hR⟩ := hc
  refine ⟨_, rfl, ?_⟩
  unfold smartLED_updateTransfer
  rw [if_neg hu]
  simp only
  generalize (s._cyclesCnt + s.LEDperIRQ) % 2 ^ 32 = c
  have hH : (s.LEDperIRQ * s._LEDBits) % 2 ^ 32 = s.LEDperIRQ * s._LEDBits := by
    apply Nat.mod_eq_of_lt
    rcases hB with hB | hB <;> rw [hB] <;> omega
  rw [hH]
  by_cases h1 : c < s._resetBlocks
  · rw [if_pos h1]
    by_cases h2 : (c + s.LEDperIRQ) % 2 ^ 32 > s._resetBlocks
    · rw [if_pos h2]
      obtain ⟨buf', e1, e2, e3⟩ := preambleLoop_spec { s with _cyclesCnt := c } s._LEDBits hB rfl
        hL hN PWM_IRQ (s.LEDperIRQ * s._LEDBits) s.LEDperIRQ s._dmaBuffer (s._resetBlocks - c) 0
        (Nat.sub_le _ _)
      have e1' : preambleLoop s.LEDperIRQ { s with _cyclesCnt := c } PWM_IRQ
          (s.LEDperIRQ * s._LEDBits) (s._resetBlocks - c) 0
          = withBuf { s with _cyclesCnt := c } buf' := e1
      rw [e1']
      refine ⟨e2, ?_⟩
      intro t j hj
      have e3' := e3 t j hj
      simp only [withBuf] at e3' ⊢
      rw [e3']
      have ee : ∀ i, encodedPulse { s with _cyclesCnt := c } i j = encodedPulse s i j :=
        fun _ => rfl
      rw [ee]
      split_ifs <;> first | rfl | omega | (congr 1 <;> omega)
    · rw [if_neg h2]
      refine ⟨fun _ _ => rfl, ?_⟩
      intro t j hj
      simp only
      have e : (c + s.LEDperIRQ) % 2 ^ 32 = c + s.LEDperIRQ := Nat.mod_eq_of_lt (by omega)
      rw [e] at h2
      split_ifs <;> first | rfl | omega
  · rw [if_neg h1]
    by_cases h2 : c < s._resetBlocks + s.size
    · rw [if_pos h2]
      have en : (c - s._resetBlocks) % 2 ^ 16 = c - s._resetBlocks :=
        Nat.mod_eq_of_lt (by omega)
      rw [en]
      obtain ⟨buf', e1, e2, e3⟩ := dataLoop_spec { s with _cyclesCnt := c } s._LEDBits hB rfl
        hL hN PWM_IRQ (s.LEDperIRQ * s._LEDBits) s.LEDperIRQ s._dmaBuffer 0 (c - s._resetBlocks)
        (Nat.sub_le _ _) (Nat.zero_le _) (by show c - s._resetBlocks ≤ s.size; omega)
      have e1' : dataLoop s.LEDperIRQ { s with _cyclesCnt := c } PWM_IRQ
          (s.LEDperIRQ * s._LEDBits) 0 (c - s._resetBlocks)
          = (withBuf { s with _cyclesCnt := c } buf',
              min s.LEDperIRQ (0 + (s.size - (c - s._resetBlocks)))) := e1
      rw [e1']
      simp only [withBuf]
      have hT' : s.type * 8 = s._LEDBits := hT.symm
      by_cases h3 : min s.LEDperIRQ (0 + (s.size - (c - s._resetBlocks))) < s.LEDperIRQ
      · rw [if_pos h3]
        simp only [memset0]
        constructor
        · intro p hp
          rw [if_neg (by omega), e2 p hp]
        · intro t j hj
          have e3' := e3 t j hj
          dsimp only at e3'
          rw [e3']
          have ee : ∀ i, encodedPulse { s with _cyclesCnt := c } i j = encodedPulse s i j :=
            fun _ => rfl
          rw [ee, Nat.mul_assoc, hT']
          rcases hh with rfl | rfl <;> rcases hB with hB | hB <;> rw [hB] at hj ⊢ <;>
            split_ifs <;> first | rfl | omega | (congr 1 <;> omega)
      · rw [if_neg h3]
        refine ⟨e2, ?_⟩
        intro t j hj
        have e3' := e3 t j hj
        dsimp only at e3' ⊢
        rw [e3']
        have ee : ∀ i, encodedPulse { s with _cyclesCnt := c } i j = encodedPulse s i j :=
          fun _ => rfl
        rw [ee]
        split_ifs <;> first | rfl | omega | (congr 1 <;> omega)
    · rw [if_neg h2]
      by_cases h3 : c < 2 * s._resetBlocks + s.size + s.LEDperIRQ
      · rw [if_pos h3]
        by_cases h4 : c < s._resetBlocks + s.size + 2 * s.LEDperIRQ
        · rw [if_pos h4]
          simp only [memset0]
          constructor
          · intro p hp
            rw [if_neg (by omega)]
          · intro t j hj
            rcases hh with rfl | rfl <;> rcases hB with hB | hB <;> rw [hB] at hj ⊢ <;>
              split_ifs <;> first | rfl | omega
        · rw [if_neg h4]
          refine ⟨fun _ _ => rfl, ?_⟩
          intro t j hj
          simp only
          split_ifs <;> first | rfl | omega
      · rw [if_neg h3]
        refine ⟨fun _ _ => rfl, ?_⟩
        intro t j hj
        simp only
        split_ifs <;> first | rfl | omega

/-! ## The frame -/

theorem ceil_div_spec (M L : Nat) (hL : 1 ≤ L) (hM : 1 ≤ M) :
    1 ≤ (M + L - 1) / L ∧ M ≤ (M + L - 1) / L * L ∧ ((M + L - 1) / L - 1) * L < M := by
  have h1 := Nat.div_add_mod (M + L - 1) L
  have h2 := Nat.mod_lt (M + L - 1) (show L > 0 by omega)
  have h3 : 1 ≤ (M + L - 1) / L := by
    rw [Nat.le_div_iff_mul_le (by omega)]
    omega
  generalize (M + L - 1) / L = n at *
  obtain ⟨m, rfl⟩ : ∃ m, n = m + 1 := ⟨n - 1, by omega⟩
  have h4 : L * (m + 1) = L * m + L := by ring
  have h5 : (m + 1) * L = L * m + L := by ring
  have h6 : (m + 1 - 1) * L = L * m := by rw [Nat.add_sub_cancel]; ring
  rw [h5, h6]
  omega

theorem stopIndex_spec (s : smartLED_t) (hL : 1 ≤ s.LEDperIRQ)
    (hM : 0 < 2 * s._resetBlocks + s.size) :
    1 ≤ stopIndex s ∧ 2 * s._resetBlocks + s.size ≤ stopIndex s * s.LEDperIRQ ∧
      (stopIndex s - 1) * s.LEDperIRQ < 2 * s._resetBlocks + s.size :=
  ceil_div_spec (2 * s._resetBlocks + s.size) s.LEDperIRQ hL hM

/-- Before the stopping notification the instance is busy and the counter is
`(k + 1) * LEDperIRQ`, whatever half ids were passed. -/
theorem afterNotifs_busy (s : smartLED_t) (hs : Nat → Nat) (hc : Configured s)
    (hu : s._updating = 0) :
    ∀ k, k * s.LEDperIRQ < 2 * s._resetBlocks + s.size →
      ∃ buf, afterNotifs s hs k =
        withBuf { s with _updating := 1, _cyclesCnt := (k + 1) * s.LEDperIRQ } buf := by
  obtain ⟨-, -, hL1, hL, hN, hR⟩ := hc
  intro k
  induction k with
  | zero =>
    intro _
    obtain ⟨buf, h⟩ := startTransfer_idle s hu
    refine ⟨buf, ?_⟩
    unfold afterNotifs
    rw [h, Nat.zero_add, Nat.one_mul]
  | succ k ih =>
    intro hk
    have hk1 : (k + 1) * s.LEDperIRQ = k * s.LEDperIRQ + s.LEDperIRQ := Nat.succ_mul _ _
    have hk2 : (k + 1 + 1) * s.LEDperIRQ = k * s.LEDperIRQ + s.LEDperIRQ + s.LEDperIRQ := by
      rw [Nat.succ_mul, hk1]
    obtain ⟨buf, h⟩ := ih (by omega)
    unfold afterNotifs
    rw [h]
    obtain ⟨buf', h'⟩ := updateTransfer_busy
      (withBuf { s with _updating := 1, _cyclesCnt := (k + 1) * s.LEDperIRQ } buf) (hs k)
      (by simp [withBuf])
    rw [h']
    refine ⟨buf', ?_⟩
    simp only [withBuf]
    have e : ((k + 1) * s.LEDperIRQ + s.LEDperIRQ) % 2 ^ 32 = (k + 1 + 1) * s.LEDperIRQ := by
      rw [hk2, hk1]
      exact Nat.mod_eq_of_lt (by omega)
    rw [e, if_pos (by omega)]

theorem configured_withBuf (s : smartLED_t) (u c : Nat) (buf : Nat → Nat) (hc : Configured s) :
    Configured (withBuf { s with _updating := u, _cyclesCnt := c } buf) := hc

/-- Frame invariant under alternating half ids: after notification `k`, before
the stop, the half being transmitted (`k mod 2`) holds chunk `k` of the frame
and the other half already holds chunk `k + 1`. -/
theorem frameState_inv (s : smartLED_t) (hc : Configured s) (hu : s._updating = 0) :
    ∀ k, k * s.LEDperIRQ < 2 * s._resetBlocks + s.size →
      ∃ buf, frameState s k =
          withBuf { s with _updating := 1, _cyclesCnt := (k + 1) * s.LEDperIRQ } buf ∧
        ∀ t j, t < s.LEDperIRQ → j < s._LEDBits →
          buf (k % 2 * (s.LEDperIRQ * s._LEDBits) + t * s._LEDBits + j) =
              framePulse s (k * s.LEDperIRQ + t) j ∧
            buf ((k + 1) % 2 * (s.LEDperIRQ * s._LEDBits) + t * s._LEDBits + j) =
              framePulse s ((k + 1) * s.LEDperIRQ + t) j := by
  obtain ⟨hB, -⟩ := configured_bits s hc
  have hc' := hc
  obtain ⟨-, -, hL1, hL, hN, hR⟩ := hc'
  intro k
  induction k with
  | zero =>
    intro _
    obtain ⟨buf, h1, h2⟩ := startTransfer_spec s hc hu
    refine ⟨buf, ?_, ?_⟩
    · show (smartLED_startTransfer s).led = _
      rw [h1, Nat.zero_add, Nat.one_mul]
    · intro t j ht hj
      have a1 := h2 t j hj
      have a2 := h2 (s.LEDperIRQ + t) j hj
      rw [if_pos (by omega)] at a1 a2
      unfold framePulse
      have e1 : 0 % 2 * (s.LEDperIRQ * s._LEDBits) + t * s._LEDBits + j = t * s._LEDBits + j := by
        simp
      have e2 : (0 + 1) % 2 * (s.LEDperIRQ * s._LEDBits) + t * s._LEDBits + j =
          (s.LEDperIRQ + t) * s._LEDBits + j := by
        simp [Nat.add_mul]
      rw [e1, e2, a1, a2, Nat.zero_mul, Nat.zero_add, Nat.zero_add, Nat.one_mul]
      exact ⟨rfl, rfl⟩
  | succ k ih =>
    intro hk
    have hk1 : (k + 1) * s.LEDperIRQ = k * s.LEDperIRQ + s.LEDperIRQ := Nat.succ_mul _ _
    have hk2 : (k + 1 + 1) * s.LEDperIRQ = k * s.LEDperIRQ + s.LEDperIRQ + s.LEDperIRQ := by
      rw [Nat.succ_mul, hk1]
    obtain ⟨buf, h1, h2⟩ := ih (by omega)
    obtain ⟨buf2, h3⟩ := afterNotifs_busy s alternating hc hu (k + 1) hk
    refine ⟨buf2, h3, ?_⟩
    have hstep : frameState s (k + 1) =
        (smartLED_updateTransfer (frameState s k) (alternating k)).led := rfl
    have hh : alternating k = k % 2 := by
      unfold alternating
      rcases Nat.mod_two_eq_zero_or_one k with h | h <;> simp [h]
    obtain ⟨buf3, e1, e2, e3⟩ := updateTransfer_spec (frameState s k) (k % 2)
      (by rw [h1]; exact configured_withBuf s _ _ _ hc) (by rw [h1]; simp [withBuf])
      (Nat.mod_two_eq_zero_or_one k)
    have hb : buf2 = buf3 := by
      rw [← e1, ← hh, ← hstep]
      show buf2 = (afterNotifs s alternating (k + 1))._dmaBuffer
      rw [h3]
      rfl
    subst hb
    rw [h1] at e2 e3
    simp only [withBuf] at e2 e3
    have ec : ((k + 1) * s.LEDperIRQ + s.LEDperIRQ) % 2 ^ 32
        = k * s.LEDperIRQ + s.LEDperIRQ + s.LEDperIRQ := by
      rw [hk1]
      exact Nat.mod_eq_of_lt (by omega)
    rw [ec] at e3
    rw [hk2, hk1]
    rw [hk1] at h2
    generalize k * s.LEDperIRQ = a at *
    intro t j ht hj
    obtain ⟨i1, i2⟩ := h2 t j ht hj
    unfold framePulse at i1 i2 ⊢
    have q0 : k % 2 = 0 → (k + 1) % 2 = 1 ∧ (k + 1 + 1) % 2 = 0 := by omega
    have q1 : k % 2 = 1 → (k + 1) % 2 = 0 ∧ (k + 1 + 1) % 2 = 1 := by omega
    rcases hB with hB | hB <;> rw [hB] at e2 e3 i1 i2 hj ⊢ <;>
      rcases Nat.mod_two_eq_zero_or_one k with hp | hp
    · obtain ⟨p1, p2⟩ := q0 hp
      rw [hp] at e3 i1
      rw [p1] at i2
      rw [p1, p2]
      have pos : 1 * (s.LEDperIRQ * 24) + t * 24 + j
          = 0 * (s.LEDperIRQ * 24) + (s.LEDperIRQ + t) * 24 + j := by omega
      have a1 := e3 (s.LEDperIRQ + t) j hj
      have a2 := e3 t j hj
      rw [if_neg (by omega), ← pos, i2] at a1
      rw [if_pos ht, i1] at a2
      refine ⟨a1, ?_⟩
      rw [a2]
      split_ifs <;> first | rfl | omega
    · obtain ⟨p1, p2⟩ := q1 hp
      rw [hp] at e2 e3 i1
      rw [p1] at i2
      rw [p1, p2]
      have a1 := e2 (0 * (s.LEDperIRQ * 24) + t * 24 + j) (by omega)
      have a2 := e3 t j hj
      rw [i2] at a1
      rw [if_pos ht, i1] at a2
      refine ⟨a1, ?_⟩
      rw [a2]
      split_ifs <;> first | rfl | omega
    · obtain ⟨p1, p2⟩ := q0 hp
      rw [hp] at e3 i1
      rw [p1] at i2
      rw [p1, p2]
      have pos : 1 * (s.LEDperIRQ * 32) + t * 32 + j
          = 0 * (s.LEDperIRQ * 32) + (s.LEDperIRQ + t) * 32 + j := by omega
      have a1 := e3 (s.LEDperIRQ + t) j hj
      have a2 := e3 t j hj
      rw [if_neg (by omega), ← pos, i2] at a1
      rw [if_pos ht, i1] at a2
      refine ⟨a1, ?_⟩
      rw [a2]
      split_ifs <;> first | rfl | omega
    · obtain ⟨p1, p2⟩ := q1 hp
      rw [hp] at e2 e3 i1
      rw [p1] at i2
      rw [p1, p2]
      have a1 := e2 (0 * (s.LEDperIRQ * 32) + t * 32 + j) (by omega)
      have a2 := e3 t j hj
      rw [i2] at a1
      rw [if_pos ht, i1] at a2
      refine ⟨a1, ?_⟩
      rw [a2]
      split_ifs <;> first | rfl | omega

/-- Neither operation changes a field other than `_updating`, `_cyclesCnt`
and the buffer, in any state and for any half id. -/
theorem startTransfer_frame (s : smartLED_t) :
    ∃ u c buf, (smartLED_startTransfer s).led =
      withBuf { s with _updating := u, _cyclesCnt := c } buf := by
  by_cases h : s._updating = 0
  · obtain ⟨buf, hb⟩ := startTransfer_idle s h
    exact ⟨1, s.LEDperIRQ, buf, by rw [hb]⟩
  · exact ⟨s._updating, s._cyclesCnt, s._dmaBuffer, by rw [startTransfer_busy s h]; rfl⟩

theorem updateTransfer_frame (s : smartLED_t) (PWM_IRQ : Nat) :
    ∃ u c buf, (smartLED_updateTransfer s PWM_IRQ).led =
      withBuf { s with _updating := u, _cyclesCnt := c } buf := by
  by_cases h : s._updating = 0
  · exact ⟨s._updating, s._cyclesCnt, s._dmaBuffer, by rw [updateTransfer_idle s _ h]; rfl⟩
  · obtain ⟨buf, hb⟩ := updateTransfer_busy s PWM_IRQ h
    exact ⟨_, _, buf, by rw [hb]⟩

theorem afterNotifs_frame (s : smartLED_t) (hs : Nat → Nat) :
    ∀ k, ∃ u c buf, afterNotifs s hs k =
      withBuf { s with _updating := u, _cyclesCnt := c } buf := by
  intro k
  induction k with
  | zero => exact startTransfer_frame s
  | succ k ih =>
    obtain ⟨u, c, buf, h⟩ := ih
    obtain ⟨u', c', buf', h'⟩ := updateTransfer_frame (afterNotifs s hs k) (hs k)
    refine ⟨u', c', buf', ?_⟩
    show (smartLED_updateTransfer (afterNotifs s hs k) (hs k)).led = _
    rw [h', h]
    rfl

/-! ## The transmitted stream -/

theorem bufHalf_length (s : smartLED_t) (h : Nat) :
    (bufHalf s h).length = s.LEDperIRQ * s._LEDBits := by
  simp [bufHalf]

theorem flatten_chunks (f : Nat → List Nat) (H : Nat) (hf : ∀ k, (f k).length = H) :
    ∀ n, (((List.range n).map f).flatten).length = n * H ∧
      ∀ k o, k < n → o < H → (((List.range n).map f).flatten)[k * H + o]? = (f k)[o]? := by
  intro n
  induction n with
  | zero => exact ⟨by simp, fun k o hk _ => absurd hk (Nat.not_lt_zero k)⟩
  | succ n ih =>
    obtain ⟨ih1, ih2⟩ := ih
    have e : ((List.range (n + 1)).map f).flatten = ((List.range n).map f).flatten ++ f n := by
      simp [List.range_succ]
    rw [e]
    constructor
    · rw [List.length_append, ih1, hf, Nat.succ_mul]
    · intro k o hk ho
      by_cases hkn : k < n
      · have hlt : k * H + o < (((List.range n).map f).flatten).length := by
          rw [ih1]
          calc k * H + o < k * H + H := by omega
            _ = (k + 1) * H := (Nat.succ_mul k H).symm
            _ ≤ n * H := Nat.mul_le_mul_right H hkn
        rw [List.getElem?_append_left hlt]
        exact ih2 k o hkn ho
      · have hk' : k = n := by omega
        subst hk'
        rw [List.getElem?_append_right (by rw [ih1]; omega), ih1]
        congr 1
        omega

theorem txStream_spec (s : smartLED_t) (n : Nat) :
    (txStream s n).length = n * (s.LEDperIRQ * s._LEDBits) ∧
      ∀ k o, k < n → o < s.LEDperIRQ * s._LEDBits →
        (txStream s n)[k * (s.LEDperIRQ * s._LEDBits) + o]? =
          some ((frameState s k)._dmaBuffer (k % 2 * (s.LEDperIRQ * s._LEDBits) + o)) := by
  have hf : ∀ k, (bufHalf (frameState s k) (k % 2)).length = s.LEDperIRQ * s._LEDBits := by
    intro k
    obtain ⟨u, c, buf, h⟩ := afterNotifs_frame s alternating k
    rw [bufHalf_length]
    unfold frameState
    rw [h]
    rfl
  obtain ⟨h1, h2⟩ := flatten_chunks (fun k => bufHalf (frameState s k) (k % 2)) _ hf n
  refine ⟨h1, ?_⟩
  intro k o hk ho
  have := h2 k o hk ho
  unfold txStream
  rw [this]
  obtain ⟨u, c, buf, h⟩ := afterNotifs_frame s alternating k
  have hL : (frameState s k).LEDperIRQ = s.LEDperIRQ := by unfold frameState; rw [h]; rfl
  have hB : (frameState s k)._LEDBits = s._LEDBits := by unfold frameState; rw [h]; rfl
  simp only [bufHalf, hL, hB]
  rw [List.getElem?_map, List.getElem?_range ho]
  rfl

theorem streamSlot_getElem (l : List Nat) (B slot j : Nat) :
    (streamSlot l B slot)[j]? = if j < B then l[slot * B + j]? else none := by
  unfold streamSlot
  rw [List.getElem?_take, List.getElem?_drop]

/-- One LED encoded onto a zeroed slot: 24 pulses, then zeros up to the slot
width. -/
theorem encodedSlot_getElem (s : smartLED_t) (i j : Nat) :
    (encodedSlot s i)[j]? =
      if j < s._LEDBits then some (if i < s.size ∧ j < 24 then encodedPulse s i j else 0)
      else none := by
  unfold encodedSlot
  rw [List.getElem?_map]
  by_cases hj : j < s._LEDBits
  · rw [List.getElem?_range hj, if_pos hj, fill_withBuf]
    simp only [withBuf, Option.map_some']
    congr 1
    by_cases h : i < s.size ∧ j < 24
    · rw [if_pos h, if_pos ⟨h.1, Nat.zero_le _, by omega⟩]
      rfl
    · rw [if_neg h, if_neg (fun hh => h ⟨hh.1, by omega⟩)]
  · rw [if_neg hj]
    have : (List.range s._LEDBits)[j]? = none := by
      rw [List.getElem?_eq_none_iff, List.length_range]
      omega
    rw [this]
    rfl

/-- Every slot of the transmitted stream, before the stop, is the slot the
frame prescribes. -/
theorem txStream_slot (s : smartLED_t) (hc : Configured s) (hN : 1 ≤ s.size)
    (hu : s._updating = 0) (slot j : Nat) (hs : slot < stopIndex s * s.LEDperIRQ) :
    (streamSlot (txStream s (stopIndex s)) s._LEDBits slot)[j]? =
      if j < s._LEDBits then some (framePulse s slot j) else none := by
  have hc' := hc
  obtain ⟨-, -, hL1, hL, -, hR⟩ := hc'
  obtain ⟨n1, n2, n3⟩ := stopIndex_spec s hL1 (by omega)
  rw [streamSlot_getElem]
  by_cases hj : j < s._LEDBits
  · rw [if_pos hj, if_pos hj]
    have hk : slot / s.LEDperIRQ < stopIndex s := (Nat.div_lt_iff_lt_mul (by omega)).2 hs
    have hdm := Nat.div_add_mod slot s.LEDperIRQ
    have ht : slot % s.LEDperIRQ < s.LEDperIRQ := Nat.mod_lt _ (by omega)
    generalize slot / s.LEDperIRQ = k at *
    generalize slot % s.LEDperIRQ = t at *
    have hkL : k * s.LEDperIRQ < 2 * s._resetBlocks + s.size := by
      have : k * s.LEDperIRQ ≤ (stopIndex s - 1) * s.LEDperIRQ :=
        Nat.mul_le_mul_right _ (by omega)
      omega
    obtain ⟨buf, h1, h2⟩ := frameState_inv s hc hu k hkL
    have epos : slot * s._LEDBits + j
        = k * (s.LEDperIRQ * s._LEDBits) + (t * s._LEDBits + j) := by
      rw [← hdm]
      ring
    have ho : t * s._LEDBits + j < s.LEDperIRQ * s._LEDBits := by
      calc t * s._LEDBits + j < t * s._LEDBits + s._LEDBits := by omega
        _ = (t + 1) * s._LEDBits := (Nat.succ_mul _ _).symm
        _ ≤ s.LEDperIRQ * s._LEDBits := Nat.mul_le_mul_right _ ht
    rw [epos, (txStream_spec s (stopIndex s)).2 k _ hk ho, h1]
    simp only [withBuf]
    rw [← Nat.add_assoc, (h2 t j ht hj).1]
    congr 2
    rw [← hdm, Nat.mul_comm]
  · rw [if_neg hj, if_neg hj]

/-- Outcome of the `n`-th notification of a frame, up to and including the
stopping one, for arbitrary half ids. -/
theorem notification_outcome (s : smartLED_t) (hs : Nat → Nat) (hc : Configured s)
    (hM : 0 < 2 * s._resetBlocks + s.size) (hu : s._updating = 0) (n : Nat) (h1 : 1 ≤ n)
    (h2 : n ≤ stopIndex s) :
    ∃ buf, notification s hs n =
      ⟨SMARTLED_SUCCESS,
        withBuf { s with _updating := if n < stopIndex s then 1 else 0,
                         _cyclesCnt := (n + 1) * s.LEDperIRQ } buf,
        if n < stopIndex s then [] else [stopCall s]⟩ := by
  have hc' := hc
  obtain ⟨-, -, hL1, hL, hN', hR⟩ := hc'
  obtain ⟨n1, n2, n3⟩ := stopIndex_spec s hL1 hM
  obtain ⟨m, rfl⟩ : ∃ m, n = m + 1 := ⟨n - 1, by omega⟩
  have hm : m * s.LEDperIRQ ≤ (stopIndex s - 1) * s.LEDperIRQ :=
    Nat.mul_le_mul_right _ (by omega)
  have hk1 : (m + 1) * s.LEDperIRQ = m * s.LEDperIRQ + s.LEDperIRQ := Nat.succ_mul _ _
  have hk2 : (m + 1 + 1) * s.LEDperIRQ = m * s.LEDperIRQ + s.LEDperIRQ + s.LEDperIRQ := by
    rw [Nat.succ_mul, hk1]
  obtain ⟨buf, hb⟩ := afterNotifs_busy s hs hc hu m (by omega)
  unfold notification
  rw [Nat.add_sub_cancel, hb]
  obtain ⟨buf', hb'⟩ := updateTransfer_busy
    (withBuf { s with _updating := 1, _cyclesCnt := (m + 1) * s.LEDperIRQ } buf) (hs m)
    (by simp [withBuf])
  rw [hb']
  refine ⟨buf', ?_⟩
  simp only [withBuf]
  have e : ((m + 1) * s.LEDperIRQ + s.LEDperIRQ) % 2 ^ 32 = (m + 1 + 1) * s.LEDperIRQ := by
    rw [hk2, hk1]
    exact Nat.mod_eq_of_lt (by omega)
  rw [e]
  by_cases hlt : m + 1 < stopIndex s
  · have : (m + 1) * s.LEDperIRQ ≤ (stopIndex s - 1) * s.LEDperIRQ :=
      Nat.mul_le_mul_right _ (by omega)
    rw [if_pos hlt, if_pos hlt, if_pos (by omega), if_pos (by omega)]
  · have he : m + 1 = stopIndex s := by omega
    rw [← he] at n2
    rw [if_neg hlt, if_neg hlt, if_neg (by omega), if_neg (by omega)]
    rfl

theorem afterNotifs_succ (s : smartLED_t) (hs : Nat → Nat) (n : Nat) (h : 1 ≤ n) :
    afterNotifs s hs n = (notification s hs n).led := by
  obtain ⟨m, rfl⟩ : ∃ m, n = m + 1 := ⟨n - 1, by omega⟩
  rfl

/-- Once the stop has been commanded the instance stays idle: every later
notification is rejected and changes nothing. -/
theorem afterNotifs_idle (s : smartLED_t) (hs : Nat → Nat) (n : Nat)
    (h : (afterNotifs s hs n)._updating = 0) :
    ∀ d, afterNotifs s hs (n + d) = afterNotifs s hs n := by
  intro d
  induction d with
  | zero => rfl
  | succ d ih =>
    show (smartLED_updateTransfer (afterNotifs s hs (n + d)) (hs (n + d))).led = _
    rw [ih, updateTransfer_idle _ _ h]

theorem notification_after_stop (s : smartLED_t) (hs : Nat → Nat) (hc : Configured s)
    (hM : 0 < 2 * s._resetBlocks + s.size) (hu : s._updating = 0) (n : Nat)
    (h : stopIndex s < n) :
    notification s hs n = ⟨SMARTLED_ERROR, afterNotifs s hs (stopIndex s), []⟩ ∧
      (afterNotifs s hs (stopIndex s))._updating = 0 := by
  obtain ⟨n1, -, -⟩ := stopIndex_spec s hc.2.2.1 hM
  obtain ⟨buf, hb⟩ := notification_outcome s hs hc hM hu (stopIndex s) n1 (Nat.le_refl _)
  have hidle : (afterNotifs s hs (stopIndex s))._updating = 0 := by
    rw [afterNotifs_succ s hs _ n1, hb]
    simp [withBuf]
  refine ⟨?_, hidle⟩
  obtain ⟨d, rfl⟩ : ∃ d, n = stopIndex s + d + 1 := ⟨n - stopIndex s - 1, by omega⟩
  unfold notification
  rw [Nat.add_sub_cancel, afterNotifs_idle s hs _ hidle d, updateTransfer_idle _ _ hidle]

/-! ## Sufficiency of the iteration budgets, and setup -/

/-- The pre-fill loop leaves by its guard: a larger budget gives the same
result. -/
theorem startLoop_fuel_enough :
    ∀ (fuel : Nat) (s : smartLED_t) (ii index d : Nat), s.LEDperIRQ < 2 ^ 8 →
      2 * s.LEDperIRQ - index ≤ fuel →
      startLoop (fuel + d) s ii index = startLoop fuel s ii index := by
  intro fuel
  induction fuel with
  | zero =>
    intro s ii index d _ hf
    cases d with
    | zero => rfl
    | succ d =>
      rw [Nat.zero_add]
      show startLoop (d + 1) s ii index = s
      unfold startLoop
      rw [if_neg (by omega)]
  | succ n ih =>
    intro s ii index d hL hf
    rw [show n + 1 + d = (n + d) + 1 by omega]
    unfold startLoop
    by_cases hg : index < 2 * s.LEDperIRQ
    · rw [if_pos hg, if_pos hg]
      obtain ⟨b, hb⟩ := fill_frame s ii (index * s._LEDBits)
      rw [hb]
      have e : (index + 1) % 2 ^ 16 = index + 1 := Nat.mod_eq_of_lt (by omega)
      rw [e]
      exact ih (withBuf s b) _ _ d hL (by show 2 * s.LEDperIRQ - (index + 1) ≤ n; omega)
    · rw [if_neg hg, if_neg hg]

/-- The preamble loop leaves by its guard. -/
theorem preambleLoop_fuel_enough :
    ∀ (fuel : Nat) (s : smartLED_t) (PWM_IRQ half index ii d : Nat), s.LEDperIRQ < 2 ^ 8 →
      s.LEDperIRQ - index ≤ fuel →
      preambleLoop (fuel + d) s PWM_IRQ half index ii =
        preambleLoop fuel s PWM_IRQ half index ii := by
  intro fuel
  induction fuel with
  | zero =>
    intro s PWM_IRQ half index ii d _ hf
    cases d with
    | zero => rfl
    | succ d =>
      rw [Nat.zero_add]
      show preambleLoop (d + 1) s PWM_IRQ half index ii = s
      unfold preambleLoop
      rw [if_neg (fun hh => absurd hh.1 (by omega))]
  | succ n ih =>
    intro s PWM_IRQ half index ii d hL hf
    rw [show n + 1 + d = (n + d) + 1 by omega]
    unfold preambleLoop
    by_cases hg : index < s.LEDperIRQ ∧ ii < s.size
    · rw [if_pos hg, if_pos hg]
      obtain ⟨b, hb⟩ :=
        fill_frame s ii (PWM_IRQ * half + (index % s.LEDperIRQ) * s._LEDBits)
      rw [hb]
      have e : (index + 1) % 2 ^ 32 = index + 1 := Nat.mod_eq_of_lt (by omega)
      rw [e]
      exact ih (withBuf s b) _ _ _ _ d hL (by show s.LEDperIRQ - (index + 1) ≤ n; omega)
    · rw [if_neg hg, if_neg hg]

/-- The data loop leaves by its guard. -/
theorem dataLoop_fuel_enough :
    ∀ (fuel : Nat) (s : smartLED_t) (PWM_IRQ half counter next_led d : Nat),
      s.LEDperIRQ < 2 ^ 8 → s.LEDperIRQ - counter ≤ fuel →
      dataLoop (fuel + d) s PWM_IRQ half counter next_led =
        dataLoop fuel s PWM_IRQ half counter next_led := by
  intro fuel
  induction fuel with
  | zero =>
    intro s PWM_IRQ half counter next_led d _ hf
    cases d with
    | zero => rfl
    | succ d =>
      rw [Nat.zero_add]
      show dataLoop (d + 1) s PWM_IRQ half counter next_led = (s, counter)
      unfold dataLoop
      rw [if_neg (fun hh => absurd hh.1 (by omega))]
  | succ n ih =>
    intro s PWM_IRQ half counter next_led d hL hf
    rw [show n + 1 + d = (n + d) + 1 by omega]
    unfold dataLoop
    by_cases hg : counter < s.LEDperIRQ ∧ next_led < s.size
    · rw [if_pos hg, if_pos hg]
      obtain ⟨b, hb⟩ := fill_frame s next_led (PWM_IRQ * half + counter * s._LEDBits)
      rw [hb]
      have e : (counter + 1) % 2 ^ 8 = counter + 1 := Nat.mod_eq_of_lt (by omega)
      rw [e]
      exact ih (withBuf s b) _ _ _ _ d hL (by show s.LEDperIRQ - (counter + 1) ≤ n; omega)
    · rw [if_neg hg, if_neg hg]

/-- A successful setup of a struct whose fields are in the range of their C
type leaves a configured instance with at least two reset blocks. -/
theorem initStatic_configured (s0 s : smartLED_t) (data buf : Nat → Nat)
    (hL : s0.LEDperIRQ < 2 ^ 8) (hN : s0.size < 2 ^ 16)
    (h : smartLED_initStatic s0 data buf = (SMARTLED_SUCCESS, s)) :
    Configured s ∧ 2 ≤ s._resetBlocks := by
  unfold smartLED_initStatic at h
  by_cases h1 : s0.chip ≠ WS2811 ∧ s0.chip ≠ WS2812B
  · rw [if_pos h1] at h
    exact smartLED_retStatus_t.noConfusion (congrArg Prod.fst h)
  rw [if_neg h1] at h
  by_cases h2 : s0.type ≠ SMARTLED_RGB ∧ s0.type ≠ SMARTLED_RGBW
  · rw [if_pos h2] at h
    exact smartLED_retStatus_t.noConfusion (congrArg Prod.fst h)
  rw [if_neg h2] at h
  by_cases h3 : s0.timType ≠ SMARTLED_TIMER_NORMAL ∧ s0.timType ≠ SMARTLED_TIMER_EXTENDED
  · rw [if_pos h3] at h
    exact smartLED_retStatus_t.noConfusion (congrArg Prod.fst h)
  rw [if_neg h3] at h
  by_cases h4 : s0.LEDperIRQ < 1
  · rw [if_pos h4] at h
    exact smartLED_retStatus_t.noConfusion (congrArg Prod.fst h)
  rw [if_neg h4] at h
  by_cases h5 : s0.ARR = 0
  · rw [if_pos h5] at h
    exact smartLED_retStatus_t.noConfusion (congrArg Prod.fst h)
  rw [if_neg h5] at h
  have hs := (congrArg Prod.snd h).symm
  simp only at hs
  subst hs
  have ht : s0.type = SMARTLED_RGB ∨ s0.type = SMARTLED_RGBW := by
    by_contra hh
    exact h2 ⟨fun a => hh (Or.inl a), fun a => hh (Or.inr a)⟩
  refine ⟨⟨ht, ?_, by show 1 ≤ s0.LEDperIRQ; omega, hL, hN, ?_⟩, ?_⟩
  · show (s0.type * 8) % 256 = 8 * s0.type
    rcases ht with e | e <;> rw [e] <;> decide
  · show (if s0.chip = WS2811 then resetBlocksOf 280 ((s0.type * 8) % 256)
      else resetBlocksOf 50 ((s0.type * 8) % 256)) < 2 ^ 8
    unfold resetBlocksOf
    split_ifs <;> exact Nat.mod_lt _ (by decide)
  · show 2 ≤ (if s0.chip = WS2811 then resetBlocksOf 280 ((s0.type * 8) % 256)
      else resetBlocksOf 50 ((s0.type * 8) % 256))
    rcases ht with e | e <;> rw [e] <;> split_ifs <;> decide

/-! ## Setup -/

theorem initStatic_accept (s : smartLED_t) (data buf : Nat → Nat) (h : setupAccepts s) :
    smartLED_initStatic s data buf =
      (SMARTLED_SUCCESS,
        { s with
          _brightness := 0xFF
          _pulseLow :=
            (((1 * ((s.ARR + 1) % ARR_MODULUS)) % ARR_MODULUS / 4 + (ARR_MODULUS - 1))
              % ARR_MODULUS) % 2 ^ 16
          _pulseHigh :=
            (((3 * ((s.ARR + 1) % ARR_MODULUS)) % ARR_MODULUS / 4 + (ARR_MODULUS - 1))
              % ARR_MODULUS) % 2 ^ 16
          _LEDBits := (s.type * 8) % 256
          _resetBlocks :=
            if s.chip = WS2811 then resetBlocksOf 280 ((s.type * 8) % 256)
            else resetBlocksOf 50 ((s.type * 8) % 256)
          _colorsData := data
          _dmaBuffer := buf }) := by
  obtain ⟨h1, h2, h3, h4, h5⟩ := h
  unfold smartLED_initStatic
  rw [if_neg (fun hh => by rcases h1 with a | a; exact hh.1 a; exact hh.2 a),
    if_neg (fun hh => by rcases h2 with a | a; exact hh.1 a; exact hh.2 a),
    if_neg (fun hh => by rcases h3 with a | a; exact hh.1 a; exact hh.2 a),
    if_neg (by omega), if_neg h5]

theorem initStatic_reject (s : smartLED_t) (data buf : Nat → Nat) (h : ¬ setupAccepts s) :
    smartLED_initStatic s data buf = (SMARTLED_ERROR, s) := by
  unfold smartLED_initStatic
  by_cases h1 : s.chip ≠ WS2811 ∧ s.chip ≠ WS2812B
  · rw [if_pos h1]
  rw [if_neg h1]
  by_cases h2 : s.type ≠ SMARTLED_RGB ∧ s.type ≠ SMARTLED_RGBW
  · rw [if_pos h2]
  rw [if_neg h2]
  by_cases h3 : s.timType ≠ SMARTLED_TIMER_NORMAL ∧ s.timType ≠ SMARTLED_TIMER_EXTENDED
  · rw [if_pos h3]
  rw [if_neg h3]
  by_cases h4 : s.LEDperIRQ < 1
  · rw [if_pos h4]
  rw [if_neg h4]
  by_cases h5 : s.ARR = 0
  · rw [if_pos h5]
  exfalso
  apply h
  refine ⟨?_, ?_, ?_, by omega, h5⟩
  · by_contra hh
    exact h1 ⟨fun a => hh (Or.inl a), fun a => hh (Or.inr a)⟩
  · by_contra hh
    exact h2 ⟨fun a => hh (Or.inl a), fun a => hh (Or.inr a)⟩
  · by_contra hh
    exact h3 ⟨fun a => hh (Or.inl a), fun a => hh (Or.inr a)⟩

/-- The reset-block count setup stores, for each chip and layout. -/
theorem resetBlocks_values :
    resetBlocksOf 280 24 = 11 ∧ resetBlocksOf 280 32 = 9 ∧ resetBlocksOf 50 24 = 3 ∧
      resetBlocksOf 50 32 = 3 := by
  decide

/-- The exact value of `resetSeconds * 800000 / bitsPerLED`, rounded down and
up, for each chip and layout. -/
theorem resetRatio_floor_ceil :
    (⌊(280 / 1000000 : ℚ) * 800000 / 24⌋ = 9 ∧ ⌈(280 / 1000000 : ℚ) * 800000 / 24⌉₊ = 10) ∧
    (⌊(280 / 1000000 : ℚ) * 800000 / 32⌋ = 7 ∧ ⌈(280 / 1000000 : ℚ) * 800000 / 32⌉₊ = 7) ∧
    (⌊(50 / 1000000 : ℚ) * 800000 / 24⌋ = 1 ∧ ⌈(50 / 1000000 : ℚ) * 800000 / 24⌉₊ = 2) ∧
    (⌊(50 / 1000000 : ℚ) * 800000 / 32⌋ = 1 ∧ ⌈(50 / 1000000 : ℚ) * 800000 / 32⌉₊ = 2) := by
  refine ⟨⟨?_, ?_⟩, ⟨?_, ?_⟩, ⟨?_, ?_⟩, ⟨?_, ?_⟩⟩
  · rw [Int.floor_eq_iff]; norm_num
  · rw [Nat.ceil_eq_iff (by norm_num)]; norm_num
  · rw [Int.floor_eq_iff]; norm_num
  · rw [Nat.ceil_eq_iff (by norm_num)]; norm_num
  · rw [Int.floor_eq_iff]; norm_num
  · rw [Nat.ceil_eq_iff (by norm_num)]; norm_num
  · rw [Int.floor_eq_iff]; norm_num
  · rw [Nat.ceil_eq_iff (by norm_num)]; norm_num
theorem initStatic_success (s0 s : smartLED_t) (data buf : Nat → Nat)
    (h : smartLED_initStatic s0 data buf = (SMARTLED_SUCCESS, s)) :
    setupAccepts s0 ∧ s.chip = s0.chip ∧ s.type = s0.type ∧ s._updating = s0._updating ∧
      s._brightness = 255 ∧ s._LEDBits = 8 * s0.type ∧
      s._resetBlocks =
        (if s0.chip = WS2811 then resetBlocksOf 280 (8 * s0.type)
          else resetBlocksOf 50 (8 * s0.type)) := by
  by_cases ha : setupAccepts s0
  · rw [initStatic_accept s0 data buf ha] at h
    have hs := (congrArg Prod.snd h).symm
    simp only at hs
    subst hs
    have e : (s0.type * 8) % 256 = 8 * s0.type := by
      rcases ha.2.1 with e | e <;> rw [e] <;> decide
    refine ⟨ha, rfl, rfl, rfl, rfl, e, ?_⟩
    show (if s0.chip = WS2811 then resetBlocksOf 280 ((s0.type * 8) % 256)
      else resetBlocksOf 50 ((s0.type * 8) % 256)) = _
    rw [e]
  · rw [initStatic_reject s0 data buf ha] at h
    exact smartLED_retStatus_t.noConfusion (congrArg Prod.fst h)

/-- Setup never writes `_updating`. -/
theorem initStatic_updating (s : smartLED_t) (data buf : Nat → Nat) :
    (smartLED_initStatic s data buf).2._updating = s._updating := by
  by_cases ha : setupAccepts s
  · rw [initStatic_accept s data buf ha]
  · rw [initStatic_reject s data buf ha]

/-! ## Encoder calls -/

theorem fill_fst (s : smartLED_t) (item st : Nat) :
    (smartLED_fillDMABuffer s item st).1 =
      if item < s.size then SMARTLED_SUCCESS else SMARTLED_ERROR := by
  unfold smartLED_fillDMABuffer
  by_cases h : s.size ≤ item
  · rw [if_pos h, if_neg (by omega)]
  · rw [if_neg h, if_pos (by omega)]

/-- Every call of the pre-fill loop returns `SMARTLED_ERROR` exactly for an
index at or beyond `size`. -/
theorem startLoopCalls_status :
    ∀ (fuel : Nat) (s : smartLED_t) (ii index : Nat) (c : EncoderCall),
      c ∈ startLoopCalls fuel s ii index →
        (c.status = SMARTLED_ERROR ↔ s.size ≤ c.item) := by
  intro fuel
  induction fuel with
  | zero => intro s ii index c hc; simp [startLoopCalls] at hc
  | succ n ih =>
    intro s ii index c hc
    unfold startLoopCalls at hc
    split_ifs at hc with hg
    · rcases List.mem_cons.1 hc with h | h
      · subst h
        show (smartLED_fillDMABuffer s ii (index * s._LEDBits)).1 = SMARTLED_ERROR ↔ s.size ≤ ii
        rw [fill_fst]
        by_cases hi : ii < s.size
        · rw [if_pos hi]
          constructor
          · intro hh; exact smartLED_retStatus_t.noConfusion hh
          · intro hh; omega
        · rw [if_neg hi]
          exact ⟨fun _ => by omega, fun _ => rfl⟩
      · obtain ⟨b, hb⟩ := fill_frame s ii (index * s._LEDBits)
        rw [hb] at h
        exact ih (withBuf s b) _ _ c h
    · simp at hc

/-- The pre-fill loop calls the encoder for the indices `ii, ii + 1, ...`, once
per slot from `index` up to `2 * LEDperIRQ`. -/
theorem startLoopCalls_items :
    ∀ (fuel : Nat) (s : smartLED_t) (ii index : Nat), s.LEDperIRQ < 2 ^ 8 →
      2 * s.LEDperIRQ - index ≤ fuel → ii ≤ index →
      (startLoopCalls fuel s ii index).map (fun c => c.item) =
        List.range' ii (2 * s.LEDperIRQ - index) := by
  intro fuel
  induction fuel with
  | zero =>
    intro s ii index _ hf _
    have : 2 * s.LEDperIRQ - index = 0 := by omega
    rw [this]
    rfl
  | succ n ih =>
    intro s ii index hL hf hii
    unfold startLoopCalls
    by_cases hg : index < 2 * s.LEDperIRQ
    · rw [if_pos hg]
      obtain ⟨b, hb⟩ := fill_frame s ii (index * s._LEDBits)
      rw [hb]
      have e1 : (ii + 1) % 2 ^ 16 = ii + 1 := Nat.mod_eq_of_lt (by omega)
      have e2 : (index + 1) % 2 ^ 16 = index + 1 := Nat.mod_eq_of_lt (by omega)
      rw [e1, e2, List.map_cons,
        ih (withBuf s b) (ii + 1) (index + 1) hL
          (by show 2 * s.LEDperIRQ - (index + 1) ≤ n; omega) (by omega)]
      show ii :: List.range' (ii + 1) (2 * s.LEDperIRQ - (index + 1)) = _
      have e3 : 2 * s.LEDperIRQ - index = (2 * s.LEDperIRQ - (index + 1)) + 1 := by omega
      rw [e3, List.range'_succ]
    · rw [if_neg hg]
      have : 2 * s.LEDperIRQ - index = 0 := by omega
      rw [this]
      rfl

/-- Every call of the preamble loop passes an index below `size` and returns
`SMARTLED_SUCCESS`. -/
theorem preambleLoopCalls_ok :
    ∀ (fuel : Nat) (s : smartLED_t) (PWM_IRQ half index ii : Nat) (c : EncoderCall),
      c ∈ preambleLoopCalls fuel s PWM_IRQ half index ii →
        c.item < s.size ∧ c.status = SMARTLED_SUCCESS := by
  intro fuel
  induction fuel with
  | zero => intro s _ _ _ _ c hc; simp [preambleLoopCalls] at hc
  | succ n ih =>
    intro s PWM_IRQ half index ii c hc
    unfold preambleLoopCalls at hc
    split_ifs at hc with hg
    · rcases List.mem_cons.1 hc with h | h
      · subst h
        refine ⟨hg.2, ?_⟩
        show (smartLED_fillDMABuffer s ii _).1 = SMARTLED_SUCCESS
        rw [fill_fst, if_pos hg.2]
      · obtain ⟨b, hb⟩ :=
          fill_frame s ii (PWM_IRQ * half + (index % s.LEDperIRQ) * s._LEDBits)
        rw [hb] at h
        exact ih (withBuf s b) _ _ _ _ c h
    · simp at hc

/-- Every call of the data loop passes an index below `size` and returns
`SMARTLED_SUCCESS`. -/
theorem dataLoopCalls_ok :
    ∀ (fuel : Nat) (s : smartLED_t) (PWM_IRQ half counter next_led : Nat) (c : EncoderCall),
      c ∈ dataLoopCalls fuel s PWM_IRQ half counter next_led →
        c.item < s.size ∧ c.status = SMARTLED_SUCCESS := by
  intro fuel
  induction fuel with
  | zero => intro s _ _ _ _ c hc; simp [dataLoopCalls] at hc
  | succ n ih =>
    intro s PWM_IRQ half counter next_led c hc
    unfold dataLoopCalls at hc
    split_ifs at hc with hg
    · rcases List.mem_cons.1 hc with h | h
      · subst h
        refine ⟨hg.2, ?_⟩
        show (smartLED_fillDMABuffer s next_led _).1 = SMARTLED_SUCCESS
        rw [fill_fst, if_pos hg.2]
      · obtain ⟨b, hb⟩ := fill_frame s next_led (PWM_IRQ * half + counter * s._LEDBits)
        rw [hb] at h
        exact ih (withBuf s b) _ _ _ _ c h
    · simp at hc

/-- No encoder call made by a notification can fail, in any state and for any
half id. -/
theorem updateTransferCalls_ok (s : smartLED_t) (PWM_IRQ : Nat) (c : EncoderCall)
    (hc : c ∈ updateTransferCalls s PWM_IRQ) :
    c.item < s.size ∧ c.status = SMARTLED_SUCCESS := by
  unfold updateTransferCalls at hc
  dsimp only at hc
  split_ifs at hc
  · simp at hc
  · have h := preambleLoopCalls_ok _ _ _ _ _ _ c hc
    exact h
  · simp at hc
  · have h := dataLoopCalls_ok _ _ _ _ _ _ c hc
    exact h
  · simp at hc

theorem startTransferCalls_status (s : smartLED_t) (c : EncoderCall)
    (hc : c ∈ startTransferCalls s) : (c.status = SMARTLED_ERROR ↔ s.size ≤ c.item) := by
  unfold startTransferCalls at hc
  dsimp only at hc
  split_ifs at hc
  · simp at hc
  · have h := startLoopCalls_status _ _ _ _ c hc
    exact h

theorem startTransferCalls_items (s : smartLED_t) (hc : Configured s) (hu : s._updating = 0) :
    (startTransferCalls s).map (fun c => c.item) =
      List.range (2 * s.LEDperIRQ - s._resetBlocks) := by
  unfold startTransferCalls
  rw [if_neg (by omega)]
  rw [List.range_eq_range']
  exact startLoopCalls_items _ _ 0 s._resetBlocks hc.2.2.2.1 (Nat.sub_le _ _) (Nat.zero_le _)

theorem and_0xFF (x : Nat) (h : x < 256) : (x &&& 0xFF) % 256 = x := by
  have e : (0xFF : Nat) = 2 ^ 8 - 1 := by decide
  rw [e, Nat.and_pow_two_sub_one_eq_mod]
  omega

/-- Reading the color store back after `smartLED_updateRGBColors`. -/
theorem updateRGBColors_read (s : smartLED_t) (item red green blue : Nat) (hr : red < 256)
    (hg : green < 256) (hb : blue < 256) :
    (smartLED_updateRGBColors s item red green blue)._colorsData (item * s.type + 0) = red ∧
    (smartLED_updateRGBColors s item red green blue)._colorsData (item * s.type + 1) = green ∧
    (smartLED_updateRGBColors s item red green blue)._colorsData (item * s.type + 2) = blue := by
  simp only [smartLED_updateRGBColors, store, and_0xFF _ hr, and_0xFF _ hg, and_0xFF _ hb]
  have n1 : ¬ item * s.type + 0 = item * s.type + 2 := by omega
  have n2 : ¬ item * s.type + 0 = item * s.type + 1 := by omega
  have n3 : ¬ item * s.type + 1 = item * s.type + 2 := by omega
  refine ⟨?_, ?_, ?_⟩
  · rw [if_neg n1, if_neg n2, if_pos (Nat.add_zero _)]
  · rw [if_neg n3]
    exact if_pos trivial
  · exact if_pos trivial

theorem initStatic_success_public (s0 s : smartLED_t) (data buf : Nat → Nat)
    (h : smartLED_initStatic s0 data buf = (SMARTLED_SUCCESS, s)) :
    s.size = s0.size ∧ s.LEDperIRQ = s0.LEDperIRQ ∧ s.timType = s0.timType ∧
      s.timChannel = s0.timChannel := by
  by_cases ha : setupAccepts s0
  · rw [initStatic_accept s0 data buf ha] at h
    have hs := (congrArg Prod.snd h).symm
    simp only at hs
    subst hs
    exact ⟨rfl, rfl, rfl, rfl⟩
  · rw [initStatic_reject s0 data buf ha] at h
    exact smartLED_retStatus_t.noConfusion (congrArg Prod.fst h)

/-- The pulses of an LED just set with `smartLED_updateRGBColors`, at full
brightness: green bits, red bits, blue bits. -/
theorem encodedPulse_updateRGBColors (s : smartLED_t) (item red green blue q : Nat)
    (hbr : s._brightness = 255) (hr : red < 256) (hg : green < 256) (hb : blue < 256) :
    encodedPulse (smartLED_updateRGBColors s item red green blue) item q =
      if (if q < 8 then green else if q < 16 then red else blue).testBit (7 - q % 8) = true
      then s._pulseHigh else s._pulseLow := by
  obtain ⟨r0, r1, r2⟩ := updateRGBColors_read s item red green blue hr hg hb
  unfold encodedPulse channelOf
  rw [pulse_eq]
  have hty : (smartLED_updateRGBColors s item red green blue).type = s.type := rfl
  have hbr' : (smartLED_updateRGBColors s item red green blue)._brightness = 255 := hbr
  have hsc : ∀ c, c < 256 → scale c 255 = c := by
    intro c hc
    rw [scale_eq c 255 hc (by omega)]
    omega
  rw [hty, hbr']
  by_cases h8 : q < 8
  · rw [if_pos h8, if_pos h8, r1, hsc _ hg]; rfl
  · rw [if_neg h8, if_neg h8]
    by_cases h16 : q < 16
    · rw [if_pos h16, if_pos h16, r0, hsc _ hr]; rfl
    · rw [if_neg h16, if_neg h16, r2, hsc _ hb]; rfl

/-- Position of the frame after `k` notifications: before the stopping
notification the instance is busy with counter `(k + 1) * LEDperIRQ`; from the
stopping notification on it is idle. -/
theorem afterNotifs_cases (s : smartLED_t) (hs : Nat → Nat) (hc : Configured s)
    (hM : 0 < 2 * s._resetBlocks + s.size) (hu : s._updating = 0) (k : Nat) :
    (k < stopIndex s ∧ (afterNotifs s hs k)._updating = 1 ∧
        (afterNotifs s hs k)._cyclesCnt = (k + 1) * s.LEDperIRQ) ∨
      (stopIndex s ≤ k ∧ (afterNotifs s hs k)._updating = 0) := by
  obtain ⟨n1, n2, n3⟩ := stopIndex_spec s hc.2.2.1 hM
  by_cases hk : k < stopIndex s
  · left
    have : k * s.LEDperIRQ ≤ (stopIndex s - 1) * s.LEDperIRQ :=
      Nat.mul_le_mul_right _ (by omega)
    obtain ⟨buf, hb⟩ := afterNotifs_busy s hs hc hu k (by omega)
    rw [hb]
    exact ⟨hk, rfl, rfl⟩
  · right
    refine ⟨by omega, ?_⟩
    have hidle := (notification_after_stop s hs hc hM hu (stopIndex s + 1) (by omega)).2
    obtain ⟨d, rfl⟩ : ∃ d, k = stopIndex s + d := ⟨k - stopIndex s, by omega⟩
    rw [afterNotifs_idle s hs _ hidle d]
    exact hidle

/-- Every position at or above `base` lies in exactly one slot of width `B`. -/
theorem slot_decompose (base B p : Nat) (hB : 0 < B) (hp : base ≤ p) :
    p = base + (p - base) / B * B + (p - base) % B ∧ (p - base) % B < B := by
  have h1 := Nat.div_add_mod (p - base) B
  have h2 := Nat.mod_lt (p - base) hB
  rw [Nat.mul_comm] at h1
  exact ⟨by omega, h2⟩

/-! ## Restart and the unwritten tail of RGBW slots -/

/-- A start does not depend on the counter or on the buffer contents it finds:
on a configured idle instance, replacing `_cyclesCnt` and the buffer gives the
same status, `_updating`, `_cyclesCnt` and the same first `2 * L * B` buffer
entries. -/
theorem startTransfer_indep (s : smartLED_t) (hc : Configured s) (hu : s._updating = 0)
    (c0 : Nat) (buf0 : Nat → Nat) :
    (smartLED_startTransfer (withBuf { s with _updating := 0, _cyclesCnt := c0 } buf0)).status =
      SMARTLED_SUCCESS ∧
    (smartLED_startTransfer (withBuf { s with _updating := 0, _cyclesCnt := c0 } buf0)).led._updating
      = (smartLED_startTransfer s).led._updating ∧
    (smartLED_startTransfer
      (withBuf { s with _updating := 0, _cyclesCnt := c0 } buf0)).led._cyclesCnt
      = (smartLED_startTransfer s).led._cyclesCnt ∧
    ∀ p, p < 2 * s.LEDperIRQ * s._LEDBits →
      (smartLED_startTransfer
        (withBuf { s with _updating := 0, _cyclesCnt := c0 } buf0)).led._dmaBuffer p
        = (smartLED_startTransfer s).led._dmaBuffer p := by
  obtain ⟨buf, h1, h2⟩ := startTransfer_spec s hc hu
  obtain ⟨buf', h1', h2'⟩ := startTransfer_spec
    (withBuf { s with _updating := 0, _cyclesCnt := c0 } buf0) (configured_withBuf s 0 c0 buf0 hc)
    rfl
  obtain ⟨hB, -⟩ := configured_bits s hc
  rw [h1, h1']
  refine ⟨rfl, rfl, rfl, ?_⟩
  intro p hp
  have hpos : 0 < s._LEDBits := by omega
  have hdm := Nat.div_add_mod p s._LEDBits
  have hj := Nat.mod_lt p hpos
  have ht : p / s._LEDBits < 2 * s.LEDperIRQ := by
    rw [Nat.div_lt_iff_lt_mul hpos]
    exact hp
  have a1 := h2 (p / s._LEDBits) (p % s._LEDBits) hj
  have a2 := h2' (p / s._LEDBits) (p % s._LEDBits) hj
  simp only [withBuf] at a2
  rw [if_pos ht] at a1 a2
  have e : p / s._LEDBits * s._LEDBits + p % s._LEDBits = p := by
    rw [Nat.mul_comm]; exact hdm
  rw [e] at a1 a2
  simp only [withBuf]
  rw [a1, a2]
  rfl

/-- On an RGBW strip, entries 24..31 of every slot of the buffer are zero after
the start and after any number of notifications with half ids 0 or 1. -/
theorem white_entries_zero (s : smartLED_t) (hc : Configured s) (hT : s.type = SMARTLED_RGBW)
    (hu : s._updating = 0) (hs : Nat → Nat) (hhs : ∀ k, hs k = 0 ∨ hs k = 1) :
    ∀ k p, p < 64 * s.LEDperIRQ → 24 ≤ p % 32 → (afterNotifs s hs k)._dmaBuffer p = 0 := by
  have hB : s._LEDBits = 32 := by rw [hc.2.1, hT]; decide
  intro k
  induction k with
  | zero =>
    intro p hp hw
    obtain ⟨buf, h1, h2⟩ := startTransfer_spec s hc hu
    show (smartLED_startTransfer s).led._dmaBuffer p = 0
    rw [h1]
    simp only [withBuf]
    have a := h2 (p / 32) (p % 32) (by rw [hB]; omega)
    rw [hB] at a
    have e : p / 32 * 32 + p % 32 = p := by omega
    rw [e] at a
    rw [a, if_pos (by omega), if_neg (fun hh => by omega)]
  | succ k ih =>
    intro p hp hw
    obtain ⟨u, c, buf, hst⟩ := afterNotifs_frame s hs k
    show (smartLED_updateTransfer (afterNotifs s hs k) (hs k)).led._dmaBuffer p = 0
    have ihp := ih p hp hw
    by_cases hu0 : (afterNotifs s hs k)._updating = 0
    · rw [updateTransfer_idle _ _ hu0]
      exact ihp
    · obtain ⟨buf', e1, e2, e3⟩ := updateTransfer_spec (afterNotifs s hs k) (hs k)
        (by rw [hst]; exact configured_withBuf s u c buf hc) hu0 (hhs k)
      have fL : (afterNotifs s hs k).LEDperIRQ = s.LEDperIRQ := by rw [hst]; rfl
      have fB : (afterNotifs s hs k)._LEDBits = 32 := by rw [hst]; exact hB
      rw [fL, fB] at e2 e3
      rw [e1]
      rcases hhs k with h0 | h1
      · rw [h0] at e2 e3
        have a := e3 (p / 32) (p % 32) (by omega)
        have e : 0 * (s.LEDperIRQ * 32) + p / 32 * 32 + p % 32 = p := by omega
        rw [e] at a
        rw [a]
        split_ifs <;> first | rfl | omega
      · rw [h1] at e2 e3
        by_cases hlow : p < 1 * (s.LEDperIRQ * 32)
        · rw [e2 p hlow]
          exact ihp
        · have a := e3 ((p - s.LEDperIRQ * 32) / 32) (p % 32) (by omega)
          have e : 1 * (s.LEDperIRQ * 32) + (p - s.LEDperIRQ * 32) / 32 * 32 + p % 32 = p := by
            omega
          rw [e] at a
          rw [a]
          split_ifs <;> first | rfl | omega

/-! ## When the postamble clears a half -/

theorem alternating_eq (a b : Nat) (h : alternating a = alternating b) : a % 2 = b % 2 := by
  unfold alternating at h
  split_ifs at h <;> omega

theorem alternating_cases (a : Nat) :
    (a % 2 = 0 ∧ alternating a = 0) ∨ (a % 2 = 1 ∧ alternating a = 1) := by
  unfold alternating
  rcases Nat.mod_two_eq_zero_or_one a with h | h
  · left; exact ⟨h, by rw [if_pos h]⟩
  · right; exact ⟨h, by rw [if_neg (by omega)]⟩

/-- When a notification of a frame executes the postamble clear: the advanced
counter `(n + 1) * L` lies in the postamble range and below `R + N + 2L`. -/
theorem frameClear_iff (s : smartLED_t) (hc : Configured s)
    (hM : 0 < 2 * s._resetBlocks + s.size) (hu : s._updating = 0) (n h : Nat) (hn : 1 ≤ n) :
    frameClear s n = some h ↔
      (h = alternating (n - 1) ∧ s._resetBlocks + s.size ≤ (n + 1) * s.LEDperIRQ ∧
        (n + 1) * s.LEDperIRQ < 2 * s._resetBlocks + s.size + s.LEDperIRQ ∧
        (n + 1) * s.LEDperIRQ < s._resetBlocks + s.size + 2 * s.LEDperIRQ) := by
  have hc' := hc
  obtain ⟨-, -, hL1, hL, hN, hR⟩ := hc'
  obtain ⟨n1, n2, n3⟩ := stopIndex_spec s hL1 hM
  obtain ⟨m, rfl⟩ : ∃ m, n = m + 1 := ⟨n - 1, by omega⟩
  rw [Nat.add_sub_cancel]
  have e1 : (m + 1) * s.LEDperIRQ = m * s.LEDperIRQ + s.LEDperIRQ := Nat.succ_mul _ _
  have e2 : (m + 1 + 1) * s.LEDperIRQ = m * s.LEDperIRQ + s.LEDperIRQ + s.LEDperIRQ := by
    rw [Nat.succ_mul, e1]
  unfold frameClear
  rw [Nat.add_sub_cancel]
  by_cases hm : m < stopIndex s
  · have hle : m * s.LEDperIRQ ≤ (stopIndex s - 1) * s.LEDperIRQ :=
      Nat.mul_le_mul_right _ (by omega)
    obtain ⟨buf, hb⟩ := afterNotifs_busy s alternating hc hu m (by omega)
    unfold frameState
    rw [hb]
    unfold updateTransferClear
    simp only [withBuf]
    rw [if_neg (by decide)]
    have ec : ((m + 1) * s.LEDperIRQ + s.LEDperIRQ) % 2 ^ 32
        = m * s.LEDperIRQ + s.LEDperIRQ + s.LEDperIRQ := by
      rw [e1]
      exact Nat.mod_eq_of_lt (by omega)
    simp only [ec, e2]
    generalize m * s.LEDperIRQ = a at *
    by_cases hcond : s._resetBlocks + s.size ≤ a + s.LEDperIRQ + s.LEDperIRQ ∧
        a + s.LEDperIRQ + s.LEDperIRQ < 2 * s._resetBlocks + s.size + s.LEDperIRQ ∧
        a + s.LEDperIRQ + s.LEDperIRQ < s._resetBlocks + s.size + 2 * s.LEDperIRQ
    · have c1 : ¬ a + s.LEDperIRQ + s.LEDperIRQ < s._resetBlocks := by omega
      have c2 : ¬ a + s.LEDperIRQ + s.LEDperIRQ < s._resetBlocks + s.size := by omega
      rw [if_neg c1, if_neg c2, if_pos hcond.2.1, if_pos hcond.2.2]
      constructor
      · intro hh
        exact ⟨(Option.some.inj hh).symm, hcond⟩
      · intro hh
        rw [hh.1]
    · have hnone : (if a + s.LEDperIRQ + s.LEDperIRQ < s._resetBlocks then none
          else if a + s.LEDperIRQ + s.LEDperIRQ < s._resetBlocks + s.size then none
          else if a + s.LEDperIRQ + s.LEDperIRQ < 2 * s._resetBlocks + s.size + s.LEDperIRQ then
            if a + s.LEDperIRQ + s.LEDperIRQ < s._resetBlocks + s.size + 2 * s.LEDperIRQ then
              some (alternating m)
            else none
          else none) = none := by
        split_ifs <;> first | rfl | (exfalso; omega)
      rw [hnone]
      constructor
      · intro hh
        exact Option.noConfusion hh
      · intro hh
        exact absurd hh.2 hcond
  · have hge : stopIndex s * s.LEDperIRQ ≤ m * s.LEDperIRQ :=
      Nat.mul_le_mul_right _ (by omega)
    rcases afterNotifs_cases s alternating hc hM hu m with ⟨h1, -, -⟩ | ⟨-, h2⟩
    · omega
    · unfold frameState updateTransferClear
      rw [if_pos h2, e2]
      constructor
      · intro hh
        exact Option.noConfusion hh
      · intro hh
        omega

/-- Two notifications of one frame that clear the same half are the same
notification. -/
theorem frameClear_unique (s : smartLED_t) (hc : Configured s)
    (hM : 0 < 2 * s._resetBlocks + s.size) (hu : s._updating = 0) (n m h : Nat)
    (hn : 1 ≤ n) (hm : 1 ≤ m) (h1 : frameClear s n = some h) (h2 : frameClear s m = some h) :
    n = m := by
  obtain ⟨a1, a2, -, a4⟩ := (frameClear_iff s hc hM hu n h hn).1 h1
  obtain ⟨b1, b2, -, b4⟩ := (frameClear_iff s hc hM hu m h hm).1 h2
  have hp := alternating_eq (n - 1) (m - 1) (a1.symm.trans b1)
  have hL1 := hc.2.2.1
  by_contra hne
  rcases Nat.lt_or_gt_of_ne hne with hlt | hgt
  · have h3 : (n + 1 + 2) * s.LEDperIRQ ≤ (m + 1) * s.LEDperIRQ :=
      Nat.mul_le_mul_right _ (by omega)
    have h4 : (n + 1 + 2) * s.LEDperIRQ = (n + 1) * s.LEDperIRQ + 2 * s.LEDperIRQ := by ring
    omega
  · have h3 : (m + 1 + 2) * s.LEDperIRQ ≤ (n + 1) * s.LEDperIRQ :=
      Nat.mul_le_mul_right _ (by omega)
    have h4 : (m + 1 + 2) * s.LEDperIRQ = (m + 1) * s.LEDperIRQ + 2 * s.LEDperIRQ := by ring
    omega

/-- With a chunk no longer than the reset interval, two consecutive
notifications before the stop clear their halves: numbers `k - 1` and `k`
with `k = ceil ((_resetBlocks + size) / LEDperIRQ)`. -/
theorem frameClear_pair (s : smartLED_t) (hc : Configured s) (hN : 1 ≤ s.size)
    (hu : s._updating = 0) (hLR : s.LEDperIRQ ≤ s._resetBlocks) :
    ∃ k, 2 ≤ k ∧ k < stopIndex s ∧ frameClear s (k - 1) = some (alternating (k - 2)) ∧
      frameClear s k = some (alternating (k - 1)) := by
  have hL1 := hc.2.2.1
  have hM : 0 < 2 * s._resetBlocks + s.size := by omega
  obtain ⟨n1, n2, n3⟩ := stopIndex_spec s hL1 hM
  obtain ⟨k1, k2, k3⟩ := ceil_div_spec (s._resetBlocks + s.size) s.LEDperIRQ hL1 (by omega)
  generalize hk : (s._resetBlocks + s.size + s.LEDperIRQ - 1) / s.LEDperIRQ = k at k1 k2 k3
  obtain ⟨j, rfl⟩ : ∃ j, k = j + 1 := ⟨k - 1, by omega⟩
  rw [Nat.add_sub_cancel] at k3
  have e1 : (j + 1) * s.LEDperIRQ = j * s.LEDperIRQ + s.LEDperIRQ := Nat.succ_mul _ _
  have e2 : (j + 1 + 1) * s.LEDperIRQ = j * s.LEDperIRQ + s.LEDperIRQ + s.LEDperIRQ := by
    rw [Nat.succ_mul, e1]
  have hj : 1 ≤ j := by
    rcases Nat.eq_zero_or_pos j with h0 | h0
    · subst h0
      rw [Nat.zero_add, Nat.one_mul] at k2
      omega
    · exact h0
  have hstop : j + 1 < stopIndex s := by
    by_contra hge
    have h3 : stopIndex s * s.LEDperIRQ ≤ (j + 1) * s.LEDperIRQ :=
      Nat.mul_le_mul_right _ (by omega)
    omega
  refine ⟨j + 1, by omega, hstop, ?_, ?_⟩
  · rw [frameClear_iff s hc hM hu (j + 1 - 1) _ (by omega)]
    have e3 : j + 1 - 1 - 1 = j + 1 - 2 := by omega
    have e4 : j + 1 - 1 + 1 = j + 1 := by omega
    rw [e3, e4]
    exact ⟨rfl, by omega, by omega, by omega⟩
  · rw [frameClear_iff s hc hM hu (j + 1) _ (by omega)]
    exact ⟨rfl, by omega, by omega, by omega⟩

/-- With a chunk no longer than the reset interval, each half is cleared by a
notification before the stop. -/
theorem frameClear_exists (s : smartLED_t) (hc : Configured s) (hN : 1 ≤ s.size)
    (hu : s._updating = 0) (hLR : s.LEDperIRQ ≤ s._resetBlocks) (h : Nat)
    (hh : h = SMARTLED_IRQ_HALFCPLT ∨ h = SMARTLED_IRQ_FINISHED) :
    ∃ n, 1 ≤ n ∧ n < stopIndex s ∧ frameClear s n = some h := by
  obtain ⟨k, k2, ks, c1, c2⟩ := frameClear_pair s hc hN hu hLR
  obtain ⟨j, rfl⟩ : ∃ j, k = j + 2 := ⟨k - 2, by omega⟩
  have e1 : j + 2 - 2 = j := by omega
  have e2 : j + 2 - 1 = j + 1 := by omega
  rw [e1, e2] at c1
  rw [e2] at c2
  have hA : ∀ a, a % 2 = 0 → alternating a = SMARTLED_IRQ_HALFCPLT := by
    intro a ha
    unfold alternating
    rw [if_pos ha]
  have hB : ∀ a, a % 2 = 1 → alternating a = SMARTLED_IRQ_FINISHED := by
    intro a ha
    unfold alternating
    rw [if_neg (by omega)]
  rcases Nat.mod_two_eq_zero_or_one j with hj | hj
  · rcases hh with rfl | rfl
    · exact ⟨j + 1, by omega, by omega, by rw [c1, hA j hj]⟩
    · exact ⟨j + 2, by omega, ks, by rw [c2, hB (j + 1) (by omega)]⟩
  · rcases hh with rfl | rfl
    · exact ⟨j + 2, by omega, ks, by rw [c2, hA (j + 1) (by omega)]⟩
    · exact ⟨j + 1, by omega, by omega, by rw [c1, hB j hj]⟩

/-- What `updateTransferClear` reports is what `smartLED_updateTransfer` does:
when it reports half `h`, the call was made for half `h`, it returns
`SMARTLED_SUCCESS`, and its buffer is the previous one with the
`LEDperIRQ * _LEDBits` entries of that half set to zero by the postamble
`memset`. -/
theorem updateTransferClear_memset (s : smartLED_t) (PWM_IRQ h : Nat)
    (hh : updateTransferClear s PWM_IRQ = some h) :
    h = PWM_IRQ ∧ (smartLED_updateTransfer s PWM_IRQ).status = SMARTLED_SUCCESS ∧
      (smartLED_updateTransfer s PWM_IRQ).led._dmaBuffer
        = memset0 s._dmaBuffer (PWM_IRQ * ((s.LEDperIRQ * s._LEDBits) % 2 ^ 32))
            ((s.LEDperIRQ * s._LEDBits) % 2 ^ 32) := by
  unfold updateTransferClear at hh
  unfold smartLED_updateTransfer
  dsimp only at hh ⊢
  split_ifs at hh with c0 c1 c2 c3 c4
  rw [if_neg c0, if_neg c1, if_neg c2, if_pos c3, if_pos c4]
  exact ⟨(Option.some.inj hh).symm, rfl, rfl⟩

/-! ## Index sums of the encoder, and the older copy -/

/-- Below `2 ^ 32 - 24` the `uint32_t` index sums of the bit loop do not wrap. -/
theorem fillStep_u32_eq (s : smartLED_t) (st r g b : Nat) (buf : Nat → Nat) (ii : Nat)
    (hst : st + 24 ≤ 2 ^ 32) (hii : ii < 8) :
    fillStep_u32 s st r g b buf ii = fillStep s st r g b buf ii := by
  unfold fillStep_u32 fillStep
  rw [Nat.mod_eq_of_lt (show st + ii < 2 ^ 32 by omega),
    Nat.mod_eq_of_lt (show st + 8 + ii < 2 ^ 32 by omega),
    Nat.mod_eq_of_lt (show st + 16 + ii < 2 ^ 32 by omega)]

/-- For an offset with `startingIdx + 24 ≤ 2 ^ 32` the encoder with `uint32_t`
index sums and the encoder with exact sums are the same function. -/
theorem fillDMABuffer_u32_eq (s : smartLED_t) (item st : Nat) (hst : st + 24 ≤ 2 ^ 32) :
    smartLED_fillDMABuffer_u32 s item st = smartLED_fillDMABuffer s item st := by
  unfold smartLED_fillDMABuffer_u32 smartLED_fillDMABuffer
  by_cases hi : item ≥ s.size
  · rw [if_pos hi, if_pos hi]
  · rw [if_neg hi, if_neg hi]
    dsimp only
    rw [List.foldl_ext _ _ _ (fun buf ii hii =>
      fillStep_u32_eq s st _ _ _ buf ii hst (List.mem_range.1 hii))]

/-- A pulse value that fits a buffer element is stored unchanged. -/
theorem pulse_mod (s : smartLED_t) (elemBits v bit : Nat) (hlo : s._pulseLow < 2 ^ elemBits)
    (hhi : s._pulseHigh < 2 ^ elemBits) : pulse s v bit % 2 ^ elemBits = pulse s v bit := by
  unfold pulse
  split_ifs
  · exact Nat.mod_eq_of_lt hhi
  · exact Nat.mod_eq_of_lt hlo

/-- The bit loop of the older copy, started at bit `k` with an offset whose
index sums do not wrap and pulse values that fit a buffer element, performs the
remaining iterations of the newer copy's loop. -/
theorem fillLoop_old_eq (elemBits : Nat) (s : smartLED_t) (st r g b : Nat)
    (hst : st + 24 ≤ 2 ^ 32) (hlo : s._pulseLow < 2 ^ elemBits)
    (hhi : s._pulseHigh < 2 ^ elemBits) :
    ∀ fuel k jj buf, k + fuel = 8 → (0 < fuel → jj = 7 - k) →
      fillLoop_old elemBits fuel s (st + 8) r g b buf (st + k) jj
        = (List.range' k fuel).foldl (fillStep s st r g b) buf := by
  intro fuel
  induction fuel with
  | zero =>
    intro k jj buf _ _
    rfl
  | succ f ih =>
    intro k jj buf hk hj
    have hj' := hj (Nat.succ_pos _)
    subst hj'
    have hlt : st + k < st + 8 := by omega
    have e1 : (st + k + 1) % 2 ^ 32 = st + (k + 1) := by
      rw [Nat.mod_eq_of_lt (by omega)]
      omega
    have e2 : (st + k + 8) % 2 ^ 32 = st + 8 + k := by
      rw [Nat.mod_eq_of_lt (by omega)]
      omega
    have e3 : (st + k + 16) % 2 ^ 32 = st + 16 + k := by
      rw [Nat.mod_eq_of_lt (by omega)]
      omega
    unfold fillLoop_old
    rw [if_pos hlt]
    dsimp only
    rw [e1, e2, e3, pulse_mod s elemBits g _ hlo hhi, pulse_mod s elemBits r _ hlo hhi,
      pulse_mod s elemBits b _ hlo hhi, ih (k + 1) _ _ (by omega) (fun hf => by omega)]
    rfl

/-! ## Claims -/

/-- C1: full-frame stream.  On an idle configured instance with at least one
LED, notification `stopIndex s = ceil ((2R + N) / L)` is the one that clears
`_updating` (all earlier ones leave the instance busy); the stream transmitted
up to it has `stopIndex s * L ≥ 2R + N` slots of `B` entries; every slot below
`R` is all zero, slot `R + i` with `i < N` is what the encoder writes for LED
`i` onto a zeroed slot, and every slot from `R + N` on is all zero. -/
theorem C1_full_frame_stream (s : smartLED_t) (hc : Configured s) (hN : 1 ≤ s.size)
    (hu : s._updating = 0) :
    (frameState s (stopIndex s))._updating = 0 ∧
    (∀ k, k < stopIndex s → (frameState s k)._updating = 1) ∧
    (txStream s (stopIndex s)).length = stopIndex s * s.LEDperIRQ * s._LEDBits ∧
    2 * s._resetBlocks + s.size ≤ stopIndex s * s.LEDperIRQ ∧
    ∀ slot, slot < stopIndex s * s.LEDperIRQ →
      streamSlot (txStream s (stopIndex s)) s._LEDBits slot =
        if slot < s._resetBlocks then List.replicate s._LEDBits 0
        else if slot < s._resetBlocks + s.size then encodedSlot s (slot - s._resetBlocks)
        else List.replicate s._LEDBits 0 := by
  obtain ⟨n1, n2, n3⟩ := stopIndex_spec s hc.2.2.1 (by omega)
  refine ⟨?_, ?_, ?_, n2, ?_⟩
  · exact (notification_after_stop s alternating hc (by omega) hu (stopIndex s + 1)
      (by omega)).2
  · intro k hk
    have : k * s.LEDperIRQ ≤ (stopIndex s - 1) * s.LEDperIRQ :=
      Nat.mul_le_mul_right _ (by omega)
    obtain ⟨buf, hb⟩ := afterNotifs_busy s alternating hc hu k (by omega)
    unfold frameState
    rw [hb]
    rfl
  · rw [(txStream_spec s (stopIndex s)).1, Nat.mul_assoc]
  · intro slot hslot
    apply List.ext_getElem?
    intro j
    rw [txStream_slot s hc hN hu slot j hslot]
    unfold framePulse
    by_cases hj : j < s._LEDBits
    · rw [if_pos hj]
      by_cases a : slot < s._resetBlocks
      · rw [if_pos a, if_neg (fun hh => absurd hh.1 (by omega)), List.getElem?_replicate,
          if_pos hj]
      · rw [if_neg a]
        by_cases b : slot < s._resetBlocks + s.size
        · rw [if_pos b, encodedSlot_getElem, if_pos hj]
          congr 1
          by_cases c : j < 24
          · rw [if_pos ⟨by omega, by omega, c⟩, if_pos ⟨by omega, c⟩]
          · rw [if_neg (fun hh => c hh.2.2), if_neg (fun hh => c hh.2)]
        · rw [if_neg b, if_neg (fun hh => absurd hh.2.1 (by omega)), List.getElem?_replicate,
            if_pos hj]
    · rw [if_neg hj]
      split_ifs
      · rw [List.getElem?_replicate, if_neg hj]
      · rw [encodedSlot_getElem, if_neg hj]
      · rw [List.getElem?_replicate, if_neg hj]

/-- Witness for C1 on the RGBW sample (`R = 9`, `N = 5`, `L = 4`): the frame
stops at notification 6 and slot 9 of the stream carries LED 0. -/
theorem C1_full_frame_stream_witness :
    Configured sampleRGBW ∧ 1 ≤ sampleRGBW.size ∧ sampleRGBW._updating = 0 ∧
      stopIndex sampleRGBW = 6 ∧
      streamSlot (txStream sampleRGBW (stopIndex sampleRGBW)) sampleRGBW._LEDBits 9 =
        encodedSlot sampleRGBW 0 :=
  ⟨by decide, by decide, by decide, by decide,
    (C1_full_frame_stream sampleRGBW (by decide) (by decide) (by decide)).2.2.2.2 9 (by decide)⟩

/-- C2, as stated, fails: on the RGB sample (LED 0 stored as bytes 255, 0, 0,
full brightness) the first pulse of LED 0 is not the one prescribed by bit 7
of the byte at store index `3 * 0 + 0`. -/
theorem C2_store_order_counterexample :
    ¬ ((smartLED_fillDMABuffer sampleLED 0 0).2._dmaBuffer (0 + 8 * 0 + 0) =
        if Nat.testBit (sampleLED._colorsData (3 * 0 + 0) * sampleLED._brightness / 255) (7 - 0)
          = true
        then sampleLED._pulseHigh else sampleLED._pulseLow) := by
  decide

/-- C2, amended: for an RGB strip with byte-valued color store and
brightness, the encoder writes at `offset + 8 * k + j` (`k < 3`, `j < 8`) the
pulse for bit `7 - j` of the scaled byte at store index `3 * i + c`, where
`c = 1` for `k = 0`, `c = 0` for `k = 1` and `c = 2` for `k = 2`. -/
theorem C2_encoder_wire_order (s : smartLED_t) (i offset k j : Nat) (hi : i < s.size)
    (ht : s.type = SMARTLED_RGB) (hk : k < 3) (hj : j < 8)
    (hd : ∀ n, s._colorsData n < 256) (hb : s._brightness < 256) :
    (smartLED_fillDMABuffer s i offset).2._dmaBuffer (offset + 8 * k + j) =
      if Nat.testBit
          (s._colorsData (3 * i + (if k = 0 then 1 else if k = 1 then 0 else 2)) *
            s._brightness / 255) (7 - j) = true
      then s._pulseHigh else s._pulseLow := by
  rw [fill_snd]
  simp only [withBuf]
  rw [if_pos ⟨hi, by omega, by omega⟩]
  unfold encodedPulse channelOf
  rw [pulse_eq, scale_eq _ _ (hd _) hb, ht]
  have e0 : offset + 8 * k + j - offset = 8 * k + j := by omega
  have e1 : (8 * k + j) % 8 = j := by omega
  have e2 : i * SMARTLED_RGB = 3 * i := Nat.mul_comm _ _
  rw [e0, e1, e2]
  have c0 : k = 0 → 8 * k + j < 8 := by omega
  have c1 : k = 1 → ¬ 8 * k + j < 8 ∧ 8 * k + j < 16 := by omega
  have c2 : k = 2 → ¬ 8 * k + j < 8 ∧ ¬ 8 * k + j < 16 := by omega
  have hk' : k = 0 ∨ k = 1 ∨ k = 2 := by omega
  rcases hk' with h | h | h
  · rw [if_pos (c0 h), if_pos h]
  · rw [if_neg (c1 h).1, if_pos (c1 h).2, if_neg (by omega : ¬ k = 0), if_pos h]
  · rw [if_neg (c2 h).1, if_neg (c2 h).2, if_neg (by omega : ¬ k = 0),
      if_neg (by omega : ¬ k = 1)]

/-- Witness for the amended C2 on the RGB sample: the pulse at position 8
encodes bit 7 of the byte at store index 0. -/
theorem C2_encoder_wire_order_witness :
    (smartLED_fillDMABuffer sampleLED 0 0).2._dmaBuffer (0 + 8 * 1 + 0) =
      if Nat.testBit
          (sampleLED._colorsData (3 * 0 + (if 1 = 0 then 1 else if 1 = 1 then 0 else 2)) *
            sampleLED._brightness / 255) (7 - 0) = true
      then sampleLED._pulseHigh else sampleLED._pulseLow :=
  C2_encoder_wire_order sampleLED 0 0 1 0 (by decide) (by decide) (by decide) (by decide)
    (by intro n; unfold sampleLED smartLED_updateRGBColors smartLED_initStatic store
        simp only []
        split_ifs <;> simp) (by decide)

/-- C3: setter-to-wire round trip.  After `smartLED_updateRGBColors (item, red,
green, blue)` on bytes, at brightness 255 the encoder writes for `item < size`
the 8 bits of green, then of red, then of blue, MSB first, `_pulseHigh` for a
1 bit and `_pulseLow` for a 0 bit; for (255, 0, 0) these are 8 `_pulseLow`,
8 `_pulseHigh`, 8 `_pulseLow`. -/
theorem C3_setter_to_wire (s : smartLED_t) (item offset red green blue : Nat)
    (hi : item < s.size) (hbr : s._brightness = 255) (hr : red < 256) (hg : green < 256)
    (hb : blue < 256) :
    (∀ j, j < 8 →
      (smartLED_fillDMABuffer (smartLED_updateRGBColors s item red green blue) item
          offset).2._dmaBuffer (offset + j) =
        (if green.testBit (7 - j) = true then s._pulseHigh else s._pulseLow) ∧
      (smartLED_fillDMABuffer (smartLED_updateRGBColors s item red green blue) item
          offset).2._dmaBuffer (offset + 8 + j) =
        (if red.testBit (7 - j) = true then s._pulseHigh else s._pulseLow) ∧
      (smartLED_fillDMABuffer (smartLED_updateRGBColors s item red green blue) item
          offset).2._dmaBuffer (offset + 16 + j) =
        (if blue.testBit (7 - j) = true then s._pulseHigh else s._pulseLow)) ∧
    (red = 255 → green = 0 → blue = 0 →
      (List.range 24).map (fun q =>
        (smartLED_fillDMABuffer (smartLED_updateRGBColors s item red green blue) item
          offset).2._dmaBuffer (offset + q)) =
        List.replicate 8 s._pulseLow ++ List.replicate 8 s._pulseHigh ++
          List.replicate 8 s._pulseLow) := by
  obtain ⟨r0, r1, r2⟩ := updateRGBColors_read s item red green blue hr hg hb
  have hsz : item < (smartLED_updateRGBColors s item red green blue).size := hi
  have key : ∀ q, q < 24 →
      (smartLED_fillDMABuffer (smartLED_updateRGBColors s item red green blue) item
          offset).2._dmaBuffer (offset + q) =
        if (if q < 8 then green else if q < 16 then red else blue).testBit (7 - q % 8) = true
        then s._pulseHigh else s._pulseLow := by
    intro q hq
    rw [fill_snd]
    simp only [withBuf]
    rw [if_pos ⟨hsz, by omega, by omega⟩]
    have e0 : offset + q - offset = q := by omega
    rw [e0]
    unfold encodedPulse channelOf
    rw [pulse_eq]
    have hty : (smartLED_updateRGBColors s item red green blue).type = s.type := rfl
    have hbr' : (smartLED_updateRGBColors s item red green blue)._brightness = 255 := hbr
    have hsc : ∀ c, c < 256 → scale c 255 = c := by
      intro c hc
      rw [scale_eq c 255 hc (by omega)]
      omega
    rw [hty, hbr']
    by_cases h8 : q < 8
    · rw [if_pos h8, if_pos h8, r1, hsc _ hg]; rfl
    · rw [if_neg h8, if_neg h8]
      by_cases h16 : q < 16
      · rw [if_pos h16, if_pos h16, r0, hsc _ hr]; rfl
      · rw [if_neg h16, if_neg h16, r2, hsc _ hb]; rfl
  constructor
  · intro j hj
    have k0 := key j (by omega)
    have k1 := key (8 + j) (by omega)
    have k2 := key (16 + j) (by omega)
    have a1 : ¬ 8 + j < 8 := by omega
    have a2 : 8 + j < 16 := by omega
    have a3 : ¬ 16 + j < 8 := by omega
    have a4 : ¬ 16 + j < 16 := by omega
    have m1 : (8 + j) % 8 = j := by omega
    have m2 : (16 + j) % 8 = j := by omega
    rw [if_pos hj, Nat.mod_eq_of_lt hj] at k0
    rw [if_neg a1, if_pos a2, m1, ← Nat.add_assoc] at k1
    rw [if_neg a3, if_neg a4, m2, ← Nat.add_assoc] at k2
    exact ⟨k0, k1, k2⟩
  · intro h1 h2 h3
    subst h1 h2 h3
    simp only [List.range, List.range.loop, List.map, List.replicate, List.cons_append,
      List.nil_append]
    repeat rw [key _ (by omega)]
    have tb : ∀ k, k < 8 → Nat.testBit 255 k = true := by decide
    simp [tb]

/-- Witness for C3 on the RGBW sample: LED 2 set to (1, 2, 3). -/
theorem C3_setter_to_wire_witness :
    (smartLED_fillDMABuffer (smartLED_updateRGBColors sampleRGBW 2 1 2 3) 2 64).2._dmaBuffer
        (64 + 8 + 7) =
      if Nat.testBit 1 (7 - 7) = true then sampleRGBW._pulseHigh else sampleRGBW._pulseLow :=
  ((C3_setter_to_wire sampleRGBW 2 64 1 2 3 (by decide) (by decide) (by decide) (by decide)
    (by decide)).1 7 (by decide)).2.1

/-- C4 (code behaviour at the failing input): on the RGBW sample, whose LED 0
has white byte 255 and brightness 255, the encoder returns success but leaves
the last 8 entries of the 32-entry slot as they were (here 7) instead of
writing `_pulseHigh`; only 24 of the 32 entries are written. -/
theorem C4_white_byte_not_encoded :
    sampleRGBW.type = SMARTLED_RGBW ∧ sampleRGBW._LEDBits = 32 ∧
      sampleRGBW._colorsData (4 * 0 + 3) = 255 ∧ sampleRGBW._brightness = 255 ∧
      (smartLED_fillDMABuffer sampleRGBW 0 0).1 = SMARTLED_SUCCESS ∧
      (List.range 8).map (fun j => (smartLED_fillDMABuffer sampleRGBW 0 0).2._dmaBuffer (24 + j)) =
        (List.range 8).map (fun j => sampleRGBW._dmaBuffer (24 + j)) ∧
      (List.range 8).map (fun j => (smartLED_fillDMABuffer sampleRGBW 0 0).2._dmaBuffer (24 + j)) ≠
        List.replicate 8 sampleRGBW._pulseHigh := by
  decide

/-- C5: an out-of-range LED index is rejected with `SMARTLED_ERROR` and the
instance, buffer included, is unchanged; an index below `size` is accepted
with `SMARTLED_SUCCESS`. -/
theorem C5_out_of_range_rejected (s : smartLED_t) (item offset : Nat) :
    (s.size ≤ item → smartLED_fillDMABuffer s item offset = (SMARTLED_ERROR, s)) ∧
      (item < s.size → (smartLED_fillDMABuffer s item offset).1 = SMARTLED_SUCCESS) := by
  constructor
  · exact fill_error s item offset
  · intro h
    unfold smartLED_fillDMABuffer
    rw [if_neg (by omega)]

/-- Witness for C5 on the RGBW sample (`size = 5`): index 5 is rejected, index 4
is accepted. -/
theorem C5_out_of_range_rejected_witness :
    smartLED_fillDMABuffer sampleRGBW 5 0 = (SMARTLED_ERROR, sampleRGBW) ∧
      (smartLED_fillDMABuffer sampleRGBW 4 0).1 = SMARTLED_SUCCESS :=
  ⟨(C5_out_of_range_rejected sampleRGBW 5 0).1 (by decide),
    (C5_out_of_range_rejected sampleRGBW 4 0).2 (by decide)⟩

/-- C6: `smartLED_startTransfer` returns `SMARTLED_ERROR` exactly when
`_updating` is nonzero on entry, and then changes nothing and issues no HAL
command; after a successful start on a configured instance, a start issued
after any `k < stopIndex s` notifications (any half ids), i.e. before the
notification that reaches Done, is rejected in that way. -/
theorem C6_single_transfer (s : smartLED_t) :
    ((smartLED_startTransfer s).status = SMARTLED_ERROR ↔ s._updating ≠ 0) ∧
    (s._updating ≠ 0 → smartLED_startTransfer s = ⟨SMARTLED_ERROR, s, []⟩) ∧
    (Configured s → 0 < 2 * s._resetBlocks + s.size → s._updating = 0 →
      (smartLED_startTransfer s).status = SMARTLED_SUCCESS ∧
      ∀ (hs : Nat → Nat) (k : Nat), k < stopIndex s →
        smartLED_startTransfer (afterNotifs s hs k) =
          ⟨SMARTLED_ERROR, afterNotifs s hs k, []⟩) := by
  refine ⟨?_, startTransfer_busy s, ?_⟩
  · constructor
    · intro h hu
      obtain ⟨buf, hb⟩ := startTransfer_idle s hu
      rw [hb] at h
      exact smartLED_retStatus_t.noConfusion h
    · intro h
      rw [startTransfer_busy s h]
  · intro hc hM hu
    constructor
    · obtain ⟨buf, hb⟩ := startTransfer_idle s hu
      rw [hb]
    · intro hs k hk
      obtain ⟨n1, n2, n3⟩ := stopIndex_spec s hc.2.2.1 hM
      have : k * s.LEDperIRQ ≤ (stopIndex s - 1) * s.LEDperIRQ :=
        Nat.mul_le_mul_right _ (by omega)
      obtain ⟨buf, hb⟩ := afterNotifs_busy s hs hc hu k (by omega)
      apply startTransfer_busy
      rw [hb]
      simp [withBuf]

/-- Witness for C6 on the RGBW sample: a second start right after the first,
and one after five notifications, are rejected. -/
theorem C6_single_transfer_witness :
    smartLED_startTransfer (afterNotifs sampleRGBW alternating 0) =
        ⟨SMARTLED_ERROR, afterNotifs sampleRGBW alternating 0, []⟩ ∧
      smartLED_startTransfer (afterNotifs sampleRGBW alternating 5) =
        ⟨SMARTLED_ERROR, afterNotifs sampleRGBW alternating 5, []⟩ :=
  ⟨((C6_single_transfer sampleRGBW).2.2 (by decide) (by decide) (by decide)).2 alternating 0
      (by decide),
    ((C6_single_transfer sampleRGBW).2.2 (by decide) (by decide) (by decide)).2 alternating 5
      (by decide)⟩

theorem bufSlot_getElem (s : smartLED_t) (slot j : Nat) :
    (bufSlot s slot)[j]? =
      if j < s._LEDBits then some (s._dmaBuffer (slot * s._LEDBits + j)) else none := by
  unfold bufSlot
  rw [List.getElem?_map]
  by_cases hj : j < s._LEDBits
  · rw [List.getElem?_range hj, if_pos hj]
    rfl
  · have : (List.range s._LEDBits)[j]? = none := by
      rw [List.getElem?_eq_none_iff, List.length_range]
      omega
    rw [this, if_neg hj]
    rfl

/-- C7: post-state of a successful start.  On an idle configured instance the
start returns `SMARTLED_SUCCESS`, sets `_updating = 1` and `_cyclesCnt = L`,
and leaves every slot `t < 2L` of the buffer all zero when `t < R` or
`t - R ≥ N`, and otherwise equal to the encoder's output for LED `t - R`
written over zeros; the first `2 * L * B` entries do not depend on the previous
buffer contents. -/
theorem C7_start_post_state (s : smartLED_t) (hc : Configured s) (hu : s._updating = 0) :
    (smartLED_startTransfer s).status = SMARTLED_SUCCESS ∧
    (smartLED_startTransfer s).led._updating = 1 ∧
    (smartLED_startTransfer s).led._cyclesCnt = s.LEDperIRQ ∧
    (∀ t, t < 2 * s.LEDperIRQ →
      bufSlot (smartLED_startTransfer s).led t =
        if t < s._resetBlocks ∨ s.size ≤ t - s._resetBlocks then List.replicate s._LEDBits 0
        else encodedSlot s (t - s._resetBlocks)) ∧
    (∀ (buf0 : Nat → Nat) (p : Nat), p < 2 * s.LEDperIRQ * s._LEDBits →
      (smartLED_startTransfer (withBuf s buf0)).led._dmaBuffer p =
        (smartLED_startTransfer s).led._dmaBuffer p) := by
  obtain ⟨buf, h1, h2⟩ := startTransfer_spec s hc hu
  refine ⟨by rw [h1], by rw [h1]; rfl, by rw [h1]; rfl, ?_, ?_⟩
  · intro t ht
    apply List.ext_getElem?
    intro j
    rw [bufSlot_getElem, h1]
    simp only [withBuf]
    by_cases hj : j < s._LEDBits
    · rw [if_pos hj, h2 t j hj, if_pos ht]
      by_cases a : t < s._resetBlocks ∨ s.size ≤ t - s._resetBlocks
      · rw [if_pos a, if_neg (by omega), List.getElem?_replicate, if_pos hj]
      · rw [if_neg a, encodedSlot_getElem, if_pos hj]
        congr 1
        by_cases c : j < 24
        · rw [if_pos ⟨by omega, by omega, c⟩, if_pos ⟨by omega, c⟩]
        · rw [if_neg (fun hh => c hh.2.2), if_neg (fun hh => c hh.2)]
    · rw [if_neg hj]
      split_ifs
      · rw [List.getElem?_replicate, if_neg hj]
      · rw [encodedSlot_getElem, if_neg hj]
  · intro buf0 p hp
    obtain ⟨buf', h1', h2'⟩ := startTransfer_spec (withBuf s buf0) hc hu
    obtain ⟨hB, -⟩ := configured_bits s hc
    have hpos : 0 < s._LEDBits := by omega
    have hdm := Nat.div_add_mod p s._LEDBits
    have hj := Nat.mod_lt p hpos
    have ht : p / s._LEDBits < 2 * s.LEDperIRQ := by
      rw [Nat.div_lt_iff_lt_mul hpos]
      exact hp
    have a1 := h2 (p / s._LEDBits) (p % s._LEDBits) hj
    have a2 := h2' (p / s._LEDBits) (p % s._LEDBits) hj
    simp only [withBuf] at a2
    rw [if_pos ht] at a1 a2
    have e : p / s._LEDBits * s._LEDBits + p % s._LEDBits = p := by
      rw [Nat.mul_comm]; exact hdm
    rw [e] at a1 a2
    rw [h1, h1']
    simp only [withBuf]
    rw [a1, a2]
    rfl

/-- Witness for C7 on the RGBW sample (`R = 9 ≥ 2L = 8`): slot 3 is all zero
after the start although the buffer held 7 everywhere. -/
theorem C7_start_post_state_witness :
    bufSlot (smartLED_startTransfer sampleRGBW).led 3 =
      if 3 < sampleRGBW._resetBlocks ∨ sampleRGBW.size ≤ 3 - sampleRGBW._resetBlocks then
        List.replicate sampleRGBW._LEDBits 0
      else encodedSlot sampleRGBW (3 - sampleRGBW._resetBlocks) :=
  (C7_start_post_state sampleRGBW (by decide) (by decide)).2.2.2.1 3 (by decide)

/-- C8: `smartLED_updateTransfer` returns `SMARTLED_ERROR` exactly when
`_updating` is 0 on entry, for any half id, and then it changes nothing and
issues no HAL command. -/
theorem C8_idle_notification_rejected (s : smartLED_t) (PWM_IRQ : Nat) :
    ((smartLED_updateTransfer s PWM_IRQ).status = SMARTLED_ERROR ↔ s._updating = 0) ∧
      (s._updating = 0 → smartLED_updateTransfer s PWM_IRQ = ⟨SMARTLED_ERROR, s, []⟩) := by
  refine ⟨?_, updateTransfer_idle s PWM_IRQ⟩
  constructor
  · intro h
    by_contra hu
    obtain ⟨buf, hb⟩ := updateTransfer_busy s PWM_IRQ hu
    rw [hb] at h
    exact smartLED_retStatus_t.noConfusion h
  · intro h
    rw [updateTransfer_idle s PWM_IRQ h]

/-- Witness for C8 on the idle RGBW sample. -/
theorem C8_idle_notification_rejected_witness :
    smartLED_updateTransfer sampleRGBW SMARTLED_IRQ_FINISHED =
      ⟨SMARTLED_ERROR, sampleRGBW, []⟩ :=
  (C8_idle_notification_rejected sampleRGBW SMARTLED_IRQ_FINISHED).2 (by decide)

/-- C9: the frame ends after `stopIndex s = ceil ((2R + N) / L)`
notifications.  After a successful start on a configured instance with
`2R + N > 0` (setup gives `R ≥ 2`), for any half ids, every notification `n` with
`1 ≤ n < stopIndex s` returns `SMARTLED_SUCCESS`, leaves `_updating = 1` and
commands nothing; notification `stopIndex s` returns `SMARTLED_SUCCESS`, sets
`_updating = 0` and commands the stop; every later notification is rejected
and commands nothing. -/
theorem C9_frame_ends (s : smartLED_t) (hc : Configured s)
    (hM : 0 < 2 * s._resetBlocks + s.size) (hu : s._updating = 0) (hs : Nat → Nat) :
    (1 ≤ stopIndex s ∧ 2 * s._resetBlocks + s.size ≤ stopIndex s * s.LEDperIRQ ∧
      (stopIndex s - 1) * s.LEDperIRQ < 2 * s._resetBlocks + s.size) ∧
    (smartLED_startTransfer s).status = SMARTLED_SUCCESS ∧
    (∀ n, 1 ≤ n → n < stopIndex s →
      (notification s hs n).status = SMARTLED_SUCCESS ∧
        (notification s hs n).led._updating = 1 ∧ (notification s hs n).hal = []) ∧
    ((notification s hs (stopIndex s)).status = SMARTLED_SUCCESS ∧
      (notification s hs (stopIndex s)).led._updating = 0 ∧
      (notification s hs (stopIndex s)).hal = [stopCall s]) ∧
    (∀ n, stopIndex s < n →
      (notification s hs n).status = SMARTLED_ERROR ∧
        (notification s hs n).led._updating = 0 ∧ (notification s hs n).hal = []) := by
  have hsp := stopIndex_spec s hc.2.2.1 hM
  refine ⟨hsp, ?_, ?_, ?_, ?_⟩
  · obtain ⟨buf, hb⟩ := startTransfer_idle s hu
    rw [hb]
  · intro n h1 h2
    obtain ⟨buf, hb⟩ := notification_outcome s hs hc hM hu n h1 (by omega)
    rw [hb, if_pos h2, if_pos h2]
    exact ⟨rfl, rfl, rfl⟩
  · obtain ⟨buf, hb⟩ := notification_outcome s hs hc hM hu (stopIndex s) hsp.1 (Nat.le_refl _)
    rw [hb, if_neg (Nat.lt_irrefl _), if_neg (Nat.lt_irrefl _)]
    exact ⟨rfl, rfl, rfl⟩
  · intro n hn
    obtain ⟨h1, h2⟩ := notification_after_stop s hs hc hM hu n hn
    rw [h1]
    exact ⟨rfl, h2, rfl⟩

/-- Witness for C9 on the RGBW sample with every half id equal to 1: the stop
is commanded by notification 6. -/
theorem C9_frame_ends_witness :
    stopIndex sampleRGBW = 6 ∧
      (notification sampleRGBW (fun _ => 1) (stopIndex sampleRGBW)).hal =
        [stopCall sampleRGBW] :=
  ⟨by decide,
    (C9_frame_ends sampleRGBW (by decide) (by decide) (by decide) (fun _ => 1)).2.2.2.1.2.2⟩

/-- C10: a notification touches only the released half.  On a configured busy
instance, with any `_cyclesCnt` and either half id `h`, every buffer entry
outside `[h * H, (h + 1) * H)`, `H = LEDperIRQ * _LEDBits`, is unchanged, and
no field other than `_cyclesCnt`, `_updating` and the buffer changes. -/
theorem C10_only_released_half (s : smartLED_t) (hc : Configured s) (hu : s._updating ≠ 0)
    (h : Nat) (hh : h = SMARTLED_IRQ_HALFCPLT ∨ h = SMARTLED_IRQ_FINISHED) :
    (∀ p, ¬ (h * (s.LEDperIRQ * s._LEDBits) ≤ p ∧ p < (h + 1) * (s.LEDperIRQ * s._LEDBits)) →
      (smartLED_updateTransfer s h).led._dmaBuffer p = s._dmaBuffer p) ∧
    (smartLED_updateTransfer s h).led.chip = s.chip ∧
    (smartLED_updateTransfer s h).led.type = s.type ∧
    (smartLED_updateTransfer s h).led.size = s.size ∧
    (smartLED_updateTransfer s h).led.ARR = s.ARR ∧
    (smartLED_updateTransfer s h).led.timType = s.timType ∧
    (smartLED_updateTransfer s h).led.timChannel = s.timChannel ∧
    (smartLED_updateTransfer s h).led.LEDperIRQ = s.LEDperIRQ ∧
    (smartLED_updateTransfer s h).led._colorsData = s._colorsData ∧
    (smartLED_updateTransfer s h).led._brightness = s._brightness ∧
    (smartLED_updateTransfer s h).led._pulseLow = s._pulseLow ∧
    (smartLED_updateTransfer s h).led._pulseHigh = s._pulseHigh ∧
    (smartLED_updateTransfer s h).led._LEDBits = s._LEDBits ∧
    (smartLED_updateTransfer s h).led._resetBlocks = s._resetBlocks := by
  constructor
  · intro p hp
    obtain ⟨buf, e1, e2, e3⟩ := updateTransfer_spec s h hc hu hh
    obtain ⟨hB, -⟩ := configured_bits s hc
    rw [e1]
    by_cases hlow : p < h * (s.LEDperIRQ * s._LEDBits)
    · exact e2 p hlow
    · have hpos : 0 < s._LEDBits := by omega
      have hj := Nat.mod_lt (p - h * (s.LEDperIRQ * s._LEDBits)) hpos
      have hdm := Nat.div_add_mod (p - h * (s.LEDperIRQ * s._LEDBits)) s._LEDBits
      have ht : ¬ (p - h * (s.LEDperIRQ * s._LEDBits)) / s._LEDBits < s.LEDperIRQ := by
        rw [Nat.div_lt_iff_lt_mul hpos]
        have : (h + 1) * (s.LEDperIRQ * s._LEDBits)
            = h * (s.LEDperIRQ * s._LEDBits) + s.LEDperIRQ * s._LEDBits := Nat.succ_mul _ _
        omega
      have a := e3 ((p - h * (s.LEDperIRQ * s._LEDBits)) / s._LEDBits) _ hj
      rw [if_neg ht] at a
      have e : h * (s.LEDperIRQ * s._LEDBits) +
          (p - h * (s.LEDperIRQ * s._LEDBits)) / s._LEDBits * s._LEDBits +
          (p - h * (s.LEDperIRQ * s._LEDBits)) % s._LEDBits = p := by
        rw [Nat.mul_comm ((p - h * (s.LEDperIRQ * s._LEDBits)) / s._LEDBits)]
        omega
      rw [e] at a
      exact a
  · obtain ⟨buf, hb⟩ := updateTransfer_busy s h hu
    rw [hb]
    exact ⟨rfl, rfl, rfl, rfl, rfl, rfl, rfl, rfl, rfl, rfl, rfl, rfl, rfl⟩

/-- Witness for C10 on the RGBW sample after its start: the notification for
half 1 leaves entry 0, in half 0, unchanged. -/
theorem C10_only_released_half_witness :
    (smartLED_updateTransfer (afterNotifs sampleRGBW alternating 0)
        SMARTLED_IRQ_FINISHED).led._dmaBuffer 0 =
      (afterNotifs sampleRGBW alternating 0)._dmaBuffer 0 :=
  (C10_only_released_half (afterNotifs sampleRGBW alternating 0) (by decide) (by decide)
    SMARTLED_IRQ_FINISHED (Or.inr rfl)).1 0 (by decide)

/-- C11, as stated, fails: for WS2812B with RGB layout setup succeeds and stores
`_resetBlocks = 3`, not `ceil (50e-6 * 800000 / 24) + 2 = 4`. -/
theorem C11_ceil_formula_counterexample :
    (smartLED_initStatic (rawLED 0) (fun _ => 0) (fun _ => 0)).1 = SMARTLED_SUCCESS ∧
      (smartLED_initStatic (rawLED 0) (fun _ => 0) (fun _ => 0)).2._resetBlocks = 3 ∧
      ⌈resetSeconds (rawLED 0).chip * 800000 / ((8 * (rawLED 0).type : ℕ) : ℚ)⌉₊ + 2 = 4 := by
  refine ⟨by decide, by decide, ?_⟩
  have e : resetSeconds (rawLED 0).chip * 800000 / ((8 * (rawLED 0).type : ℕ) : ℚ)
      = (50 / 1000000 : ℚ) * 800000 / 24 := by
    simp [resetSeconds, rawLED]
    norm_num
  rw [e, resetRatio_floor_ceil.2.2.1.2]

/-- C11, amended: after a successful setup `_resetBlocks` is
`floor (resetSeconds * 800000 / bitsPerLED) + 2` with `bitsPerLED = 8 * type`,
which is 11 for WS2811/RGB, 9 for WS2811/RGBW and 3 for WS2812B with either
layout. -/
theorem C11_reset_blocks_formula (s0 s : smartLED_t) (data buf : Nat → Nat)
    (h : smartLED_initStatic s0 data buf = (SMARTLED_SUCCESS, s)) :
    s._resetBlocks = (⌊resetSeconds s.chip * 800000 / ((8 * s.type : ℕ) : ℚ)⌋).toNat + 2 ∧
    (s.chip = WS2811 → s.type = SMARTLED_RGB → s._resetBlocks = 11) ∧
    (s.chip = WS2811 → s.type = SMARTLED_RGBW → s._resetBlocks = 9) ∧
    (s.chip = WS2812B → s.type = SMARTLED_RGB → s._resetBlocks = 3) ∧
    (s.chip = WS2812B → s.type = SMARTLED_RGBW → s._resetBlocks = 3) := by
  obtain ⟨ha, hchip, htype, -, -, -, hR⟩ := initStatic_success s0 s data buf h
  obtain ⟨v1, v2, v3, v4⟩ := resetBlocks_values
  obtain ⟨⟨f1, -⟩, ⟨f2, -⟩, ⟨f3, -⟩, ⟨f4, -⟩⟩ := resetRatio_floor_ceil
  rw [hchip, htype, hR]
  have e1 : resetSeconds WS2811 * 800000 / ((8 * SMARTLED_RGB : ℕ) : ℚ)
      = (280 / 1000000 : ℚ) * 800000 / 24 := by
    simp [resetSeconds]; norm_num
  have e2 : resetSeconds WS2811 * 800000 / ((8 * SMARTLED_RGBW : ℕ) : ℚ)
      = (280 / 1000000 : ℚ) * 800000 / 32 := by
    simp [resetSeconds]; norm_num
  have e3 : resetSeconds WS2812B * 800000 / ((8 * SMARTLED_RGB : ℕ) : ℚ)
      = (50 / 1000000 : ℚ) * 800000 / 24 := by
    simp [resetSeconds]; norm_num
  have e4 : resetSeconds WS2812B * 800000 / ((8 * SMARTLED_RGBW : ℕ) : ℚ)
      = (50 / 1000000 : ℚ) * 800000 / 32 := by
    simp [resetSeconds]; norm_num
  rcases ha.1 with c | c <;> rcases ha.2.1 with t | t <;> rw [c, t]
  · rw [e1, f1]; decide
  · rw [e2, f2]; decide
  · rw [e3, f3]; decide
  · rw [e4, f4]; decide

/-- Witness for the amended C11: setup of the WS2812B/RGB struct stores 3. -/
theorem C11_reset_blocks_formula_witness :
    (smartLED_initStatic (rawLED 0) (fun _ => 0) (fun _ => 0)).2._resetBlocks = 3 :=
  (C11_reset_blocks_formula (rawLED 0) (smartLED_initStatic (rawLED 0) (fun _ => 0) (fun _ => 0)).2
    (fun _ => 0) (fun _ => 0) (Prod.ext (by decide) rfl)).2.2.2.1 (by decide) (by decide)

/-- C12: reset silence is long enough.  After a successful setup, for either
chip and either layout and whatever the chunk size, `_resetBlocks * _LEDBits`
bit times at 800 kHz (1.25 µs each) last at least the chip's minimum reset
time: 280 µs for WS2811 and 50 µs for WS2812B. -/
theorem C12_reset_silence (s0 s : smartLED_t) (data buf : Nat → Nat)
    (h : smartLED_initStatic s0 data buf = (SMARTLED_SUCCESS, s)) :
    resetSeconds s.chip ≤ ((s._resetBlocks * s._LEDBits : ℕ) : ℚ) / 800000 ∧
    (s.chip = WS2811 → (280 : ℚ) ≤ ((s._resetBlocks * s._LEDBits : ℕ) : ℚ) * (5 / 4)) ∧
    (s.chip = WS2812B → (50 : ℚ) ≤ ((s._resetBlocks * s._LEDBits : ℕ) : ℚ) * (5 / 4)) := by
  obtain ⟨ha, hchip, htype, -, -, hB, hR⟩ := initStatic_success s0 s data buf h
  obtain ⟨v1, v2, v3, v4⟩ := resetBlocks_values
  rw [hchip, hB, hR]
  rcases ha.1 with c | c <;> rcases ha.2.1 with t | t <;> rw [c, t]
  · have e : (if WS2811 = WS2811 then resetBlocksOf 280 (8 * SMARTLED_RGB)
        else resetBlocksOf 50 (8 * SMARTLED_RGB)) = 11 := v1
    rw [e]
    simp [resetSeconds]
    norm_num
  · have e : (if WS2811 = WS2811 then resetBlocksOf 280 (8 * SMARTLED_RGBW)
        else resetBlocksOf 50 (8 * SMARTLED_RGBW)) = 9 := v2
    rw [e]
    simp [resetSeconds]
    norm_num
  · have e : (if WS2812B = WS2811 then resetBlocksOf 280 (8 * SMARTLED_RGB)
        else resetBlocksOf 50 (8 * SMARTLED_RGB)) = 3 := v3
    rw [e]
    simp [resetSeconds]
    norm_num
  · have e : (if WS2812B = WS2811 then resetBlocksOf 280 (8 * SMARTLED_RGBW)
        else resetBlocksOf 50 (8 * SMARTLED_RGBW)) = 3 := v4
    rw [e]
    simp [resetSeconds]
    norm_num

/-- Witness for C12 on the setup that produced the RGBW sample (WS2811, RGBW):
9 blocks of 32 bit times last at least 280 µs. -/
theorem C12_reset_silence_witness :
    (280 : ℚ) ≤ ((sampleRGBW._resetBlocks * sampleRGBW._LEDBits : ℕ) : ℚ) * (5 / 4) :=
  (C12_reset_silence
    { chip := WS2811, type := SMARTLED_RGBW, size := 5, ARR := 99,
      timType := SMARTLED_TIMER_EXTENDED, timChannel := 2, LEDperIRQ := 4,
      _colorsData := fun _ => 0, _dmaBuffer := fun _ => 0, _brightness := 0, _updating := 0,
      _cyclesCnt := 0, _pulseLow := 0, _pulseHigh := 0, _LEDBits := 0, _resetBlocks := 0 }
    sampleRGBW
    (fun n => if n % 4 = 0 then 10 * (n / 4) else if n % 4 = 1 then 3
      else if n % 4 = 2 then 128 else 255)
    (fun _ => 7) (Prod.ext (by decide) rfl)).2.1 (by decide)

/-- C14: setup validation.  `smartLED_initStatic` returns `SMARTLED_ERROR` and
leaves the struct unchanged whenever the chip is not WS2811/WS2812B, the
layout is not RGB/RGBW, `LEDperIRQ` is 0 or `ARR` is 0; it returns
`SMARTLED_SUCCESS` exactly when none of these holds and the timer type is
NORMAL or EXTENDED (and `SMARTLED_ERROR` with the struct unchanged otherwise),
and on success `_brightness = 255` and `_LEDBits = 8 * type`. -/
theorem C14_setup_validation (s : smartLED_t) (data buf : Nat → Nat) :
    ((¬ (s.chip = WS2811 ∨ s.chip = WS2812B) ∨ ¬ (s.type = SMARTLED_RGB ∨ s.type = SMARTLED_RGBW) ∨
        s.LEDperIRQ = 0 ∨ s.ARR = 0) →
      smartLED_initStatic s data buf = (SMARTLED_ERROR, s)) ∧
    ((smartLED_initStatic s data buf).1 = SMARTLED_SUCCESS ↔
      ((s.chip = WS2811 ∨ s.chip = WS2812B) ∧ (s.type = SMARTLED_RGB ∨ s.type = SMARTLED_RGBW) ∧
        s.LEDperIRQ ≠ 0 ∧ s.ARR ≠ 0) ∧
      (s.timType = SMARTLED_TIMER_NORMAL ∨ s.timType = SMARTLED_TIMER_EXTENDED)) ∧
    ((smartLED_initStatic s data buf).1 ≠ SMARTLED_SUCCESS →
      smartLED_initStatic s data buf = (SMARTLED_ERROR, s)) ∧
    ((smartLED_initStatic s data buf).1 = SMARTLED_SUCCESS →
      (smartLED_initStatic s data buf).2._brightness = 255 ∧
        (smartLED_initStatic s data buf).2._LEDBits = 8 * s.type) := by
  have key : (smartLED_initStatic s data buf).1 = SMARTLED_SUCCESS ↔ setupAccepts s := by
    constructor
    · intro h
      by_contra ha
      rw [initStatic_reject s data buf ha] at h
      exact smartLED_retStatus_t.noConfusion h
    · intro ha
      rw [initStatic_accept s data buf ha]
  refine ⟨?_, ?_, ?_, ?_⟩
  · intro hbad
    apply initStatic_reject
    intro ha
    obtain ⟨a1, a2, -, a4, a5⟩ := ha
    rcases hbad with b | b | b | b
    · exact b a1
    · exact b a2
    · omega
    · exact a5 b
  · rw [key]
    unfold setupAccepts
    constructor
    · rintro ⟨a1, a2, a3, a4, a5⟩
      exact ⟨⟨a1, a2, by omega, a5⟩, a3⟩
    · rintro ⟨⟨a1, a2, a4, a5⟩, a3⟩
      exact ⟨a1, a2, a3, by omega, a5⟩
  · intro h
    exact initStatic_reject s data buf (fun ha => h (key.2 ha))
  · intro h
    obtain ⟨-, -, -, -, hb, hB, -⟩ :=
      initStatic_success s (smartLED_initStatic s data buf).2 data buf (Prod.ext h rfl)
    exact ⟨hb, hB⟩

/-- Witness for C14: a struct with chunk size 0 is rejected unchanged. -/
theorem C14_setup_validation_witness :
    smartLED_initStatic { rawLED 0 with LEDperIRQ := 0 } (fun _ => 0) (fun _ => 0) =
      (SMARTLED_ERROR, { rawLED 0 with LEDperIRQ := 0 }) :=
  (C14_setup_validation { rawLED 0 with LEDperIRQ := 0 } (fun _ => 0) (fun _ => 0)).1
    (Or.inr (Or.inr (Or.inl rfl)))

/-- C15 (code behaviour at the failing input): setup of a valid struct whose
`_updating` holds 1 on entry succeeds and leaves `_updating = 1`, so the first
`smartLED_startTransfer` after setup returns `SMARTLED_ERROR`. -/
theorem C15_setup_leaves_updating :
    setupAccepts (rawLED 1) ∧
      (smartLED_initStatic (rawLED 1) (fun _ => 0) (fun _ => 0)).1 = SMARTLED_SUCCESS ∧
      (smartLED_initStatic (rawLED 1) (fun _ => 0) (fun _ => 0)).2._updating = 1 ∧
      (smartLED_startTransfer
        (smartLED_initStatic (rawLED 1) (fun _ => 0) (fun _ => 0)).2).status = SMARTLED_ERROR := by
  decide

/-- C16, as stated, fails: on the short strip (`size = 1`, `LEDperIRQ = 4`,
`_resetBlocks = 3`) the start calls the encoder for LEDs 0..4, the calls for
LEDs 1..4 return `SMARTLED_ERROR`, and the start still returns
`SMARTLED_SUCCESS`. -/
theorem C16_swallowed_failure_counterexample :
    (startTransferCalls shortStrip).map (fun c => (c.item, c.status)) =
        [(0, SMARTLED_SUCCESS), (1, SMARTLED_ERROR), (2, SMARTLED_ERROR), (3, SMARTLED_ERROR),
          (4, SMARTLED_ERROR)] ∧
      (smartLED_startTransfer shortStrip).status = SMARTLED_SUCCESS := by
  decide

/-- C16, amended: the status of the encoder is not propagated.
`smartLED_startTransfer` returns `SMARTLED_SUCCESS` on every idle instance and
`smartLED_updateTransfer` on every busy one; no encoder call made by a
notification fails (its index is below `size`); a call made by the start fails
exactly when its index is at or beyond `size`, and on a configured idle instance
the start calls the encoder for the indices
`0 .. 2 * LEDperIRQ - _resetBlocks - 1`. -/
theorem C16_encoder_status_not_propagated (s : smartLED_t) (PWM_IRQ : Nat) :
    (s._updating = 0 → (smartLED_startTransfer s).status = SMARTLED_SUCCESS) ∧
    (s._updating ≠ 0 → (smartLED_updateTransfer s PWM_IRQ).status = SMARTLED_SUCCESS) ∧
    (∀ c ∈ updateTransferCalls s PWM_IRQ, c.item < s.size ∧ c.status = SMARTLED_SUCCESS) ∧
    (∀ c ∈ startTransferCalls s, (c.status = SMARTLED_ERROR ↔ s.size ≤ c.item)) ∧
    (Configured s → s._updating = 0 →
      (startTransferCalls s).map (fun c => c.item) =
        List.range (2 * s.LEDperIRQ - s._resetBlocks)) := by
  refine ⟨?_, ?_, updateTransferCalls_ok s PWM_IRQ, startTransferCalls_status s,
    startTransferCalls_items s⟩
  · intro hu
    obtain ⟨buf, hb⟩ := startTransfer_idle s hu
    rw [hb]
  · intro hu
    obtain ⟨buf, hb⟩ := updateTransfer_busy s PWM_IRQ hu
    rw [hb]

/-- Witness for the amended C16 on the short strip: the start succeeds and calls
the encoder for LEDs 0..4. -/
theorem C16_encoder_status_not_propagated_witness :
    (smartLED_startTransfer shortStrip).status = SMARTLED_SUCCESS ∧
      (startTransferCalls shortStrip).map (fun c => c.item) =
        List.range (2 * shortStrip.LEDperIRQ - shortStrip._resetBlocks) :=
  ⟨(C16_encoder_status_not_propagated shortStrip 0).1 (by decide),
    (C16_encoder_status_not_propagated shortStrip 0).2.2.2.2 (by decide) (by decide)⟩

/-- C13, as stated, fails: in the worked example the fourth block of the
stream (slot 3) is not all zero, it already carries LED 0, and the stream
stopped by notification 7 has only three zero blocks after it. -/
theorem C13_four_zero_blocks_counterexample :
    sampleLED._resetBlocks = 3 ∧ stopIndex sampleLED = 7 ∧
      streamSlot (txStream sampleLED (stopIndex sampleLED)) 24 3 ≠ List.replicate 24 0 ∧
      (txStream sampleLED (stopIndex sampleLED)).length = (3 + 1 + 3) * 24 := by
  refine ⟨by decide, by decide, by decide, ?_⟩
  rw [(txStream_spec sampleLED (stopIndex sampleLED)).1]
  decide

/-- C13, amended: for a WS2812B, RGB, one-LED, chunk-size-one instance set up by
`smartLED_initStatic` and idle, with LED 0 set to red = 255, green = 0,
blue = 0 (brightness 255 from setup), the stop is commanded by notification 7
and the stream transmitted before it is exactly 3 all-zero 24-value blocks,
then 8 `_pulseLow`, 8 `_pulseHigh`, 8 `_pulseLow`, then exactly 3 all-zero
blocks. -/
theorem C13_worked_example (s0 s1 : smartLED_t) (data buf : Nat → Nat)
    (hchip : s0.chip = WS2812B) (htype : s0.type = SMARTLED_RGB) (hsize : s0.size = 1)
    (hL : s0.LEDperIRQ = 1) (hidle : s0._updating = 0)
    (hinit : smartLED_initStatic s0 data buf = (SMARTLED_SUCCESS, s1)) :
    stopIndex (smartLED_updateRGBColors s1 0 255 0 0) = 7 ∧
    (notification (smartLED_updateRGBColors s1 0 255 0 0) alternating 7).hal =
      [stopCall s1] ∧
    (txStream (smartLED_updateRGBColors s1 0 255 0 0) 7).length = 7 * 24 ∧
    (∀ k, k < 3 →
      streamSlot (txStream (smartLED_updateRGBColors s1 0 255 0 0) 7) 24 k =
        List.replicate 24 0) ∧
    streamSlot (txStream (smartLED_updateRGBColors s1 0 255 0 0) 7) 24 3 =
      List.replicate 8 s1._pulseLow ++ List.replicate 8 s1._pulseHigh ++
        List.replicate 8 s1._pulseLow ∧
    (∀ k, 4 ≤ k → k < 7 →
      streamSlot (txStream (smartLED_updateRGBColors s1 0 255 0 0) 7) 24 k =
        List.replicate 24 0) := by
  obtain ⟨ha, hc1, ht1, hu1, hbr, hB, hR⟩ := initStatic_success s0 s1 data buf hinit
  obtain ⟨hs1, hl1, -, -⟩ := initStatic_success_public s0 s1 data buf hinit
  rw [hchip, htype] at hR
  rw [htype] at hB ht1
  have hR3 : s1._resetBlocks = 3 := by rw [hR]; decide
  have hB24 : s1._LEDBits = 24 := hB.trans (by decide)
  generalize hs : smartLED_updateRGBColors s1 0 255 0 0 = s
  have fR : s._resetBlocks = 3 := by rw [← hs]; exact hR3
  have fB : s._LEDBits = 24 := by rw [← hs]; exact hB24
  have fN : s.size = 1 := by rw [← hs]; show s1.size = 1; rw [hs1, hsize]
  have fL : s.LEDperIRQ = 1 := by rw [← hs]; show s1.LEDperIRQ = 1; rw [hl1, hL]
  have fT : s.type = SMARTLED_RGB := by rw [← hs]; exact ht1
  have fU : s._updating = 0 := by rw [← hs]; show s1._updating = 0; rw [hu1, hidle]
  have hc : Configured s := by
    refine ⟨Or.inl fT, ?_, ?_, ?_, ?_, ?_⟩
    · rw [fB, fT]; decide
    · rw [fL]
    · rw [fL]; decide
    · rw [fN]; decide
    · rw [fR]; decide
  have hstop : stopIndex s = 7 := by
    unfold stopIndex
    rw [fR, fN, fL]
  have hslot : ∀ slot j, slot < 7 →
      (streamSlot (txStream s 7) 24 slot)[j]? =
        if j < 24 then some (framePulse s slot j) else none := by
    intro slot j hlt
    have := txStream_slot s hc (by omega) fU slot j (by rw [hstop, fL]; omega)
    rw [hstop, fB] at this
    exact this
  have hzero : ∀ slot, slot < 7 → slot ≠ 3 →
      streamSlot (txStream s 7) 24 slot = List.replicate 24 0 := by
    intro slot hlt hne
    apply List.ext_getElem?
    intro j
    rw [hslot slot j hlt, List.getElem?_replicate]
    by_cases hj : j < 24
    · rw [if_pos hj, if_pos hj]
      unfold framePulse
      rw [fR, fN]
      have hn : ¬ (3 ≤ slot ∧ slot - 3 < 1 ∧ j < 24) := by omega
      rw [if_neg hn]
    · rw [if_neg hj, if_neg hj]
  refine ⟨hstop, ?_, ?_, ?_, ?_, ?_⟩
  · obtain ⟨b, hb⟩ := notification_outcome s alternating hc (by omega) fU 7 (by omega)
      (by omega)
    have e : stopCall s = stopCall s1 := by rw [← hs]; rfl
    have hn : ¬ 7 < stopIndex s := by omega
    rw [hb, if_neg hn, if_neg hn, e]
  · rw [(txStream_spec s 7).1, fL, fB]
  · intro k hk
    exact hzero k (by omega) (by omega)
  · apply List.ext_getElem?
    intro j
    rw [hslot 3 j (by omega)]
    unfold framePulse
    rw [fR, fN]
    by_cases hj : j < 24
    · have hp : 3 ≤ 3 ∧ 3 - 3 < 1 ∧ j < 24 := ⟨by omega, by omega, hj⟩
      rw [if_pos hj, if_pos hp]
      have e : encodedPulse s (3 - 3) j =
          if (if j < 8 then 0 else if j < 16 then 255 else 0).testBit (7 - j % 8) = true
          then s1._pulseHigh else s1._pulseLow := by
        rw [← hs]
        exact encodedPulse_updateRGBColors s1 0 255 0 0 j hbr (by omega) (by omega) (by omega)
      rw [e]
      interval_cases j <;> rfl
    · rw [if_neg hj]
      symm
      rw [List.getElem?_eq_none_iff]
      simp
      omega
  · intro k h4 h7
    exact hzero k h7 (by omega)

/-- Witness for the amended C13 on the setup of the WS2812B/RGB struct. -/
theorem C13_worked_example_witness :
    stopIndex
        (smartLED_updateRGBColors
          (smartLED_initStatic (rawLED 0) (fun _ => 0) (fun _ => 0)).2 0 255 0 0) = 7 ∧
      streamSlot
          (txStream
            (smartLED_updateRGBColors
              (smartLED_initStatic (rawLED 0) (fun _ => 0) (fun _ => 0)).2 0 255 0 0) 7) 24 2 =
        List.replicate 24 0 :=
  ⟨(C13_worked_example (rawLED 0) (smartLED_initStatic (rawLED 0) (fun _ => 0) (fun _ => 0)).2
      (fun _ => 0) (fun _ => 0) rfl rfl rfl rfl rfl (Prod.ext (by decide) rfl)).1,
    (C13_worked_example (rawLED 0) (smartLED_initStatic (rawLED 0) (fun _ => 0) (fun _ => 0)).2
      (fun _ => 0) (fun _ => 0) rfl rfl rfl rfl rfl (Prod.ext (by decide) rfl)).2.2.2.1 2
      (by decide)⟩

/-- C17: bounded write footprint of the encoder.  For `item < size` on an instance
whose slot width is at least 24 (as after setup) and an offset whose index sums
stay in `uint32_t` (`offset + 24 ≤ 2 ^ 32`, so the encoder with `uint32_t` sums
and the one with exact sums coincide), the encoder changes
no buffer entry outside `[offset, offset + _LEDBits)` and no other field: the
color store keeps its bytes and `_brightness` is unchanged, so after
`smartLED_setBrightness` the next encode of the same LED writes the pulses of
the stored bytes scaled by the new brightness. -/
theorem C17_encode_footprint (s : smartLED_t) (item offset : Nat) (hi : item < s.size)
    (hB : 24 ≤ s._LEDBits) (hoff : offset + 24 ≤ 2 ^ 32) :
    smartLED_fillDMABuffer_u32 s item offset = smartLED_fillDMABuffer s item offset ∧
    (∀ p, ¬ (offset ≤ p ∧ p < offset + s._LEDBits) →
      (smartLED_fillDMABuffer s item offset).2._dmaBuffer p = s._dmaBuffer p) ∧
    (smartLED_fillDMABuffer s item offset).2 =
      { s with _dmaBuffer := (smartLED_fillDMABuffer s item offset).2._dmaBuffer } ∧
    (smartLED_fillDMABuffer s item offset).2._colorsData = s._colorsData ∧
    (smartLED_fillDMABuffer s item offset).2._brightness = s._brightness ∧
    (∀ brightness q, q < 24 →
      (smartLED_fillDMABuffer
          (smartLED_setBrightness (smartLED_fillDMABuffer s item offset).2 brightness) item
          offset).2._dmaBuffer (offset + q) =
        pulse s
          (scale (s._colorsData (item * s.type + channelOf q)) ((brightness &&& 0xFF) % 256))
          (7 - q % 8)) := by
  refine ⟨fillDMABuffer_u32_eq s item offset hoff, ?_, ?_, ?_, ?_, ?_⟩
  · intro p hp
    rw [fill_snd]
    simp only [withBuf]
    rw [if_neg (fun hh => hp ⟨hh.2.1, by omega⟩)]
  · rw [fill_snd]
    rfl
  · rw [fill_snd]
    rfl
  · rw [fill_snd]
    rfl
  · intro brightness q hq
    rw [fill_snd s item offset]
    rw [fill_snd]
    simp only [withBuf, smartLED_setBrightness]
    have hp : item < s.size ∧ offset ≤ offset + q ∧ offset + q < offset + 24 :=
      ⟨hi, by omega, by omega⟩
    rw [if_pos hp]
    have e : offset + q - offset = q := by omega
    rw [e]
    rfl

/-- Witness for C17 on the RGBW sample: encoding LED 1 at offset 32 leaves the
entry at 64 unchanged. -/
theorem C17_encode_footprint_witness :
    (smartLED_fillDMABuffer sampleRGBW 1 32).2._dmaBuffer 64 = sampleRGBW._dmaBuffer 64 :=
  (C17_encode_footprint sampleRGBW 1 32 (by decide) (by decide) (by decide)).2.1 64 (by decide)

/-- C18: cycle-counter invariant.  On a configured idle instance with
`2R + N > 0`, the start sets `_cyclesCnt = L`; in every state reached after it
by any sequence of notifications, while `_updating = 1` the counter is a
multiple of `L` with `L ≤ _cyclesCnt < 2R + N + L`, and the next notification
increases it by exactly `L` (no wrap-around). -/
theorem C18_cycle_counter (s : smartLED_t) (hc : Configured s)
    (hM : 0 < 2 * s._resetBlocks + s.size) (hu : s._updating = 0) (hs : Nat → Nat) :
    (smartLED_startTransfer s).led._cyclesCnt = s.LEDperIRQ ∧
    (∀ k, (afterNotifs s hs k)._updating = 1 →
      s.LEDperIRQ ∣ (afterNotifs s hs k)._cyclesCnt ∧
      s.LEDperIRQ ≤ (afterNotifs s hs k)._cyclesCnt ∧
      (afterNotifs s hs k)._cyclesCnt < 2 * s._resetBlocks + s.size + s.LEDperIRQ) ∧
    (∀ k, (afterNotifs s hs k)._updating = 1 →
      (afterNotifs s hs (k + 1))._cyclesCnt = (afterNotifs s hs k)._cyclesCnt + s.LEDperIRQ ∧
      (afterNotifs s hs k)._cyclesCnt < (afterNotifs s hs (k + 1))._cyclesCnt) := by
  obtain ⟨n1, n2, n3⟩ := stopIndex_spec s hc.2.2.1 hM
  have hL1 : 1 ≤ s.LEDperIRQ := hc.2.2.1
  refine ⟨?_, ?_, ?_⟩
  · obtain ⟨buf, hb⟩ := startTransfer_idle s hu
    rw [hb]
    rfl
  · intro k hk
    rcases afterNotifs_cases s hs hc hM hu k with ⟨h1, -, h3⟩ | ⟨-, h2⟩
    · have hle : k * s.LEDperIRQ ≤ (stopIndex s - 1) * s.LEDperIRQ :=
        Nat.mul_le_mul_right _ (by omega)
      have e : (k + 1) * s.LEDperIRQ = k * s.LEDperIRQ + s.LEDperIRQ := Nat.succ_mul _ _
      rw [h3]
      refine ⟨Nat.dvd_mul_left _ _, ?_, ?_⟩
      · rw [e]; omega
      · rw [e]; omega
    · rw [h2] at hk
      exact absurd hk (by decide)
  · intro k hk
    rcases afterNotifs_cases s hs hc hM hu k with ⟨h1, -, h3⟩ | ⟨-, h2⟩
    · obtain ⟨buf, hb⟩ := notification_outcome s hs hc hM hu (k + 1) (by omega) (by omega)
      have hn : afterNotifs s hs (k + 1) = (notification s hs (k + 1)).led := rfl
      rw [hn, hb, h3]
      have e : (k + 1 + 1) * s.LEDperIRQ = (k + 1) * s.LEDperIRQ + s.LEDperIRQ :=
        Nat.succ_mul _ _
      constructor
      · exact e
      · show (k + 1) * s.LEDperIRQ < (k + 1 + 1) * s.LEDperIRQ
        rw [e]; omega
    · rw [h2] at hk
      exact absurd hk (by decide)

/-- Witness for C18 on the RGBW sample with alternating half ids: after four
notifications the instance is busy and the next one adds `LEDperIRQ`. -/
theorem C18_cycle_counter_witness :
    (afterNotifs sampleRGBW alternating 5)._cyclesCnt =
      (afterNotifs sampleRGBW alternating 4)._cyclesCnt + sampleRGBW.LEDperIRQ :=
  ((C18_cycle_counter sampleRGBW (by decide) (by decide) (by decide) alternating).2.2 4
    (by decide)).1

/-- C19: data-range refill.  On a configured busy instance whose advanced
counter `c = _cyclesCnt + LEDperIRQ` satisfies `R ≤ c < R + N`, the notification
for half `h` returns `SMARTLED_SUCCESS`, keeps `_updating`, and with
`m = min L (N - (c - R))` leaves slot `j < m` of the half as the encoder's
output for LED `c - R + j` at that slot (24 pulses), and every entry of slots
`m .. L - 1` of the half zero. -/
theorem C19_data_range_refill (s : smartLED_t) (h : Nat) (hc : Configured s)
    (hu : s._updating ≠ 0) (hh : h = SMARTLED_IRQ_HALFCPLT ∨ h = SMARTLED_IRQ_FINISHED)
    (h1 : s._resetBlocks ≤ s._cyclesCnt + s.LEDperIRQ)
    (h2 : s._cyclesCnt + s.LEDperIRQ < s._resetBlocks + s.size) :
    (smartLED_updateTransfer s h).status = SMARTLED_SUCCESS ∧
    (smartLED_updateTransfer s h).led._updating = s._updating ∧
    (∀ j q, j < min s.LEDperIRQ (s.size - (s._cyclesCnt + s.LEDperIRQ - s._resetBlocks)) →
      q < s._LEDBits →
      (smartLED_updateTransfer s h).led._dmaBuffer
          (h * (s.LEDperIRQ * s._LEDBits) + j * s._LEDBits + q) =
        (smartLED_fillDMABuffer s (s._cyclesCnt + s.LEDperIRQ - s._resetBlocks + j)
          (h * (s.LEDperIRQ * s._LEDBits) + j * s._LEDBits)).2._dmaBuffer
          (h * (s.LEDperIRQ * s._LEDBits) + j * s._LEDBits + q) ∧
      (q < 24 →
        (smartLED_updateTransfer s h).led._dmaBuffer
            (h * (s.LEDperIRQ * s._LEDBits) + j * s._LEDBits + q) =
          encodedPulse s (s._cyclesCnt + s.LEDperIRQ - s._resetBlocks + j) q)) ∧
    (∀ j q, min s.LEDperIRQ (s.size - (s._cyclesCnt + s.LEDperIRQ - s._resetBlocks)) ≤ j →
      j < s.LEDperIRQ → q < s._LEDBits →
      (smartLED_updateTransfer s h).led._dmaBuffer
          (h * (s.LEDperIRQ * s._LEDBits) + j * s._LEDBits + q) = 0) := by
  have hc' := hc
  obtain ⟨-, -, hL1, hL, hN, hR⟩ := hc'
  have ec : (s._cyclesCnt + s.LEDperIRQ) % 2 ^ 32 = s._cyclesCnt + s.LEDperIRQ :=
    Nat.mod_eq_of_lt (by omega)
  obtain ⟨buf, hb⟩ := updateTransfer_busy s h hu
  obtain ⟨buf', e1, -, e3⟩ := updateTransfer_spec s h hc hu hh
  rw [ec] at e3 hb
  refine ⟨by rw [hb], ?_, ?_, ?_⟩
  · rw [hb]
    show (if s._cyclesCnt + s.LEDperIRQ < 2 * s._resetBlocks + s.size + s.LEDperIRQ
      then s._updating else 0) = s._updating
    rw [if_pos (by omega)]
  · intro j q hj hq
    have a := e3 j q hq
    have n1 : ¬ s._cyclesCnt + s.LEDperIRQ < s._resetBlocks := by omega
    have n2 : s._cyclesCnt + s.LEDperIRQ + j - s._resetBlocks < s.size := by omega
    have n3 : j < s.LEDperIRQ := by omega
    rw [if_pos n3, if_neg n1, if_pos h2, if_pos n2] at a
    have ei : s._cyclesCnt + s.LEDperIRQ + j - s._resetBlocks
        = s._cyclesCnt + s.LEDperIRQ - s._resetBlocks + j := by omega
    rw [ei] at a n2
    rw [e1, a, fill_snd]
    simp only [withBuf]
    constructor
    · by_cases hq24 : q < 24
      · rw [if_pos hq24, if_pos ⟨n2, by omega, by omega⟩]
        congr 1
        omega
      · rw [if_neg hq24, if_neg (fun hp => hq24 (by omega))]
    · intro hq24
      rw [if_pos hq24]
  · intro j q hj hjL hq
    have a := e3 j q hq
    have n1 : ¬ s._cyclesCnt + s.LEDperIRQ < s._resetBlocks := by omega
    have n2 : ¬ s._cyclesCnt + s.LEDperIRQ + j - s._resetBlocks < s.size := by omega
    rw [if_pos hjL, if_neg n1, if_pos h2, if_neg n2] at a
    rw [e1, a]

/-- Witness for C19 on the RGBW sample, two notifications into its frame
(`c = 12`, `R = 9`, `N = 5`): slot 2 of half 0 is cleared. -/
theorem C19_data_range_refill_witness :
    (smartLED_updateTransfer (afterNotifs sampleRGBW alternating 1)
        SMARTLED_IRQ_HALFCPLT).led._dmaBuffer (0 * (4 * 32) + 2 * 32 + 5) = 0 :=
  (C19_data_range_refill (afterNotifs sampleRGBW alternating 1) SMARTLED_IRQ_HALFCPLT
    (by decide) (by decide) (Or.inl rfl) (by decide) (by decide)).2.2.2 2 5 (by decide)
    (by decide) (by decide)

/-- C20: preamble-range refill.  On a configured busy instance whose advanced
counter `c = _cyclesCnt + LEDperIRQ` is below `R`, the notification for half `h`
leaves the buffer entirely unchanged when `c + L ≤ R`; otherwise, with
`d = R - c`, slots `0 .. d - 1` of the half are unchanged, slot `d + i` of the
half receives the encoder's output for LED `i` for every `i` with `d + i < L`
and `i < N`, and no other buffer entry changes. -/
theorem C20_preamble_range_refill (s : smartLED_t) (h : Nat) (hc : Configured s)
    (hu : s._updating ≠ 0) (hh : h = SMARTLED_IRQ_HALFCPLT ∨ h = SMARTLED_IRQ_FINISHED)
    (h1 : s._cyclesCnt + s.LEDperIRQ < s._resetBlocks) :
    (s._cyclesCnt + s.LEDperIRQ + s.LEDperIRQ ≤ s._resetBlocks →
      ∀ p, (smartLED_updateTransfer s h).led._dmaBuffer p = s._dmaBuffer p) ∧
    (s._resetBlocks < s._cyclesCnt + s.LEDperIRQ + s.LEDperIRQ →
      (∀ t q, t < s._resetBlocks - (s._cyclesCnt + s.LEDperIRQ) → q < s._LEDBits →
        (smartLED_updateTransfer s h).led._dmaBuffer
            (h * (s.LEDperIRQ * s._LEDBits) + t * s._LEDBits + q) =
          s._dmaBuffer (h * (s.LEDperIRQ * s._LEDBits) + t * s._LEDBits + q)) ∧
      (∀ i q, s._resetBlocks - (s._cyclesCnt + s.LEDperIRQ) + i < s.LEDperIRQ → i < s.size →
        q < s._LEDBits →
        (smartLED_updateTransfer s h).led._dmaBuffer
            (h * (s.LEDperIRQ * s._LEDBits) +
              (s._resetBlocks - (s._cyclesCnt + s.LEDperIRQ) + i) * s._LEDBits + q) =
          (smartLED_fillDMABuffer s i
            (h * (s.LEDperIRQ * s._LEDBits) +
              (s._resetBlocks - (s._cyclesCnt + s.LEDperIRQ) + i) * s._LEDBits)).2._dmaBuffer
            (h * (s.LEDperIRQ * s._LEDBits) +
              (s._resetBlocks - (s._cyclesCnt + s.LEDperIRQ) + i) * s._LEDBits + q)) ∧
      (∀ p, (¬ ∃ i q, s._resetBlocks - (s._cyclesCnt + s.LEDperIRQ) + i < s.LEDperIRQ ∧
            i < s.size ∧ q < 24 ∧
            p = h * (s.LEDperIRQ * s._LEDBits) +
              (s._resetBlocks - (s._cyclesCnt + s.LEDperIRQ) + i) * s._LEDBits + q) →
        (smartLED_updateTransfer s h).led._dmaBuffer p = s._dmaBuffer p)) := by
  have hc' := hc
  obtain ⟨-, -, hL1, hL, hN, hR⟩ := hc'
  obtain ⟨hB, -⟩ := configured_bits s hc
  have hBpos : 0 < s._LEDBits := by omega
  have ec : (s._cyclesCnt + s.LEDperIRQ) % 2 ^ 32 = s._cyclesCnt + s.LEDperIRQ :=
    Nat.mod_eq_of_lt (by omega)
  obtain ⟨buf', e1, e2, e3⟩ := updateTransfer_spec s h hc hu hh
  rw [ec] at e3
  rw [e1]
  have slot : ∀ t q, q < s._LEDBits →
      buf' (h * (s.LEDperIRQ * s._LEDBits) + t * s._LEDBits + q) =
        if t < s.LEDperIRQ ∧ s._resetBlocks ≤ s._cyclesCnt + s.LEDperIRQ + t ∧
            s._cyclesCnt + s.LEDperIRQ + t - s._resetBlocks < s.size ∧ q < 24 then
          encodedPulse s (s._cyclesCnt + s.LEDperIRQ + t - s._resetBlocks) q
        else s._dmaBuffer (h * (s.LEDperIRQ * s._LEDBits) + t * s._LEDBits + q) := by
    intro t q hq
    rw [e3 t q hq]
    by_cases ht : t < s.LEDperIRQ
    · rw [if_pos ht, if_pos h1]
      by_cases hw : s._resetBlocks ≤ s._cyclesCnt + s.LEDperIRQ + t ∧
          s._cyclesCnt + s.LEDperIRQ + t - s._resetBlocks < s.size ∧ q < 24
      · rw [if_pos hw, if_pos ⟨ht, hw⟩]
      · rw [if_neg hw, if_neg (fun hp => hw hp.2)]
    · rw [if_neg ht, if_neg (fun hp => ht hp.1)]
  refine ⟨?_, ?_⟩
  · intro hle p
    by_cases hp : p < h * (s.LEDperIRQ * s._LEDBits)
    · exact e2 p hp
    · obtain ⟨d1, d2⟩ := slot_decompose (h * (s.LEDperIRQ * s._LEDBits)) s._LEDBits p hBpos
        (by omega)
      have a := slot ((p - h * (s.LEDperIRQ * s._LEDBits)) / s._LEDBits) _ d2
      rw [← d1] at a
      rw [a, if_neg (fun hw => by omega)]
  · intro hlt
    refine ⟨?_, ?_, ?_⟩
    · intro t q ht hq
      rw [slot t q hq, if_neg (fun hw => by omega)]
    · intro i q hi hiN hq
      rw [slot _ q hq, fill_snd]
      simp only [withBuf]
      have ei : s._cyclesCnt + s.LEDperIRQ +
          (s._resetBlocks - (s._cyclesCnt + s.LEDperIRQ) + i) - s._resetBlocks = i := by omega
      rw [ei]
      by_cases hq24 : q < 24
      · rw [if_pos ⟨hi, by omega, hiN, hq24⟩, if_pos ⟨hiN, by omega, by omega⟩]
        congr 1
        omega
      · rw [if_neg (fun hw => hq24 hw.2.2.2), if_neg (fun hw => hq24 (by omega))]
    · intro p hp
      by_cases hlow : p < h * (s.LEDperIRQ * s._LEDBits)
      · exact e2 p hlow
      · obtain ⟨d1, d2⟩ := slot_decompose (h * (s.LEDperIRQ * s._LEDBits)) s._LEDBits p hBpos
          (by omega)
        have a := slot ((p - h * (s.LEDperIRQ * s._LEDBits)) / s._LEDBits) _ d2
        rw [← d1] at a
        rw [a, if_neg]
        intro hw
        apply hp
        refine ⟨s._cyclesCnt + s.LEDperIRQ +
          (p - h * (s.LEDperIRQ * s._LEDBits)) / s._LEDBits - s._resetBlocks,
          (p - h * (s.LEDperIRQ * s._LEDBits)) % s._LEDBits, by omega, hw.2.2.1, hw.2.2.2, ?_⟩
        have et : s._resetBlocks - (s._cyclesCnt + s.LEDperIRQ) +
            (s._cyclesCnt + s.LEDperIRQ +
              (p - h * (s.LEDperIRQ * s._LEDBits)) / s._LEDBits - s._resetBlocks)
            = (p - h * (s.LEDperIRQ * s._LEDBits)) / s._LEDBits := by omega
        rw [et]
        exact d1

/-- Witness for C20 on the RGBW sample right after its start (`c = 8`, `R = 9`,
`L = 4`, so `d = 1`): slot 0 of half 0 is left unchanged. -/
theorem C20_preamble_range_refill_witness :
    (smartLED_updateTransfer (afterNotifs sampleRGBW alternating 0)
        SMARTLED_IRQ_HALFCPLT).led._dmaBuffer (0 * (4 * 32) + 0 * 32 + 5) =
      (afterNotifs sampleRGBW alternating 0)._dmaBuffer (0 * (4 * 32) + 0 * 32 + 5) :=
  ((C20_preamble_range_refill (afterNotifs sampleRGBW alternating 0) SMARTLED_IRQ_HALFCPLT
    (by decide) (by decide) (Or.inl rfl) (by decide)).2 (by decide)).1 0 5 (by decide)
    (by decide)

/-- C21 (as stated, refuted): on the short strip after setup (`_resetBlocks = 3`,
`size = 1`, `LEDperIRQ = 4`) the frame ends at notification 2; notification 1
clears half 0 in the postamble branch, notification 2 stops the transfer, and
no notification of the frame clears half 1. -/
theorem C21_clear_each_half_counterexample :
    Configured shortStrip ∧ shortStrip._updating = 0 ∧ stopIndex shortStrip = 2 ∧
      frameClear shortStrip 1 = some SMARTLED_IRQ_HALFCPLT ∧
      frameClear shortStrip 2 = none ∧ (frameState shortStrip 2)._updating = 0 ∧
      ¬ ∃ n, 1 ≤ n ∧ n ≤ stopIndex shortStrip ∧
        frameClear shortStrip n = some SMARTLED_IRQ_FINISHED := by
  refine ⟨by decide, by decide, by decide, by decide, by decide, by decide, ?_⟩
  rintro ⟨n, h1, h2, h3⟩
  have hs : stopIndex shortStrip = 2 := by decide
  rw [hs] at h2
  interval_cases n
  · exact absurd h3 (by decide)
  · exact absurd h3 (by decide)

/-- C21 (amended): in the notification sequence of one frame, with half ids
alternating from `smartLED_startTransfer`, the postamble clear executes at
most once for each half; when `LEDperIRQ ≤ _resetBlocks` it executes exactly
once for half 0 and exactly once for half 1, each time before the stopping
notification. -/
theorem C21_postamble_clears (s : smartLED_t) (hc : Configured s) (hN : 1 ≤ s.size)
    (hu : s._updating = 0) :
    (∀ n m h, 1 ≤ n → 1 ≤ m → frameClear s n = some h → frameClear s m = some h → n = m) ∧
      (s.LEDperIRQ ≤ s._resetBlocks →
        ∀ h, h = SMARTLED_IRQ_HALFCPLT ∨ h = SMARTLED_IRQ_FINISHED →
          ∃ n, 1 ≤ n ∧ n < stopIndex s ∧ frameClear s n = some h ∧
            ∀ m, 1 ≤ m → frameClear s m = some h → m = n) := by
  have hM : 0 < 2 * s._resetBlocks + s.size := by omega
  refine ⟨fun n m h hn hm h1 h2 => frameClear_unique s hc hM hu n m h hn hm h1 h2, ?_⟩
  intro hLR h hh
  obtain ⟨n, n1, n2, n3⟩ := frameClear_exists s hc hN hu hLR h hh
  exact ⟨n, n1, n2, n3, fun m hm h2 => frameClear_unique s hc hM hu m n h hm n1 h2 n3⟩

/-- C21 (amended), instance: the WS2812B / RGB sample strip (`_resetBlocks = 3`,
`LEDperIRQ = 1`). -/
theorem C21_postamble_clears_witness :
    Configured sampleLED ∧ 1 ≤ sampleLED.size ∧ sampleLED._updating = 0 ∧
      ((∀ n m h, 1 ≤ n → 1 ≤ m → frameClear sampleLED n = some h →
          frameClear sampleLED m = some h → n = m) ∧
        (sampleLED.LEDperIRQ ≤ sampleLED._resetBlocks →
          ∀ h, h = SMARTLED_IRQ_HALFCPLT ∨ h = SMARTLED_IRQ_FINISHED →
            ∃ n, 1 ≤ n ∧ n < stopIndex sampleLED ∧ frameClear sampleLED n = some h ∧
              ∀ m, 1 ≤ m → frameClear sampleLED m = some h → m = n)) :=
  ⟨by decide, by decide, by decide,
    C21_postamble_clears sampleLED (by decide) (by decide) (by decide)⟩

/-- C22, as stated, fails: setup accepts `ARR = 1` and stores `_pulseLow = 65535`
(the unsigned `0 - 1`, cut to 16 bits) and `_pulseHigh = 0`, so `_pulseLow` is
not below `_pulseHigh`. -/
theorem C22_pulse_order_counterexample :
    (smartLED_initStatic { rawLED 0 with ARR := 1 } (fun _ => 0) (fun _ => 0)).1 =
        SMARTLED_SUCCESS ∧
      (smartLED_initStatic { rawLED 0 with ARR := 1 } (fun _ => 0) (fun _ => 0)).2._pulseLow =
        65535 ∧
      (smartLED_initStatic { rawLED 0 with ARR := 1 } (fun _ => 0) (fun _ => 0)).2._pulseHigh =
        0 ∧
      ¬ ((smartLED_initStatic { rawLED 0 with ARR := 1 } (fun _ => 0) (fun _ => 0)).2._pulseLow <
        (smartLED_initStatic { rawLED 0 with ARR := 1 } (fun _ => 0) (fun _ => 0)).2._pulseHigh) := by
  decide

/-- C22, amended: for every timer period `3 ≤ ARR ≤ 87381` on which setup
succeeds, the stored values are `_pulseLow = (ARR + 1) / 4 - 1` and
`_pulseHigh = 3 * (ARR + 1) / 4 - 1`, without wrap or truncation, and satisfy
`_pulseLow < _pulseHigh ≤ ARR`. -/
theorem C22_pulse_widths (s : smartLED_t) (data buf : Nat → Nat) (ha : setupAccepts s)
    (h3 : 3 ≤ s.ARR) (hmax : s.ARR ≤ 87381) :
    (smartLED_initStatic s data buf).2._pulseLow = (s.ARR + 1) / 4 - 1 ∧
    (smartLED_initStatic s data buf).2._pulseHigh = 3 * (s.ARR + 1) / 4 - 1 ∧
    (smartLED_initStatic s data buf).2._pulseLow < (smartLED_initStatic s data buf).2._pulseHigh ∧
    (smartLED_initStatic s data buf).2._pulseHigh ≤ s.ARR := by
  rw [initStatic_accept s data buf ha]
  simp only [ARR_MODULUS]
  have e1 : (s.ARR + 1) % 2 ^ 32 = s.ARR + 1 := Nat.mod_eq_of_lt (by omega)
  have e2 : (1 * (s.ARR + 1)) % 2 ^ 32 = s.ARR + 1 := by
    rw [Nat.one_mul]; exact e1
  have e3 : (3 * (s.ARR + 1)) % 2 ^ 32 = 3 * (s.ARR + 1) := Nat.mod_eq_of_lt (by omega)
  have dec : ∀ y, 1 ≤ y → y ≤ 65536 → ((y + (2 ^ 32 - 1)) % 2 ^ 32) % 2 ^ 16 = y - 1 := by
    intro y h1 h2
    omega
  have l1 : 1 ≤ (s.ARR + 1) / 4 := by omega
  have l2 : (s.ARR + 1) / 4 ≤ 65536 := by omega
  have l3 : 1 ≤ 3 * (s.ARR + 1) / 4 := by omega
  have l4 : 3 * (s.ARR + 1) / 4 ≤ 65536 := by omega
  rw [e1, e2, e3, dec _ l1 l2, dec _ l3 l4]
  omega

/-- Witness for the amended C22 on the WS2812B/RGB struct with `ARR = 99`. -/
theorem C22_pulse_widths_witness :
    (smartLED_initStatic (rawLED 0) (fun _ => 0) (fun _ => 0)).2._pulseLow <
      (smartLED_initStatic (rawLED 0) (fun _ => 0) (fun _ => 0)).2._pulseHigh :=
  (C22_pulse_widths (rawLED 0) (fun _ => 0) (fun _ => 0) (by decide) (by decide)
    (by decide)).2.2.1

/-- C23: the encoder's index error is unreachable from notifications.  In every
state and for every half id, each call `smartLED_updateTransfer` makes to
`smartLED_fillDMABuffer` passes an LED index below `size` and returns
`SMARTLED_SUCCESS`. -/
theorem C23_no_index_error (s : smartLED_t) (PWM_IRQ : Nat) (c : EncoderCall)
    (hc : c ∈ updateTransferCalls s PWM_IRQ) :
    c.item < s.size ∧ c.status = SMARTLED_SUCCESS :=
  updateTransferCalls_ok s PWM_IRQ c hc

/-- Witness for C23 on the RGBW sample, second notification of its frame: the
call for LED 4 (the last LED) is accepted. -/
theorem C23_no_index_error_witness :
    (4 : Nat) < (afterNotifs sampleRGBW alternating 1).size ∧
      SMARTLED_SUCCESS = SMARTLED_SUCCESS :=
  C23_no_index_error (afterNotifs sampleRGBW alternating 1) SMARTLED_IRQ_HALFCPLT
    ⟨4, 32, SMARTLED_SUCCESS⟩ (by decide)

/-- C25: brightness scaling.  For bytes `c` and `b` the scaled value is
`c * b / 255` with no wrap or truncation, it is at most `c`, equals `c` at
`b = 255` and `0` at `b = 0`, and is non-decreasing in `b`; at brightness 0
every pulse the encoder writes for an LED is `_pulseLow`. -/
theorem C25_brightness_scaling (c b : Nat) (hc : c < 256) (hb : b < 256) :
    scale c b = c * b / 255 ∧ scale c b ≤ c ∧ scale c 255 = c ∧ scale c 0 = 0 ∧
    (∀ b', b ≤ b' → b' < 256 → scale c b ≤ scale c b') ∧
    (∀ (s : smartLED_t) (item offset q : Nat), item < s.size → s._brightness = 0 → q < 24 →
      (smartLED_fillDMABuffer s item offset).2._dmaBuffer (offset + q) = s._pulseLow) := by
  have hle : c * b ≤ c * 255 := Nat.mul_le_mul_left c (by omega)
  refine ⟨scale_eq c b hc hb, ?_, ?_, ?_, ?_, ?_⟩
  · rw [scale_eq c b hc hb]
    omega
  · rw [scale_eq c 255 hc (by omega)]
    omega
  · rw [scale_eq c 0 hc (by omega)]
    simp
  · intro b' hbb hb'
    rw [scale_eq c b hc hb, scale_eq c b' hc hb']
    exact Nat.div_le_div_right (Nat.mul_le_mul_left c hbb)
  · intro s item offset q hi hz hq
    rw [fill_snd]
    simp only [withBuf]
    have hp : item < s.size ∧ offset ≤ offset + q ∧ offset + q < offset + 24 :=
      ⟨hi, by omega, by omega⟩
    rw [if_pos hp]
    unfold encodedPulse
    rw [hz]
    have e : scale (s._colorsData (item * s.type + channelOf (offset + q - offset))) 0 = 0 := by
      unfold scale
      simp
    rw [e, pulse_eq]
    simp

/-- Witness for C25: byte 200 at brightness 128 scales to 100. -/
theorem C25_brightness_scaling_witness : scale 200 128 = 200 * 128 / 255 ∧ scale 200 128 ≤ 200 :=
  ⟨(C25_brightness_scaling 200 128 (by decide) (by decide)).1,
    (C25_brightness_scaling 200 128 (by decide) (by decide)).2.1⟩

/-- C24: frames are independent and restartable.  In the state left by the
stopping notification of a frame (any half ids) the instance is idle,
`smartLED_startTransfer` returns `SMARTLED_SUCCESS`, and the resulting
`_updating`, `_cyclesCnt` and the `2 * L * B` buffer entries are those produced
by the first start, whatever the previous frame left in the buffer and in
`_cyclesCnt`. -/
theorem C24_restartable (s : smartLED_t) (hc : Configured s)
    (hM : 0 < 2 * s._resetBlocks + s.size) (hu : s._updating = 0) (hs : Nat → Nat) :
    (afterNotifs s hs (stopIndex s))._updating = 0 ∧
    (smartLED_startTransfer (afterNotifs s hs (stopIndex s))).status = SMARTLED_SUCCESS ∧
    (smartLED_startTransfer (afterNotifs s hs (stopIndex s))).led._updating =
      (smartLED_startTransfer s).led._updating ∧
    (smartLED_startTransfer (afterNotifs s hs (stopIndex s))).led._cyclesCnt =
      (smartLED_startTransfer s).led._cyclesCnt ∧
    (∀ p, p < 2 * s.LEDperIRQ * s._LEDBits →
      (smartLED_startTransfer (afterNotifs s hs (stopIndex s))).led._dmaBuffer p =
        (smartLED_startTransfer s).led._dmaBuffer p) := by
  obtain ⟨n1, -, -⟩ := stopIndex_spec s hc.2.2.1 hM
  obtain ⟨buf, hb⟩ := notification_outcome s hs hc hM hu (stopIndex s) n1 (Nat.le_refl _)
  rw [afterNotifs_succ s hs _ n1, hb, if_neg (Nat.lt_irrefl _)]
  exact ⟨rfl, startTransfer_indep s hc hu _ buf⟩

/-- Witness for C24 on the RGBW sample with alternating half ids: the restart
after the stop succeeds. -/
theorem C24_restartable_witness :
    (smartLED_startTransfer (afterNotifs sampleRGBW alternating (stopIndex sampleRGBW))).status =
      SMARTLED_SUCCESS :=
  (C24_restartable sampleRGBW (by decide) (by decide) (by decide) alternating).2.1

/-- C26: the white slot stays silent on RGBW strips.  For a configured idle
RGBW instance, after the start and after any sequence of notifications with
half ids 0 or 1, the buffer entries `32 * t + 24 .. 32 * t + 31` are 0 for every
slot `t < 2 * LEDperIRQ`, whatever the color store and the brightness. -/
theorem C26_white_slot_silent (s : smartLED_t) (hc : Configured s)
    (hT : s.type = SMARTLED_RGBW) (hu : s._updating = 0) (hs : Nat → Nat)
    (hhs : ∀ k, hs k = SMARTLED_IRQ_HALFCPLT ∨ hs k = SMARTLED_IRQ_FINISHED) (k t j : Nat)
    (ht : t < 2 * s.LEDperIRQ) (h24 : 24 ≤ j) (h32 : j < 32) :
    (afterNotifs s hs k)._dmaBuffer (32 * t + j) = 0 :=
  white_entries_zero s hc hT hu hs hhs k (32 * t + j) (by omega) (by omega)

/-- Witness for C26 on the RGBW sample (every white byte 255, brightness 255),
three notifications into the frame: entry 24 of slot 1 is 0. -/
theorem C26_white_slot_silent_witness :
    (afterNotifs sampleRGBW alternating 3)._dmaBuffer (32 * 1 + 24) = 0 :=
  C26_white_slot_silent sampleRGBW (by decide) (by decide) (by decide) alternating
    (by intro k; unfold alternating; split_ifs <;> simp) 3 1 24 (by decide) (by decide)
    (by decide)

/-- C27: the two copies encode identically.  For every instance state, LED
index and offset whose index sums stay in `uint32_t`
(`startingIdx + 24 ≤ 2 ^ 32`), and every width `elemBits` of the older copy's
buffer element that holds `_pulseLow` and `_pulseHigh` (8 for the older file as
written, whose setup stores both as `uint8_t` values; 16 under
`src/inc/smartLED.h`), `smartLED_fillDMABuffer` of the older copy and of the
newer copy return the same status and leave the same instance, buffer
included; the newer copy is the same with `uint32_t` or exact index sums. -/
theorem C27_copies_encode_alike (elemBits : Nat) (s : smartLED_t) (item startingIdx : Nat)
    (hst : startingIdx + 24 ≤ 2 ^ 32) (hlo : s._pulseLow < 2 ^ elemBits)
    (hhi : s._pulseHigh < 2 ^ elemBits) :
    smartLED_fillDMABuffer_old elemBits s item startingIdx
        = smartLED_fillDMABuffer s item startingIdx ∧
      smartLED_fillDMABuffer_old elemBits s item startingIdx
        = smartLED_fillDMABuffer_u32 s item startingIdx := by
  have main : smartLED_fillDMABuffer_old elemBits s item startingIdx
      = smartLED_fillDMABuffer s item startingIdx := by
    unfold smartLED_fillDMABuffer_old smartLED_fillDMABuffer
    by_cases hi : item ≥ s.size
    · rw [if_pos hi, if_pos hi]
    · rw [if_neg hi, if_neg hi]
      dsimp only
      have hb : (8 + startingIdx) % 2 ^ 32 = startingIdx + 8 := by
        rw [Nat.mod_eq_of_lt (by omega)]
        omega
      have hl := fillLoop_old_eq elemBits s startingIdx
        (scale (s._colorsData (item * s.type)) s._brightness)
        (scale (s._colorsData (item * s.type + 1)) s._brightness)
        (scale (s._colorsData (item * s.type + 2)) s._brightness) hst hlo hhi 8 0 7
        s._dmaBuffer rfl (fun _ => rfl)
      rw [hb, List.range_eq_range']
      exact congrArg (fun buf => (SMARTLED_SUCCESS, { s with _dmaBuffer := buf })) hl
  exact ⟨main, main.trans (fillDMABuffer_u32_eq s item startingIdx hst).symm⟩

/-- C27, instance: LED 4 of the WS2811 / RGBW sample strip (pulse values 24 and
74) encoded at offset 32 by the older copy into `uint8_t` elements and by the
newer copy. -/
theorem C27_copies_encode_alike_witness :
    32 + 24 ≤ 2 ^ 32 ∧ sampleRGBW._pulseLow < 2 ^ 8 ∧ sampleRGBW._pulseHigh < 2 ^ 8 ∧
      smartLED_fillDMABuffer_old 8 sampleRGBW 4 32 = smartLED_fillDMABuffer sampleRGBW 4 32 :=
  ⟨by decide, by decide, by decide,
    (C27_copies_encode_alike 8 sampleRGBW 4 32 (by decide) (by decide) (by decide)).1⟩

end SmartLED
